import Mathlib

/-! Banner lifecycle and visibility engine (`src/common/js/script.js`).

A shallow embedding of `convertDateStringToDate`, `getBannerStatus` and the
filter and sort steps of `displayImages`, together with the parts of the
ECMAScript `Date`, `String` and `Array` built-ins they call.

Conventions of the embedding.

* A JavaScript string is a `List Char` (`JSString`); its `length` is counted in
  UTF-16 code units (`jsLength`).
* A JavaScript number that the program computes is an `Option Int`: `none` is
  `NaN`, `some n` is the integer `n`.  Every number the modelled code handles is
  an integer produced from decimal digits, from a time value or from differences
  of midnight time values, so integer arithmetic is exact for every result that
  passes `TimeClip`; a value too large for a `Date` becomes `NaN` in `TimeClip`,
  as it does in the engine.
* A `Date` object is its time value (`TimeValue`), milliseconds since the epoch
  or `NaN`; methods that mutate a `Date` return the new time value.
* The clock (`new Date()`) is the parameter `now`; the implementation-defined
  parser behind `new Date(string)` is the parameter `dateParse`.  One pass of
  `displayImages` is taken to run within one reading of the clock: every
  `new Date()` of the pass yields the same `now`.
* `Array.prototype.sort` is a stable insertion sort (`arraySort`).  ECMA-262
  requires stability and fixes the result for a consistent comparator; for an
  inconsistent one the order is implementation-defined.
-/

namespace BannerEngine

/-! ## ECMAScript time values (ECMA-262, section "Date Objects") -/

/-- Number of milliseconds in a day, `1000 * 60 * 60 * 24`. -/
def msPerDay : Int := 86400000

/-- Time value of a `Date`: `none` is `NaN` (an Invalid Date). -/
abbrev TimeValue := Option Int

/-- Abstract operation `Day(t) = floor(t / msPerDay)`. -/
def Day (t : Int) : Int := t / msPerDay

/-- Abstract operation `TimeWithinDay(t) = t modulo msPerDay`. -/
def TimeWithinDay (t : Int) : Int := t % msPerDay

/-- Abstract operation `DaysInYear(y)`. -/
def DaysInYear (y : Int) : Int :=
  if y % 4 ≠ 0 then 365
  else if y % 100 ≠ 0 then 366
  else if y % 400 ≠ 0 then 365
  else 366

/-- Abstract operation `DayFromYear(y)`: day number of 1 January of year `y`. -/
def DayFromYear (y : Int) : Int :=
  365 * (y - 1970) + (y - 1969) / 4 - (y - 1901) / 100 + (y - 1601) / 400

/-- Leap-year flag of year `y`, as 0 or 1. -/
def leapFlag (y : Int) : Int := if DaysInYear y = 366 then 1 else 0

/-- Year containing day number `d`: an estimate from the mean year length,
corrected by one year either way (the largest `y` with `DayFromYear y ≤ d`,
see `yearFromDay_spec`). -/
def yearFromDay (d : Int) : Int :=
  let y := d * 10000 / 3652425 + 1970
  if d < DayFromYear y then y - 1
  else if DayFromYear (y + 1) ≤ d then y + 1
  else y

/-- Abstract operation `YearFromTime(t)`. -/
def YearFromTime (t : Int) : Int := yearFromDay (Day t)

/-- Abstract operation `InLeapYear(t)`, as 0 or 1. -/
def InLeapYear (t : Int) : Int := leapFlag (YearFromTime t)

/-- Abstract operation `DayWithinYear(t)`. -/
def DayWithinYear (t : Int) : Int := Day t - DayFromYear (YearFromTime t)

/-- The month table of `MonthFromTime`: the month (0 to 11) of the day `d` of a
year, `l` being 1 in a leap year and 0 otherwise. -/
def monthOfDay (d l : Int) : Int :=
  if d < 31 then 0
  else if d < 59 + l then 1
  else if d < 90 + l then 2
  else if d < 120 + l then 3
  else if d < 151 + l then 4
  else if d < 181 + l then 5
  else if d < 212 + l then 6
  else if d < 243 + l then 7
  else if d < 273 + l then 8
  else if d < 304 + l then 9
  else if d < 334 + l then 10
  else 11

/-- The day-of-month table of `DateFromTime` for month `m`. -/
def dateOfDay (m d l : Int) : Int :=
  if m = 0 then d + 1
  else if m = 1 then d - 30
  else if m = 2 then d - 58 - l
  else if m = 3 then d - 89 - l
  else if m = 4 then d - 119 - l
  else if m = 5 then d - 150 - l
  else if m = 6 then d - 180 - l
  else if m = 7 then d - 211 - l
  else if m = 8 then d - 242 - l
  else if m = 9 then d - 272 - l
  else if m = 10 then d - 303 - l
  else d - 333 - l

/-- Abstract operation `MonthFromTime(t)`, 0 for January to 11 for December. -/
def MonthFromTime (t : Int) : Int := monthOfDay (DayWithinYear t) (InLeapYear t)

/-- Abstract operation `DateFromTime(t)`, the day of the month from 1. -/
def DateFromTime (t : Int) : Int :=
  dateOfDay (MonthFromTime t) (DayWithinYear t) (InLeapYear t)

/-- Days of a year that precede month `mn` (0 to 11), `l` being 1 in a leap year. -/
def monthStart (mn l : Int) : Int :=
  if mn = 0 then 0
  else if mn = 1 then 31
  else if mn = 2 then 59 + l
  else if mn = 3 then 90 + l
  else if mn = 4 then 120 + l
  else if mn = 5 then 151 + l
  else if mn = 6 then 181 + l
  else if mn = 7 then 212 + l
  else if mn = 8 then 243 + l
  else if mn = 9 then 273 + l
  else if mn = 10 then 304 + l
  else 334 + l

/-- Number of days of year `y` that precede month `mn` (0 to 11). -/
def daysBeforeMonth (y mn : Int) : Int := monthStart mn (leapFlag y)

/-- Abstract operation `MakeTime(hour, min, sec, ms)` on integers. -/
def MakeTime (hour min sec ms : Int) : Int :=
  hour * 3600000 + min * 60000 + sec * 1000 + ms

/-- Abstract operation `MakeDay(year, month, date)` on integers: the day number
of the first day of month `month mod 12` of year `year + floor(month / 12)`,
plus `date - 1`. -/
def MakeDay (year month date : Int) : Int :=
  let ym := year + month / 12
  let mn := month % 12
  DayFromYear ym + daysBeforeMonth ym mn + date - 1

/-- Abstract operation `MakeDate(day, time)`. -/
def MakeDate (day time : Int) : Int := day * msPerDay + time

/-- Abstract operation `TimeClip(time)`: `NaN` beyond 8.64e15 ms from the epoch. -/
def TimeClip (t : Int) : TimeValue :=
  if t.natAbs > 8640000000000000 then none else some t

/-- Model of `Date.UTC(year, month, date)`; a year from 0 to 99 means 1900 + year. -/
def DateUTC (year month date : Option Int) : TimeValue :=
  match year, month, date with
  | some y, some m, some dt =>
    let yr := if 0 ≤ y ∧ y ≤ 99 then 1900 + y else y
    TimeClip (MakeDate (MakeDay yr m dt) (MakeTime 0 0 0 0))
  | _, _, _ => none

/-- Model of `Date.prototype.getUTCFullYear`. -/
def getUTCFullYear (d : TimeValue) : Option Int := d.map YearFromTime

/-- Model of `Date.prototype.getUTCMonth`. -/
def getUTCMonth (d : TimeValue) : Option Int := d.map MonthFromTime

/-- Model of `Date.prototype.getUTCDate`. -/
def getUTCDate (d : TimeValue) : Option Int := d.map DateFromTime

/-- Model of `Date.prototype.setUTCDate(date)`: the new time value. -/
def setUTCDate (d : TimeValue) (date : Option Int) : TimeValue :=
  match d, date with
  | some t, some dt =>
    TimeClip (MakeDate (MakeDay (YearFromTime t) (MonthFromTime t) dt) (TimeWithinDay t))
  | _, _ => none

/-- Model of `Date.prototype.setUTCHours(0, 0, 0, 0)`: the new time value. -/
def setUTCHoursZero (d : TimeValue) : TimeValue :=
  match d with
  | some t => TimeClip (MakeDate (Day t) (MakeTime 0 0 0 0))
  | none => none

/-- Number addition `x + k` with `NaN` propagated. -/
def numAdd (x : Option Int) (k : Int) : Option Int := x.map (· + k)

/-- Number subtraction `x - y` with `NaN` propagated. -/
def numSub (x y : Option Int) : Option Int :=
  match x, y with
  | some a, some b => some (a - b)
  | _, _ => none

/-- The relational operator `x < y` on numbers: false when either side is `NaN`. -/
def numLt (x y : Option Int) : Bool :=
  match x, y with
  | some a, some b => decide (a < b)
  | _, _ => false

/-- The relational operator `x > k`: false on `NaN`. -/
def numGt (x : Option Int) (k : Int) : Bool :=
  match x with
  | some a => decide (a > k)
  | none => false

/-- The relational operator `x >= k`: false on `NaN`. -/
def numGe (x : Option Int) (k : Int) : Bool :=
  match x with
  | some a => decide (a ≥ k)
  | none => false

/-- The expression `Math.floor(x / (1000 * 60 * 60 * 24))`. -/
def floorDays (x : Option Int) : Option Int := x.map (· / msPerDay)

/-- The pair of statements `const now = new Date(); const today = new Date(Date.UTC(
now.getUTCFullYear(), now.getUTCMonth(), now.getUTCDate()))` for a clock reading `now`. -/
def todayOf (now : Int) : TimeValue :=
  DateUTC (getUTCFullYear (some now)) (getUTCMonth (some now)) (getUTCDate (some now))

/-- Model of `new Date(value)` for a number: the time value is `TimeClip(value)`. -/
def newDate (v : Option Int) : TimeValue := v.bind TimeClip

/-- Model of `Date.prototype.getTime`. -/
def getTime (d : TimeValue) : Option Int := d

/-! ## Strings -/

/-- A JavaScript string, as its sequence of characters. -/
abbrev JSString := List Char

/-- The `length` of a string: its number of UTF-16 code units. -/
def jsLength (s : JSString) : Nat :=
  (s.map (fun c => if c.toNat < 65536 then 1 else 2)).sum

/-- White space and line terminators, the characters `trim` and `parseInt` strip. -/
def isJSWhiteSpace (c : Char) : Bool :=
  let n := c.toNat
  n == 9 || n == 10 || n == 11 || n == 12 || n == 13 || n == 32 || n == 160 ||
  n == 5760 || (8192 ≤ n && n ≤ 8202) || n == 8232 || n == 8233 || n == 8239 ||
  n == 8287 || n == 12288 || n == 65279

/-- Model of `String.prototype.trim`. -/
def jsTrim (s : JSString) : JSString :=
  ((s.dropWhile isJSWhiteSpace).reverse.dropWhile isJSWhiteSpace).reverse

/-- Model of `String.prototype.split` for a separator that matches one character
(`'T'`, or the character class of `/[\/\-\.]/`), given as a predicate. -/
def jsSplit (sep : Char → Bool) : JSString → List JSString
  | [] => [[]]
  | c :: cs =>
    if sep c then [] :: jsSplit sep cs
    else
      match jsSplit sep cs with
      | [] => [[c]]
      | p :: ps => (c :: p) :: ps

/-- The character class of the regular expression `/[\/\-\.]/`. -/
def isDateSeparator (c : Char) : Bool := c == '/' || c == '-' || c == '.'

/-- The decimal digits `0` to `9`. -/
def isDecimalDigit (c : Char) : Bool := 48 ≤ c.toNat && c.toNat ≤ 57

/-- Value of a sequence of decimal digits. -/
def digitsValue (ds : List Char) : Nat :=
  ds.foldl (fun acc c => 10 * acc + (c.toNat - 48)) 0

/-- The sign step of `parseInt`: a leading `-` gives sign -1 and is removed, a
leading `+` is removed. -/
def readSign (s : JSString) : Int × JSString :=
  match s with
  | '-' :: r => (-1, r)
  | '+' :: r => (1, r)
  | _ => (1, s)

/-- Model of `parseInt(string, 10)`: leading white space is skipped, one sign is
read, then the longest run of decimal digits; `NaN` when that run is empty. -/
def parseInt10 (s : JSString) : Option Int :=
  let signed := readSign (s.dropWhile isJSWhiteSpace)
  let ds := signed.2.takeWhile isDecimalDigit
  if ds.isEmpty then none else some (signed.1 * (digitsValue ds : Int))

/-- Truthiness of a value that is `null`/`undefined` (`none`) or a string: only a
non-empty string is truthy. -/
def truthy (v : Option JSString) : Bool :=
  match v with
  | some (_ :: _) => true
  | _ => false

/-! ## `convertDateStringToDate` (script.js, lines 635-664) -/

/-- The block `if (parts.length === 3) { ... }` of `convertDateStringToDate` for a
non-empty `dateString`: `some d` when the block returns the date `d`, `none` when
control falls through to the generic parse. -/
def dateFromParts (str : JSString) : Option TimeValue :=
  let cleanStr := jsTrim ((jsSplit (fun c => c == 'T') str).headD [])
  let parts := jsSplit isDateSeparator cleanStr
  match parts with
  | [p0, p1, p2] =>
    let ymd : Option Int × Option Int × Option Int :=
      if jsLength p0 = 4 then (parseInt10 p0, parseInt10 p1, parseInt10 p2)
      else (parseInt10 p2, parseInt10 p1, parseInt10 p0)
    match ymd with
    | (some year, some month, some day) =>
      some (newDate (DateUTC (some year) (some (month - 1)) (some day)))
    | _ => none
  | _ => none

/-- The tail of `convertDateStringToDate`: `new Date(dateString)` through the
engine's parser `dateParse`, renormalised to midnight UTC, or `new Date(0)`. -/
def dateFromParse (dateParse : JSString → Option Int) (str : JSString) : TimeValue :=
  let parsed : TimeValue := (dateParse str).bind TimeClip
  match getTime parsed with
  | some _ =>
    newDate (DateUTC (getUTCFullYear parsed) (getUTCMonth parsed) (getUTCDate parsed))
  | none => newDate (some 0)

/-- Embedding of `convertDateStringToDate(dateString)`.  `dateParse` stands for the
engine's parser behind `new Date(dateString)`; `none` is `null` or `undefined`. -/
def convertDateStringToDate (dateParse : JSString → Option Int)
    (dateString : Option JSString) : TimeValue :=
  match dateString with
  | none => newDate (some 0)
  | some [] => newDate (some 0)
  | some str =>
    match dateFromParts str with
    | some d => d
    | none => dateFromParse dateParse str

/-! ## `getBannerStatus` (script.js, lines 598-633) -/

/-- The four status strings `'none'`, `'upcoming'`, `'active'`, `'ending'`. -/
inductive BannerStatus where
  | none
  | upcoming
  | active
  | ending
  deriving DecidableEq, Repr

/-- One language table of `translations`: a lookup that may be `undefined`. -/
abbrev Dict := String → Option String

/-- The interpreter state the engine reads: the `translations` object, the
global `currentLanguage`, the engine's date parser and the clock. -/
structure Env where
  translations : String → Option Dict
  currentLanguage : String
  dateParse : JSString → Option Int
  now : Int

/-- The expression `translations[currentLanguage] || translations['default'] || {}`. -/
def currentTable (env : Env) : Dict :=
  match env.translations env.currentLanguage with
  | some t => t
  | none =>
    match env.translations "default" with
    | some t => t
    | none => fun _ => Option.none

/-- The expression `t[key] || fallback`. -/
def labelOr (t : Dict) (key fallback : String) : String :=
  match t key with
  | some s => if s = "" then fallback else s
  | none => fallback

/-- The object returned by `getBannerStatus`; `endDate` is `none` when the property
is absent, otherwise the time value of the returned `Date`. -/
structure StatusResult where
  status : BannerStatus
  label : String
  endDate : Option TimeValue

/-- The condition `endDateStr && endDateStr.trim() !== ''`. -/
def endDatePresent (endDateStr : Option JSString) : Bool :=
  truthy endDateStr &&
    (match endDateStr with
     | some s => !(jsTrim s).isEmpty
     | none => false)

/-- The `end` date before normalisation: the parsed end text when one is present,
otherwise a copy of `start` moved by `setUTCDate(getUTCDate() + 10)`. -/
def rawEndDate (env : Env) (start : TimeValue) (endDateStr : Option JSString) : TimeValue :=
  if endDatePresent endDateStr then convertDateStringToDate env.dateParse endDateStr
  else
    let end0 := newDate (getTime start)
    setUTCDate end0 (numAdd (getUTCDate end0) 10)

/-- Embedding of `getBannerStatus(startDateStr, endDateStr)`. -/
def getBannerStatus (env : Env) (startDateStr endDateStr : Option JSString) : StatusResult :=
  let t := currentTable env
  if !truthy startDateStr then { status := .none, label := "", endDate := Option.none }
  else
    let start0 := convertDateStringToDate env.dateParse startDateStr
    let end0 := rawEndDate env start0 endDateStr
    let today := newDate (todayOf env.now)
    let start := setUTCHoursZero start0
    let end1 := setUTCHoursZero end0
    if numLt today start then
      { status := .upcoming, label := labelOr t "upcoming" "UPCOMING", endDate := some end1 }
    else
      let diffTimeSinceEnd := numSub (getTime today) (getTime end1)
      let diffDaysSinceEnd := floorDays diffTimeSinceEnd
      if numGe diffDaysSinceEnd 0 then
        if numGt diffDaysSinceEnd 30 then
          { status := .none, label := "", endDate := some end1 }
        else
          { status := .ending, label := labelOr t "ending" "ENDING", endDate := some end1 }
      else
        { status := .active, label := labelOr t "active" "ACTIVE", endDate := some end1 }

/-! ## `displayImages`: filter and sort (script.js, lines 743-788) -/

/-- An element of `nationData[key].images`, as built by `fetchDataFromAPI`. -/
structure ImageData where
  url : Option String
  startDate : Option JSString
  bannerLink : Option String
  title : Option String
  endDate : Option JSString
  id : Int
  deriving DecidableEq

/-- The callback of `images.filter(...)`: whether `imageData` is kept.  (The
callback also calls `getBannerStatus` and discards the result.) -/
def isVisible (env : Env) (isNews : Bool) (imageData : ImageData) : Bool :=
  if isNews then true
  else
    let start := convertDateStringToDate env.dateParse imageData.startDate
    if getTime start = some 0 then true
    else
      let today := newDate (todayOf env.now)
      let end1 := setUTCHoursZero (rawEndDate env start imageData.endDate)
      let diffTimeSinceEnd := numSub (getTime today) (getTime end1)
      let diffDaysSinceEnd := floorDays diffTimeSinceEnd
      if numGt diffDaysSinceEnd 30 then false else true

/-- The filter step of `displayImages`. -/
def filterStep (env : Env) (isNews : Bool) (images : List ImageData) : List ImageData :=
  images.filter (isVisible env isNews)

/-- The comparator passed to `images.sort(...)`; `none` is a `NaN` result. -/
def compareImages (env : Env) (a b : ImageData) : Option Int :=
  let statusA := (getBannerStatus env a.startDate a.endDate).status
  let statusB := (getBannerStatus env b.startDate b.endDate).status
  if statusA = .ending ∧ statusB ≠ .ending then some 1
  else if statusA ≠ .ending ∧ statusB = .ending then some (-1)
  else
    let dateA := convertDateStringToDate env.dateParse a.startDate
    let dateB := convertDateStringToDate env.dateParse b.startDate
    if getTime dateA = some 0 ∧ getTime dateB = some 0 then some 0
    else if getTime dateA = some 0 then some 1
    else if getTime dateB = some 0 then some (-1)
    else numSub (getTime dateB) (getTime dateA)

/-- Abstract operation `SortCompare` for a comparator: a `NaN` result counts as 0. -/
def sortCompare {α : Type} (cmp : α → α → Option Int) (x y : α) : Int :=
  (cmp x y).getD 0

/-- Insertion of `x` in front of the first element it does not sort after. -/
def orderedInsert {α : Type} (cmp : α → α → Option Int) (x : α) : List α → List α
  | [] => [x]
  | y :: ys =>
    if sortCompare cmp x y ≤ 0 then x :: y :: ys
    else y :: orderedInsert cmp x ys

/-- Model of `Array.prototype.sort(cmp)`: a stable insertion sort.  ECMA-262 asks
for a stable sort and fixes the result whenever the comparator is consistent on
the elements: then this is the list every engine returns.  For a comparator that is
not consistent, as `compareImages` is when a start date is `NaN`, the order is left
to the engine, and an engine may return another arrangement than this one; what is
proved for such lists is what follows from the sign of the comparator alone. -/
def arraySort {α : Type} (cmp : α → α → Option Int) : List α → List α
  | [] => []
  | x :: xs => orderedInsert cmp x (arraySort cmp xs)

/-- The sort step of `displayImages`. -/
def sortStep (env : Env) (images : List ImageData) : List ImageData :=
  arraySort (compareImages env) images

/-- The sequence `displayImages` renders: filter, then sort.  One clock reading
`env.now` serves the whole pass. -/
def displayOrder (env : Env) (isNews : Bool) (images : List ImageData) : List ImageData :=
  sortStep env (filterStep env isNews images)

/-! ## Vocabulary of the specification -/

/-- The Invalid sentinel `new Date(0)`. -/
def invalidDate : TimeValue := some 0

/-- An end-date text that is absent (`null`/`undefined`), empty or only white space. -/
def isBlank (endDateStr : Option JSString) : Prop :=
  match endDateStr with
  | none => True
  | some s => ∀ c ∈ s, isJSWhiteSpace c = true

/-- The day count `floor((today - effectiveEnd) / 1 day)` of two time values. -/
def daysSinceEnd (today effectiveEnd : Int) : Int := (today - effectiveEnd) / msPerDay

/-- A time value at midnight UTC within the range `TimeClip` accepts. -/
def IsMidnight (s : Int) : Prop := s % msPerDay = 0 ∧ s.natAbs ≤ 8640000000000000

/-- The start date of a record, as `displayImages` parses it. -/
def startOf (env : Env) (r : ImageData) : TimeValue :=
  convertDateStringToDate env.dateParse r.startDate

/-- The status `getBannerStatus` gives a record. -/
def statusOf (env : Env) (r : ImageData) : BannerStatus :=
  (getBannerStatus env r.startDate r.endDate).status

/-- Rank 1 for a record whose status is `ending`, 0 otherwise. -/
def endingRank (env : Env) (r : ImageData) : Nat :=
  if statusOf env r = BannerStatus.ending then 1 else 0

/-- Rank of a record by (is `ending`, has the Invalid start date), in that order. -/
def classRank (env : Env) (r : ImageData) : Nat :=
  2 * endingRank env r + (if startOf env r = invalidDate then 1 else 0)

/-- Rank of a record by (is `ending`, has the Invalid start date, start date
descending), packed in one integer; start dates are below 2e16 in absolute value. -/
def sortKey (env : Env) (r : ImageData) : Int :=
  (classRank env r : Int) * 20000000000000000 - (startOf env r).getD 0

/-- The tail of the comparator, on the two parsed start dates. -/
def compareStarts (dateA dateB : TimeValue) : Option Int :=
  if dateA = some 0 ∧ dateB = some 0 then some 0
  else if dateA = some 0 then some 1
  else if dateB = some 0 then some (-1)
  else numSub dateB dateA

/-- Ordering rule 1: no `ending` record stands before a record that is not `ending`. -/
def EndingLast (env : Env) (l : List ImageData) : Prop :=
  l.Pairwise (fun a b => statusOf env a = BannerStatus.ending →
    statusOf env b = BannerStatus.ending)

/-- Ordering rule 2: of two records with valid start dates that are both `ending`
or both not, the one standing first does not start earlier. -/
def StartDescending (env : Env) (l : List ImageData) : Prop :=
  l.Pairwise (fun a b =>
    (statusOf env a = BannerStatus.ending ↔ statusOf env b = BannerStatus.ending) →
    ∀ sa sb : Int, startOf env a = some sa → sa ≠ 0 → startOf env b = some sb → sb ≠ 0 →
      sb ≤ sa)

/-- Ordering rule 3 as the specification words it: no record with the Invalid start
date stands before a record with another start date. -/
def InvalidStartLast (env : Env) (l : List ImageData) : Prop :=
  l.Pairwise (fun a b => startOf env a = invalidDate → startOf env b = invalidDate)

/-- Ordering rule 3 within a class: among records that are both `ending` or both
not, no record with the Invalid start date stands before one with another start date. -/
def InvalidStartLastInClass (env : Env) (l : List ImageData) : Prop :=
  l.Pairwise (fun a b =>
    (statusOf env a = BannerStatus.ending ↔ statusOf env b = BannerStatus.ending) →
    startOf env a = invalidDate → startOf env b = invalidDate)

/-- A text that writes the number `n` in decimal digits, leading zeros allowed. -/
def IsDecimal (txt : JSString) (n : Nat) : Prop :=
  txt ≠ [] ∧ (∀ c ∈ txt, isDecimalDigit c = true) ∧ digitsValue txt = n

/-- Leap years of the Gregorian calendar. -/
def isLeapYear (y : Nat) : Bool := (y % 4 == 0 && y % 100 != 0) || y % 400 == 0

/-- Length of month `m` (1 to 12) of year `y`. -/
def daysInMonth (y m : Nat) : Nat :=
  if m = 2 then (if isLeapYear y then 29 else 28)
  else if m = 4 ∨ m = 6 ∨ m = 9 ∨ m = 11 then 30
  else 31

/-- The triple (year, month, day) is a date of the calendar. -/
def IsCalendarDate (y m d : Nat) : Prop :=
  1 ≤ m ∧ m ≤ 12 ∧ 1 ≤ d ∧ d ≤ daysInMonth y m

/-- The date is not after 13 September 275760, the last day a `Date` can hold. -/
def InDateRange (y m d : Nat) : Prop :=
  y < 275760 ∨ (y = 275760 ∧ (m < 9 ∨ (m = 9 ∧ d ≤ 13)))

/-- The time value is the midnight UTC that starts the calendar date
(year `y`, month `m` from 1, day `d`), as the `getUTC...` methods read it. -/
def YieldsCalendarDate (tv : TimeValue) (y m d : Nat) : Prop :=
  ∃ t : Int, tv = some t ∧ YearFromTime t = y ∧ MonthFromTime t = (m : Int) - 1 ∧
    DateFromTime t = d ∧ TimeWithinDay t = 0

/-- The text is a three-part numeric date: cut at `T` and trimmed, it splits at the
separators in exactly three parts and `parseInt` reads a number from each. -/
def IsThreePartNumeric (str : JSString) : Prop :=
  ∃ p0 p1 p2 : JSString,
    jsSplit isDateSeparator (jsTrim ((jsSplit (fun c => c == 'T') str).headD [])) = [p0, p1, p2] ∧
    parseInt10 p0 ≠ none ∧ parseInt10 p1 ≠ none ∧ parseInt10 p2 ≠ none

/-! ## Sample inputs -/

/-- An interpreter state with no translation tables, a parser that rejects every
text (as engines reject `"abc"`) and the clock at `now`. -/
def sampleEnv (now : Int) : Env :=
  { translations := fun _ => none
    currentLanguage := "default"
    dateParse := fun _ => none
    now := now }

/-- A record with the given id, start-date text and end-date text. -/
def sampleImage (id : Int) (startDate endDate : Option JSString) : ImageData :=
  { url := none, startDate := startDate, bannerLink := none, title := none,
    endDate := endDate, id := id }

/-- Clock reading 2024-04-10T08:00:00Z. -/
def april10 : Int := 1712736000000

/-- A banner that started on 1 January 2024 and runs to the end of 2024. -/
def bannerJan : ImageData :=
  sampleImage 1 (some "01/01/2024".toList) (some "31/12/2024".toList)

/-- A banner that started on 1 February 2024 and runs to the end of 2024. -/
def bannerFeb : ImageData :=
  sampleImage 2 (some "01/02/2024".toList) (some "31/12/2024".toList)

/-- A banner whose start text has the year 999999, beyond the range of `Date`:
its start date is an Invalid Date with time value `NaN`. -/
def bannerFarYear : ImageData :=
  sampleImage 3 (some "01/01/999999".toList) (some "31/12/2024".toList)

/-- A banner from 25 March 2024 to 5 April 2024: `ending` on 10 April 2024. -/
def bannerEnded : ImageData :=
  sampleImage 4 (some "2024-03-25".toList) (some "2024-04-05".toList)

/-- A banner with no start date and no end date. -/
def bannerUndated : ImageData := sampleImage 5 none none

/-- A second interpreter state: the language `vietnam` with its own labels, and the
clock at `now`. -/
def sampleEnvVietnam (now : Int) : Env :=
  { translations := fun lang =>
      if lang = "vietnam" then
        some (fun key =>
          if key = "active" then some "ĐANG HOẠT ĐỘNG"
          else if key = "upcoming" then some "SẮP DIỄN RA"
          else if key = "ending" then some "SẮP KẾT THÚC"
          else none)
      else none
    currentLanguage := "vietnam"
    dateParse := fun _ => none
    now := now }

/-! ## The administration console (`src/admin/app.js`) -/

/-- A row of the table `nation_banners`, as the backend returns it: the element type
of `allBanners` in the console and of `rawData` in `fetchDataFromAPI`. -/
structure BannerRow where
  id : Int
  nation_key : Option JSString
  url : Option String
  title : Option String
  banner_link : Option String
  start_date : Option JSString
  end_date : Option JSString
  deriving DecidableEq

/-- The interpreter state the console reads: the clock, the offset of local time
from UTC (`offsetAtUTC t` for the instant `t`, `offsetAtLocal t` for the local
time `t`, both in ms), the value `Number` gives a text that is not a run of
decimal digits, and the credentials kept in `localStorage`. -/
structure AdminEnv where
  now : Int
  offsetAtUTC : Int → Int
  offsetAtLocal : Int → Int
  numberOther : JSString → Option Int
  adminEmail : Option String
  adminKey : Option String

/-- Model of `Number(text)`: white space is trimmed, the empty text is 0 and a run of
decimal digits is its value.  Every other text (sign, fraction, exponent, other
radix, `Infinity`, or no number at all) is left to `other`, which gives its integer
value or `NaN`. -/
def toNumber (other : JSString → Option Int) (s : JSString) : Option Int :=
  let t := jsTrim s
  if t.isEmpty then some 0
  else if t.all isDecimalDigit then some (digitsValue t : Int)
  else other t

/-- Model of `new Date(year, month, date)`: the fields are read in local time. -/
def newDateLocal (env : AdminEnv) (year month date : Int) : TimeValue :=
  let yr := if 0 ≤ year ∧ year ≤ 99 then 1900 + year else year
  let finalDate := MakeDate (MakeDay yr month date) (MakeTime 0 0 0 0)
  TimeClip (finalDate - env.offsetAtLocal finalDate)

/-- The statements `const now = new Date(); const today = new Date(now.getFullYear(),
now.getMonth(), now.getDate())`: midnight of the current day in local time. -/
def localToday (env : AdminEnv) : TimeValue :=
  let localTime := env.now + env.offsetAtUTC env.now
  newDateLocal env (YearFromTime localTime) (MonthFromTime localTime) (DateFromTime localTime)

/-- Embedding of `parseDateString(dateStr)` (app.js, lines 308-315): `none` is the
result `null`, `some d` a `Date` with time value `d`. -/
def parseDateString (env : AdminEnv) (dateStr : Option JSString) : Option TimeValue :=
  match dateStr with
  | none => none
  | some s =>
    if s.isEmpty || (jsTrim s).isEmpty then none
    else
      match jsSplit (fun c => c == '/') (jsTrim s) with
      | [p0, p1, p2] =>
        match toNumber env.numberOther p0, toNumber env.numberOther p1,
          toNumber env.numberOther p2 with
        | some day, some month, some year => some (newDateLocal env year (month - 1) day)
        | _, _, _ => none
      | _ => none

/-- The callback of `allBanners.filter(...)` in `autoCleanupBanners`. -/
def isExpired (env : AdminEnv) (banner : BannerRow) : Bool :=
  if !truthy banner.end_date then false
  else if banner.nation_key = some "news".toList then false
  else
    match parseDateString env banner.end_date with
    | none => false
    | some end1 =>
      let diffTime := numSub (getTime (localToday env)) (getTime end1)
      let diffDays := floorDays diffTime
      numGt diffDays 30

/-- The decimal digit `d` as a character. -/
def digitChar (d : Nat) : Char :=
  match d with
  | 0 => '0' | 1 => '1' | 2 => '2' | 3 => '3' | 4 => '4'
  | 5 => '5' | 6 => '6' | 7 => '7' | 8 => '8' | _ => '9'

/-- Decimal digits of `n` put in front of `acc`; `fuel` bounds the number of digits. -/
def natToDecimalAux : Nat → Nat → List Char → List Char
  | 0, _, acc => acc
  | fuel + 1, n, acc =>
    if n / 10 = 0 then digitChar (n % 10) :: acc
    else natToDecimalAux fuel (n / 10) (digitChar (n % 10) :: acc)

/-- Decimal text of a natural number. -/
def natToDecimal (n : Nat) : JSString := natToDecimalAux (n + 1) n []

/-- Model of `ToString` for a number that is an integer (below 1e21 in absolute
value, as row ids are): its decimal text. -/
def numberToString (n : Int) : JSString :=
  if n < 0 then '-' :: natToDecimal n.natAbs else natToDecimal n.natAbs

/-- Value of a hexadecimal digit. -/
def hexDigitValue (c : Char) : Option Nat :=
  let n := c.toNat
  if 48 ≤ n ∧ n ≤ 57 then some (n - 48)
  else if 97 ≤ n ∧ n ≤ 102 then some (n - 87)
  else if 65 ≤ n ∧ n ≤ 70 then some (n - 55)
  else none

/-- Value of a sequence of hexadecimal digits. -/
def hexValue (ds : List Char) : Nat :=
  ds.foldl (fun acc c => 16 * acc + (hexDigitValue c).getD 0) 0

/-- The radix and digit steps of `parseInt(text)` with no radix, after the sign: a
prefix `0x` or `0X` selects radix 16, otherwise the radix is 10; the longest run
of digits is read, `NaN` when it is empty. -/
def readDigitsAuto (sign : Int) (r : JSString) : Option Int :=
  match r with
  | '0' :: 'x' :: h =>
    let ds := h.takeWhile (fun c => (hexDigitValue c).isSome)
    if ds.isEmpty then none else some (sign * (hexValue ds : Int))
  | '0' :: 'X' :: h =>
    let ds := h.takeWhile (fun c => (hexDigitValue c).isSome)
    if ds.isEmpty then none else some (sign * (hexValue ds : Int))
  | _ =>
    let ds := r.takeWhile isDecimalDigit
    if ds.isEmpty then none else some (sign * (digitsValue ds : Int))

/-- Model of `parseInt(text)` with no radix. -/
def parseIntAuto (s : JSString) : Option Int :=
  let signed := readSign (s.dropWhile isJSWhiteSpace)
  readDigitsAuto signed.1 signed.2

/-- The records `allBanners.filter(...)` keeps in `autoCleanupBanners`. -/
def expiredBanners (env : AdminEnv) (allBanners : List BannerRow) : List BannerRow :=
  allBanners.filter (isExpired env)

/-- The array `expiredIds`: the kept records mapped by `b => parseInt(b.id)`. -/
def expiredIds (env : AdminEnv) (allBanners : List BannerRow) : List (Option Int) :=
  (expiredBanners env allBanners).map (fun b => parseIntAuto (numberToString b.id))

/-- A remote call issued by the console. -/
inductive AdminCall where
  | manageBannerDelete (p_email p_key : Option String) (p_ids : List (Option Int))
  | fetchBanners
  deriving DecidableEq

/-- Embedding of `autoCleanupBanners()` (app.js, lines 230-265): the remote calls it
issues, in order; `rpcError` tells whether the delete call reports an error. -/
def autoCleanupBanners (env : AdminEnv) (allBanners : List BannerRow) (rpcError : Bool) :
    List AdminCall :=
  if allBanners.length = 0 then []
  else
    let ids := expiredIds env allBanners
    if ids.length > 0 then
      AdminCall.manageBannerDelete env.adminEmail env.adminKey ids ::
        (if !rpcError then [AdminCall.fetchBanners] else [])
    else []

/-- The `imageData` object `fetchDataFromAPI` builds from a row. -/
def toImageData (item : BannerRow) : ImageData :=
  { url := item.url, startDate := item.start_date, bannerLink := item.banner_link,
    title := item.title, endDate := item.end_date, id := item.id }

/-- The day count of the display engine for an end-date text that is present:
`floor((today - end) / 1 day)` with `end` from `convertDateStringToDate`. -/
def displayDaysSinceEnd (env : Env) (endDateStr : Option JSString) : Option Int :=
  floorDays (numSub (getTime (newDate (todayOf env.now)))
    (getTime (setUTCHoursZero (convertDateStringToDate env.dateParse endDateStr))))

/-- A console in a browser whose local time is UTC, with the clock at `now`. -/
def sampleAdminEnv (now : Int) : AdminEnv :=
  { now := now, offsetAtUTC := fun _ => 0, offsetAtLocal := fun _ => 0,
    numberOther := fun _ => none, adminEmail := none, adminKey := none }

/-- A console in a browser whose local time is UTC+7, with the clock at `now`. -/
def sampleAdminEnvPlus7 (now : Int) : AdminEnv :=
  { now := now, offsetAtUTC := fun _ => 25200000, offsetAtLocal := fun _ => 25200000,
    numberOther := fun _ => none, adminEmail := none, adminKey := none }

/-- A row with the given id, nation key, start-date text and end-date text. -/
def sampleRow (id : Int) (nation_key : Option JSString) (start_date end_date : Option JSString) :
    BannerRow :=
  { id := id, nation_key := nation_key, url := none, title := none, banner_link := none,
    start_date := start_date, end_date := end_date }

/-! ## `fetchDataFromAPI` (script.js, lines 228-327) -/

/-- The value of `nationData[key].images`. -/
abbrev Images := List ImageData

/-- The object `nationData` (the same object as `initialNationData`), as its own
properties in the order in which `Object.keys` and `JSON.stringify` visit them:
first the keys that are array indices, in ascending order (`idx`), then the other
keys in the order of their creation (`str`).  The value of a key is its `images`
array. -/
structure NationData where
  idx : List (Nat × Images)
  str : List (JSString × Images)
  deriving DecidableEq

/-- The array index a property key denotes, if any: a canonical decimal text (no
leading zero) with a value of at most 2^32 - 2. -/
def arrayIndex (k : JSString) : Option Nat :=
  if k.isEmpty then none
  else if !k.all isDecimalDigit then none
  else if 1 < k.length ∧ k.head? = some '0' then none
  else if digitsValue k ≤ 4294967294 then some (digitsValue k)
  else none

/-- Lookup in an association list. -/
def assocGet {κ : Type} [DecidableEq κ] (l : List (κ × Images)) (k : κ) : Option Images :=
  match l with
  | [] => none
  | (k1, v) :: r => if k1 = k then some v else assocGet r k

/-- Assignment to an array-index key: the value is replaced, or the key is created
at its place in ascending order. -/
def idxPut (l : List (Nat × Images)) (n : Nat) (v : Images) : List (Nat × Images) :=
  match l with
  | [] => [(n, v)]
  | (m, w) :: r =>
    if n < m then (n, v) :: (m, w) :: r
    else if n = m then (n, v) :: r
    else (m, w) :: idxPut r n v

/-- Assignment to a key that is not an array index: the value is replaced, or the
key is created after all others. -/
def strPut (l : List (JSString × Images)) (k : JSString) (v : Images) :
    List (JSString × Images) :=
  match l with
  | [] => [(k, v)]
  | (k1, w) :: r =>
    if k1 = k then (k, v) :: r
    else (k1, w) :: strPut r k v

/-- A property key, told apart as an array index or another key. -/
def classifyKey (key : JSString) : Nat ⊕ JSString :=
  match arrayIndex key with
  | some n => Sum.inl n
  | none => Sum.inr key

/-- The own property of a classified key, `none` when there is none. -/
def NationData.getC (o : NationData) (c : Nat ⊕ JSString) : Option Images :=
  match c with
  | Sum.inl n => assocGet o.idx n
  | Sum.inr k => assocGet o.str k

/-- Assignment to a classified key. -/
def NationData.putC (o : NationData) (c : Nat ⊕ JSString) (v : Images) : NationData :=
  match c with
  | Sum.inl n => { o with idx := idxPut o.idx n v }
  | Sum.inr k => { o with str := strPut o.str k v }

/-- The own property `o[key]`, `none` when there is none. -/
def NationData.get (o : NationData) (key : JSString) : Option Images :=
  o.getC (classifyKey key)

/-- The assignment `o[key] = { images: v }`. -/
def NationData.put (o : NationData) (key : JSString) (v : Images) : NationData :=
  o.putC (classifyKey key) v

/-- The constant `initialNationData` as the script declares it. -/
def initialNationData : NationData :=
  { idx := []
    str := [("brazil".toList, []), ("india".toList, []), ("indonesia".toList, []),
      ("pakistan".toList, []), ("singapore".toList, []), ("taiwan".toList, []),
      ("thailand".toList, []), ("vietnam".toList, []), ("news".toList, [])] }

/-- The statements `const newNationData = JSON.parse(JSON.stringify(initialNationData));
Object.keys(newNationData).forEach(key => newNationData[key].images = [])`: a copy
with the same keys in the same order and empty `images`. -/
def resetCopy (o : NationData) : NationData :=
  { idx := o.idx.map (fun e => (e.1, [])), str := o.str.map (fun e => (e.1, [])) }

/-- The names of the properties every object inherits from `Object.prototype`: for
these keys `newNationData[nationKey]` is a truthy value without `images`. -/
def objectPrototypeKeys : List JSString :=
  ["constructor".toList, "__defineGetter__".toList, "__defineSetter__".toList,
    "hasOwnProperty".toList, "__lookupGetter__".toList, "__lookupSetter__".toList,
    "isPrototypeOf".toList, "propertyIsEnumerable".toList, "toString".toList,
    "valueOf".toList, "__proto__".toList, "toLocaleString".toList]

/-- The property key that `item.nation_key` denotes; `null` denotes `"null"`. -/
def propertyKey (nation_key : Option JSString) : JSString :=
  match nation_key with
  | some k => k
  | none => "null".toList

/-- The callback of `rawData.forEach(...)`: `none` when it throws a `TypeError`
(the key names an inherited property, so no entry is created and `.images` is
`undefined`). -/
def pushRecord (n : NationData) (item : BannerRow) : Option NationData :=
  let nationKey := propertyKey item.nation_key
  if nationKey ∈ objectPrototypeKeys then none
  else
    let n1 := if (n.get nationKey).isSome then n else n.put nationKey []
    some (n1.put nationKey ((n1.get nationKey).getD [] ++ [toImageData item]))

/-- The loop `rawData.forEach(...)` from a given `newNationData`. -/
def pushRecords (n : NationData) (rawData : List BannerRow) : Option NationData :=
  match rawData with
  | [] => some n
  | item :: rest =>
    match pushRecord n item with
    | none => none
    | some n1 => pushRecords n1 rest

/-- The object `newNationData` that one fetch builds, `none` when building it throws. -/
def buildNewNationData (nationData : NationData) (rawData : List BannerRow) :
    Option NationData :=
  pushRecords (resetCopy nationData) rawData

/-- The statement `Object.keys(newNationData).forEach(key => nationData[key] =
newNationData[key])`. -/
def assignAll (nationData newNationData : NationData) : NationData :=
  { idx := newNationData.idx.foldl (fun acc e => idxPut acc e.1 e.2) nationData.idx
    str := newNationData.str.foldl (fun acc e => strPut acc e.1 e.2) nationData.str }

/-- What the page fixes for `fetchDataFromAPI`: the text `JSON.stringify` writes
after the opening brace of an object, whether the element `image-grid` exists,
and what the identifier `settings` resolves to: `none` when no binding is in
scope (reading it throws a `ReferenceError`), otherwise its truthiness. -/
structure Page where
  serialise : NationData → JSString
  imageGridPresent : Bool
  settings : Option Bool

/-- Model of `JSON.stringify(newNationData)`: the text of an object opens with a brace. -/
def jsonStringify (page : Page) (n : NationData) : JSString := '{' :: page.serialise n

/-- What a call of `fetchDataFromAPI` does to the world outside its three variables. -/
inductive Effect where
  | request
  | consoleLog
  | consoleError
  | errorPlaceholder
  | displayImages (key : JSString) (isNews : Bool)
  | updateLatestNewsPreview
  | applyHomeBackgrounds
  deriving DecidableEq

/-- How the request of a fetch cycle ends: `fetch` rejects, the response is not OK,
`response.json()` rejects, or the body is the array `rawData`. -/
inductive Outcome where
  | networkError
  | httpError
  | badBody
  | ok (rawData : List BannerRow)

/-- The variables `isFetching`, `lastDataHash` and `nationData`, with the effects so
far and the fetch cycles in flight: those that passed the guard and whose request
has not ended yet, each with its argument `silent`. -/
structure FetchState where
  isFetching : Bool
  lastDataHash : JSString
  nationData : NationData
  effects : List Effect
  inFlight : List Bool

/-- The state when the script has loaded. -/
def initialFetchState : FetchState :=
  { isFetching := false, lastDataHash := [], nationData := initialNationData,
    effects := [], inFlight := [] }

/-- The calls of `displayImages` in the branch `dataChanged`, chosen by
`window.location.pathname`. -/
def routeEffects (currentPath : JSString) : List Effect :=
  let parts := jsSplit (fun c => c == '/') currentPath
  let key := parts.getLastD []
  if "/nation/".toList.isPrefixOf currentPath then [Effect.displayImages key false]
  else if currentPath = "/nation".toList then [Effect.displayImages "default".toList false]
  else if currentPath = "/news".toList then [Effect.displayImages "news".toList true]
  else []

/-- The `try` block of `fetchDataFromAPI` after the request has ended: the new state
and whether an exception leaves the block. -/
def tryBlock (page : Page) (silent : Bool) (currentPath : JSString) (s : FetchState)
    (outcome : Outcome) : FetchState × Bool :=
  match outcome with
  | Outcome.networkError => (s, true)
  | Outcome.httpError => (s, true)
  | Outcome.badBody => (s, true)
  | Outcome.ok rawData =>
    match buildNewNationData s.nationData rawData with
    | none => (s, true)
    | some newNationData =>
      let newDataHash := jsonStringify page newNationData
      let dataChanged := s.lastDataHash ≠ [] ∧ s.lastDataHash ≠ newDataHash
      let s1 : FetchState :=
        if s.lastDataHash = [] then
          { s with
            lastDataHash := newDataHash
            nationData := assignAll s.nationData newNationData
            effects := s.effects ++ (if silent then [] else [Effect.consoleLog]) }
        else if dataChanged then
          { s with
            lastDataHash := newDataHash
            nationData := assignAll s.nationData newNationData
            effects := s.effects ++ [Effect.consoleLog] ++ routeEffects currentPath ++
              [Effect.updateLatestNewsPreview, Effect.consoleLog] }
        else
          { s with
            effects := s.effects ++ (if silent then [] else [Effect.consoleLog]) ++
              [Effect.updateLatestNewsPreview] }
      match page.settings with
      | none => (s1, true)
      | some true => ({ s1 with effects := s1.effects ++ [Effect.applyHomeBackgrounds] }, false)
      | some false => (s1, false)

/-- The `catch` block: the error is logged, and when the call is not silent and the
image grid exists, the error placeholder is written to it. -/
def catchBlock (page : Page) (silent : Bool) (s : FetchState) : FetchState :=
  { s with
    effects := s.effects ++ [Effect.consoleError] ++
      (if !silent && page.imageGridPresent then [Effect.errorPlaceholder] else []) }

/-- A call `fetchDataFromAPI(silent)` up to its first `await`: nothing happens while
`isFetching` is set; otherwise the flag is set and the request is issued. -/
def callStep (silent : Bool) (s : FetchState) : FetchState :=
  if s.isFetching then s
  else
    { s with
      isFetching := true
      effects := s.effects ++ [Effect.request]
      inFlight := s.inFlight ++ [silent] }

/-- The rest of the oldest fetch cycle in flight, run when its request ends with
`outcome`: `try`, `catch` when an exception left `try`, then `finally`. -/
def settleStep (page : Page) (currentPath : JSString) (outcome : Outcome) (s : FetchState) :
    FetchState :=
  match s.inFlight with
  | [] => s
  | silent :: rest =>
    let r := tryBlock page silent currentPath { s with inFlight := rest } outcome
    let s1 := if r.2 then catchBlock page silent r.1 else r.1
    { s1 with isFetching := false }

/-- A whole fetch cycle with nothing in between: the call, then the end of its
request with `outcome`. -/
def fetchCycle (page : Page) (silent : Bool) (currentPath : JSString) (outcome : Outcome)
    (s : FetchState) : FetchState :=
  settleStep page currentPath outcome (callStep silent s)

/-- The images of the records of `rawData` whose classified nation key is `c`, in
the order of `rawData`. -/
def imagesFor (c : Nat ⊕ JSString) (rawData : List BannerRow) : Images :=
  (rawData.filter (fun r => decide (classifyKey (propertyKey r.nation_key) = c))).map toImageData

/-- The object is well formed: its array-index keys ascend strictly and no other
key occurs twice. -/
def NationData.Canon (o : NationData) : Prop :=
  o.idx.Pairwise (fun a b => a.1 < b.1) ∧ (o.str.map (fun e => e.1)).Nodup

/-- No record names a property inherited from `Object.prototype` as its nation key,
so that building `newNationData` from the records does not throw. -/
def WellFormedRecords (rawData : List BannerRow) : Prop :=
  ∀ r ∈ rawData, propertyKey r.nation_key ∉ objectPrototypeKeys

/-- An event of the page: a call of `fetchDataFromAPI`, or the end of a request. -/
inductive FetchEvent where
  | call (silent : Bool)
  | settle (currentPath : JSString) (outcome : Outcome)

/-- One step of the state. -/
def fetchStep (page : Page) (s : FetchState) (ev : FetchEvent) : FetchState :=
  match ev with
  | FetchEvent.call silent => callStep silent s
  | FetchEvent.settle currentPath outcome => settleStep page currentPath outcome s

/-- The state after a sequence of events, from the state at load. -/
def fetchRun (page : Page) (events : List FetchEvent) : FetchState :=
  events.foldl (fetchStep page) initialFetchState

/-- A page: `JSON.stringify` stands for the number of stored images, there is an image
grid, and `settings` is not bound. -/
def samplePage : Page :=
  { serialise := fun n =>
      natToDecimal ((n.idx.map (fun e => e.2.length)).sum + (n.str.map (fun e => e.2.length)).sum)
    imageGridPresent := true
    settings := none }

/-- Three rows: two of Vietnam and one with the nation key `"japan"`, which is not
among the keys of `initialNationData`. -/
def sampleRows : List BannerRow :=
  [sampleRow 1 (some "vietnam".toList) (some "01/01/2024".toList) (some "31/12/2024".toList),
   sampleRow 2 (some "japan".toList) (some "01/02/2024".toList) none,
   sampleRow 3 (some "vietnam".toList) (some "01/03/2024".toList) none]

/-- Append to `l` the keys of `ks` that are not there yet, in order. -/
def addKeys {κ : Type} [DecidableEq κ] (l ks : List κ) : List κ :=
  ks.foldl (fun acc k => if k ∈ acc then acc else acc ++ [k]) l

/-- Append an image to the `images` of a classified key, creating the entry if needed. -/
def NationData.updC (o : NationData) (c : Nat ⊕ JSString) (img : ImageData) : NationData :=
  o.putC c ((o.getC c).getD [] ++ [img])

/-- The loop `rawData.forEach(...)` when no record makes it throw. -/
def pushAll (n : NationData) (rawData : List BannerRow) : NationData :=
  rawData.foldl
    (fun acc r => acc.updC (classifyKey (propertyKey r.nation_key)) (toImageData r)) n

/-- The nation keys of the records that are not array indices, in order. -/
def recordStrKeys (rawData : List BannerRow) : List JSString :=
  rawData.filterMap (fun r =>
    match classifyKey (propertyKey r.nation_key) with
    | Sum.inl _ => none
    | Sum.inr k => some k)

/-! ## The download proxy (`src/api/download-image.js`) -/

/-- How one attempt of the handler ends: `fetch` rejects (a network error, or the
abort after 30 s), the response is not OK, reading the body rejects, or the response
is OK with the header `content-type` and the bytes of the body. -/
inductive AttemptOutcome where
  | rejected (message : JSString)
  | notOk (status : Nat) (statusText : JSString)
  | bodyFailed (message : JSString)
  | ok (contentType : Option JSString) (body : List Nat)
  deriving DecidableEq

/-- The attempt ends with a response that is sent on. -/
def AttemptOutcome.isOk (o : AttemptOutcome) : Bool :=
  match o with
  | AttemptOutcome.ok _ _ => true
  | _ => false

/-- The `message` of the error a failed attempt throws; for a response that is not
OK it is the text of line 52. -/
def AttemptOutcome.errorMessage (o : AttemptOutcome) : JSString :=
  match o with
  | AttemptOutcome.rejected message => message
  | AttemptOutcome.notOk status statusText =>
    "HTTP ".toList ++ natToDecimal status ++ ": ".toList ++ statusText
  | AttemptOutcome.bodyFailed message => message
  | AttemptOutcome.ok _ _ => []

/-- The body of a response of the handler. -/
inductive ResponseBody where
  | empty
  | errorJson (error : JSString)
  | failureJson (error message : JSString) (attempts : Nat) (url : JSString)
  | buffer (bytes : List Nat)
  deriving DecidableEq

/-- A response of the handler: status, headers in the order they are set, body. -/
structure Response where
  status : Nat
  headers : List (JSString × JSString)
  body : ResponseBody
  deriving DecidableEq

/-- What the handler does besides responding. -/
inductive HandlerEvent where
  | fetch (url : JSString)
  | consoleError (attempt : Nat) (message : JSString)
  | wait (ms : Nat)
  deriving DecidableEq

/-- A run of the handler: its response (`none` when it returns without responding)
and what it did, in order. -/
structure HandlerRun where
  response : Option Response
  events : List HandlerEvent
  deriving DecidableEq

/-- The request: its method and the query parameter `url`. -/
structure Request where
  method : String
  url : Option JSString

/-- The constant `maxAttempts`. -/
def maxAttempts : Nat := 3

/-- The three headers set at the top of the handler. -/
def corsHeaders : List (JSString × JSString) :=
  [("Access-Control-Allow-Origin".toList, "*".toList),
   ("Access-Control-Allow-Methods".toList, "GET, OPTIONS".toList),
   ("Access-Control-Allow-Headers".toList, "Content-Type".toList)]

/-- Model of `s.lastIndexOf(c)` for one character: -1 when `c` does not occur. -/
def lastIndexOf (s : JSString) (c : Char) : Int :=
  let i := s.reverse.indexOf c
  if i = s.length then -1 else (s.length : Int) - 1 - i

/-- Model of `s.substring(start)`; a start below 0 counts as 0. -/
def substringFrom (s : JSString) (start : Int) : JSString := s.drop start.toNat

/-- The expression `urlPath.substring(urlPath.lastIndexOf('/') + 1) || 'image.jpg'`. -/
def fileNameOf (urlPath : JSString) : JSString :=
  let name := substringFrom urlPath (lastIndexOf urlPath '/' + 1)
  if name.isEmpty then "image.jpg".toList else name

/-- The response of a successful attempt (lines 55-69). -/
def successResponse (urlPath : JSString) (attempts : Nat) (contentType : Option JSString)
    (body : List Nat) : Response :=
  let fileName := fileNameOf urlPath
  let contentType1 := if truthy contentType then contentType.getD [] else "image/jpeg".toList
  { status := 200
    headers := corsHeaders ++
      [("Content-Type".toList, contentType1),
       ("Content-Disposition".toList, "attachment; filename=\"".toList ++ fileName ++ "\"".toList),
       ("Content-Length".toList, natToDecimal body.length),
       ("Cache-Control".toList, "public, max-age=86400".toList),
       ("X-Download-Attempts".toList, natToDecimal attempts)]
    body := ResponseBody.buffer body }

/-- The response of the `catch` block when no attempt is left (lines 74-79). -/
def failureResponse (url : JSString) (attempts : Nat) (message : JSString) : Response :=
  { status := 500
    headers := corsHeaders
    body := ResponseBody.failureJson
      "Failed to download image after multiple attempts".toList message attempts url }

/-- The loop `while (attempts < maxAttempts) { ... }` (lines 31-84), entered with
the counter `attempts` and the events so far; `outcomes k` is how the fetch number
`k` (from 0) ends, and `urlPath` is `new URL(url).pathname`. -/
def retryLoop (url urlPath : JSString) (outcomes : Nat → AttemptOutcome) (attempts : Nat)
    (events : List HandlerEvent) : HandlerRun :=
  if _h : attempts < maxAttempts then
    let attempts1 := attempts + 1
    let events1 := events ++ [HandlerEvent.fetch url]
    match outcomes attempts with
    | AttemptOutcome.ok contentType body =>
      { response := some (successResponse urlPath attempts1 contentType body), events := events1 }
    | failed =>
      let events2 := events1 ++ [HandlerEvent.consoleError attempts1 failed.errorMessage]
      if attempts1 ≥ maxAttempts then
        { response := some (failureResponse url attempts1 failed.errorMessage), events := events2 }
      else
        retryLoop url urlPath outcomes attempts1
          (events2 ++ [HandlerEvent.wait (1000 * attempts1)])
  else { response := none, events := events }
termination_by maxAttempts - attempts
decreasing_by omega

/-- Embedding of `handler(req, res)`; `parseURL` stands for `new URL(url)`: the
`pathname` of the URL, or `none` when the constructor throws. -/
def handler (parseURL : JSString → Option JSString) (req : Request)
    (outcomes : Nat → AttemptOutcome) : HandlerRun :=
  if req.method = "OPTIONS" then
    { response := some { status := 200, headers := corsHeaders, body := ResponseBody.empty },
      events := [] }
  else if !truthy req.url then
    { response := some
        { status := 400, headers := corsHeaders,
          body := ResponseBody.errorJson "URL parameter is required".toList },
      events := [] }
  else
    let url := req.url.getD []
    match parseURL url with
    | none =>
      { response := some
          { status := 400, headers := corsHeaders,
            body := ResponseBody.errorJson "Invalid URL format".toList },
        events := [] }
    | some urlPath => retryLoop url urlPath outcomes 0 []

/-- The number of `fetch` calls of a run. -/
def HandlerRun.fetches (run : HandlerRun) : Nat :=
  (run.events.filter (fun e => match e with
    | HandlerEvent.fetch _ => true
    | _ => false)).length

/-- The waits of a run, in ms. -/
def HandlerRun.waits (run : HandlerRun) : List Nat :=
  run.events.filterMap (fun e => match e with
    | HandlerEvent.wait ms => some ms
    | _ => none)

/-- A URL parser for the samples: every text is a URL with the path `/banner.png`. -/
def sampleParseURL : JSString → Option JSString := fun _ => some "/banner.png".toList

/-- A GET request for `https://example.com/banner.png`. -/
def sampleRequest : Request :=
  { method := "GET", url := some "https://example.com/banner.png".toList }

/-- Attempt outcomes: the first attempt gets the status 404, the others succeed. -/
def sampleOutcomes404 : Nat → AttemptOutcome := fun k =>
  if k = 0 then AttemptOutcome.notOk 404 "Not Found".toList
  else AttemptOutcome.ok (some "image/png".toList) [137, 80, 78, 71]

/-- Attempt outcomes: every attempt gets the status 503. -/
def sampleOutcomes503 : Nat → AttemptOutcome := fun _ =>
  AttemptOutcome.notOk 503 "Service Unavailable".toList

/-- A banner whose end text, 1 January 2024, is earlier than its start text,
1 June 2024. -/
def bannerBackwards : ImageData :=
  sampleImage 6 (some "01/06/2024".toList) (some "01/01/2024".toList)

/-- Rank 1 for a record with the Invalid start date, 0 otherwise. -/
def invalidRank (env : Env) (r : ImageData) : Nat :=
  if startOf env r = invalidDate then 1 else 0

/-- The lexicographic order on (is `ending`, has the Invalid start date, start date
descending): the record `a` stands strictly before the record `b`. -/
def LexBefore (env : Env) (a b : ImageData) : Prop :=
  endingRank env a < endingRank env b ∨
  (endingRank env a = endingRank env b ∧
    (invalidRank env a < invalidRank env b ∨
      (invalidRank env a = invalidRank env b ∧
        ∃ sa sb : Int, startOf env a = some sa ∧ startOf env b = some sb ∧ sb < sa)))

/-- The ranking `upcoming < active < ending < none` of the statuses. -/
def lifecycleRank (st : BannerStatus) : Nat :=
  match st with
  | BannerStatus.upcoming => 0
  | BannerStatus.active => 1
  | BannerStatus.ending => 2
  | BannerStatus.none => 3

/-! ## `updateLatestNewsPreview` (script.js, lines 1193-1214) -/

/-- The comparator of `updateLatestNewsPreview`; `none` is a `NaN` result. -/
def compareNews (env : Env) (a b : ImageData) : Option Int :=
  let dateA := convertDateStringToDate env.dateParse a.startDate
  let dateB := convertDateStringToDate env.dateParse b.startDate
  numSub (getTime dateB) (getTime dateA)

/-- The array `sortedImages`: a copy of the news images, sorted. -/
def sortedNews (env : Env) (images : List ImageData) : List ImageData :=
  arraySort (compareNews env) images

/-- The array `latestThree = sortedImages.slice(0, 3)`. -/
def latestThree (env : Env) (images : List ImageData) : List ImageData :=
  (sortedNews env images).take 3

/-- A news item of 5 April 2024, with no end date. -/
def newsApril : ImageData := sampleImage 11 (some "05/04/2024".toList) none

/-- A news item of 20 March 2024, with no end date. -/
def newsMarch : ImageData := sampleImage 12 (some "20/03/2024".toList) none

/-- A news item of 1 January 2024, with no end date. -/
def newsJanuary : ImageData := sampleImage 13 (some "01/01/2024".toList) none

/-- A news item of 1 December 2023, with no end date. -/
def newsDecember : ImageData := sampleImage 14 (some "01/12/2023".toList) none

/-- A banner whose start text is 1 January 1970 and whose end text is 31 January 1970. -/
def bannerEpoch : ImageData :=
  sampleImage 15 (some "01/01/1970".toList) (some "31/01/1970".toList)

/-- The stored image `img` carries the fields of the record `r`: `url` from `url`,
`startDate` from `start_date`, `bannerLink` from `banner_link`, `title` from
`title`, `endDate` from `end_date` and `id` from `id`. -/
def FieldsMapped (img : ImageData) (r : BannerRow) : Prop :=
  img.url = r.url ∧ img.startDate = r.start_date ∧ img.bannerLink = r.banner_link ∧
    img.title = r.title ∧ img.endDate = r.end_date ∧ img.id = r.id

/-- The records of `rawData` whose nation key denotes the property `k`, in the order
of `rawData`. -/
def rowsFor (k : JSString) (rawData : List BannerRow) : List BannerRow :=
  rawData.filter (fun r => decide (propertyKey r.nation_key = k))

/-- The images that the specification asks for under the key `k`: the records of
`rawData` whose nation key denotes the property `k`, in the order of `rawData`, each
with its six fields copied under the names `url`, `startDate`, `bannerLink`, `title`,
`endDate`, `id`. -/
def recordsFor (k : JSString) (rawData : List BannerRow) : Images :=
  (rowsFor k rawData).map (fun r =>
    { url := r.url, startDate := r.start_date, bannerLink := r.banner_link,
      title := r.title, endDate := r.end_date, id := r.id })

/-- A later snapshot: one row of Vietnam, and no row of Japan any more. -/
def sampleRowsLater : List BannerRow :=
  [sampleRow 4 (some "vietnam".toList) (some "01/04/2024".toList) none]

/-- A banner whose start text has the year 999999 and whose end text is 1 January
2024. -/
def bannerFarPast : ImageData :=
  sampleImage 16 (some "01/01/999999".toList) (some "01/01/2024".toList)

/-- A banner that started on 1 March 2024 and runs to the end of 2024. -/
def bannerMar : ImageData :=
  sampleImage 7 (some "01/03/2024".toList) (some "31/12/2024".toList)

/-- Stability of an arrangement `l` of `input`: two records of `input` that the
comparator ranks as equal stand in `l` in the order they have in `input`. -/
def KeepsTies (env : Env) (input l : List ImageData) : Prop :=
  ∀ a ∈ input, ∀ b ∈ input, sortCompare (compareImages env) a b = 0 →
    [a, b].Sublist input → [a, b].Sublist l


/-- The arrangement `l` follows the comparator: no record stands before a record
that the comparator puts strictly before it. -/
def InComparatorOrder (env : Env) (l : List ImageData) : Prop :=
  l.Pairwise (fun a b => ¬ sortCompare (compareImages env) b a < 0)

/-- The time value that `new Date(year, month, date)` computes from its fields
before it subtracts the offset of the time zone: midnight of that day, read as a
local time. -/
def localMidnight (year month date : Int) : Int :=
  let yr := if 0 ≤ year ∧ year ≤ 99 then 1900 + year else year
  MakeDate (MakeDay yr month date) (MakeTime 0 0 0 0)

/-- A console in a browser at UTC+1 until 31 March 2024, 01:00 UTC, and at UTC+2
from then on (central European time with its change to summer time), with the
clock at `now`. -/
def sampleAdminEnvDST (now : Int) : AdminEnv :=
  { now := now
    offsetAtUTC := fun t => if t < 1711846800000 then 3600000 else 7200000
    offsetAtLocal := fun t => if t < 1711850400000 then 3600000 else 7200000
    numberOther := fun _ => none, adminEmail := none, adminKey := none }

/-! ## The calendar -/

theorem DayFromYear_succ (y : Int) : DayFromYear (y + 1) = DayFromYear y + DaysInYear y := by
  unfold DayFromYear DaysInYear
  split_ifs <;> omega

theorem DayFromYear_strictMono {a b : Int} (h : a < b) : DayFromYear a < DayFromYear b := by
  unfold DayFromYear; omega

theorem yearFromDay_lower (d : Int) : DayFromYear (d * 10000 / 3652425 + 1970 - 1) ≤ d := by
  unfold DayFromYear; omega

theorem yearFromDay_upper (d : Int) : d < DayFromYear (d * 10000 / 3652425 + 1970 + 2) := by
  unfold DayFromYear; omega

/-- The function `yearFromDay` meets the definition of `YearFromTime`: the year it
returns starts on or before day `d` and the next year starts after it. -/
theorem yearFromDay_spec (d : Int) :
    DayFromYear (yearFromDay d) ≤ d ∧ d < DayFromYear (yearFromDay d + 1) := by
  have h1 := yearFromDay_lower d
  have h2 := yearFromDay_upper d
  unfold yearFromDay
  simp only
  split_ifs with ha hb
  · refine ⟨h1, ?_⟩
    rw [Int.sub_add_cancel]; exact ha
  · refine ⟨hb, ?_⟩
    rw [Int.add_assoc]; exact h2
  · exact ⟨by omega, by omega⟩

theorem yearFromDay_unique {d y : Int} (h1 : DayFromYear y ≤ d) (h2 : d < DayFromYear (y + 1)) :
    yearFromDay d = y := by
  obtain ⟨h3, h4⟩ := yearFromDay_spec d
  rcases lt_trichotomy (yearFromDay d) y with h | h | h
  · have hle : yearFromDay d + 1 ≤ y := h
    rcases eq_or_lt_of_le hle with e | l
    · rw [e] at h4; omega
    · have := DayFromYear_strictMono l; omega
  · exact h
  · have hle : y + 1 ≤ yearFromDay d := h
    rcases eq_or_lt_of_le hle with e | l
    · rw [← e] at h3; omega
    · have := DayFromYear_strictMono l; omega

theorem DaysInYear_cases (y : Int) : DaysInYear y = 365 ∨ DaysInYear y = 366 := by
  unfold DaysInYear; split_ifs <;> simp

theorem leapFlag_cases (y : Int) :
    (DaysInYear y = 365 ∧ leapFlag y = 0) ∨ (DaysInYear y = 366 ∧ leapFlag y = 1) := by
  unfold leapFlag
  rcases DaysInYear_cases y with h | h <;> simp [h]

theorem monthOfDay_range (d l : Int) : 0 ≤ monthOfDay d l ∧ monthOfDay d l ≤ 11 := by
  unfold monthOfDay
  omega

theorem monthStart_add_dateOfDay (m d l : Int) : monthStart m l + dateOfDay m d l = d + 1 := by
  unfold monthStart dateOfDay
  omega

/-- Moving the day of the month by `k` moves the day number by `k`: the day that
`setUTCDate(getUTCDate() + k)` computes is `Day(t) + k`. -/
theorem MakeDay_roundtrip (t k : Int) :
    MakeDay (YearFromTime t) (MonthFromTime t) (DateFromTime t + k) = Day t + k := by
  obtain ⟨m0, m11⟩ := monthOfDay_range (DayWithinYear t) (InLeapYear t)
  have hd : Day t = DayFromYear (YearFromTime t) + DayWithinYear t := by
    unfold DayWithinYear; omega
  have hdiv : MonthFromTime t / 12 = 0 := by unfold MonthFromTime; omega
  have hmod : MonthFromTime t % 12 = MonthFromTime t := by unfold MonthFromTime; omega
  have key := monthStart_add_dateOfDay (MonthFromTime t) (DayWithinYear t) (InLeapYear t)
  unfold MakeDay daysBeforeMonth
  simp only [hdiv, hmod, add_zero]
  unfold DateFromTime InLeapYear at *
  omega

/-! ## Time values are midnights within the range of `Date` -/

theorem TimeClip_eq_some {t s : Int} (h : TimeClip t = some s) :
    s = t ∧ t.natAbs ≤ 8640000000000000 := by
  unfold TimeClip at h
  split_ifs at h with hc
  · simp at h
    omega

theorem TimeClip_of_le {t : Int} (h : t.natAbs ≤ 8640000000000000) : TimeClip t = some t := by
  unfold TimeClip
  rw [if_neg (by omega)]

theorem newDate_TimeClip (t : Int) : newDate (TimeClip t) = TimeClip t := by
  unfold newDate
  cases h : TimeClip t with
  | none => rfl
  | some s =>
    obtain ⟨rfl, hle⟩ := TimeClip_eq_some h
    simpa using TimeClip_of_le hle

theorem newDate_DateUTC (a b c : Option Int) : newDate (DateUTC a b c) = DateUTC a b c := by
  unfold DateUTC
  split
  · exact newDate_TimeClip _
  · rfl

theorem DateUTC_midnight {a b c : Option Int} {s : Int} (h : DateUTC a b c = some s) :
    IsMidnight s := by
  unfold DateUTC at h
  split at h
  · obtain ⟨rfl, hle⟩ := TimeClip_eq_some h
    refine ⟨?_, hle⟩
    unfold MakeDate MakeTime msPerDay
    omega
  · simp at h

theorem setUTCHoursZero_midnight {s : Int} (h : IsMidnight s) :
    setUTCHoursZero (some s) = some s := by
  obtain ⟨h1, h2⟩ := h
  have e : MakeDate (Day s) (MakeTime 0 0 0 0) = s := by
    unfold MakeDate MakeTime Day
    unfold msPerDay at *
    omega
  unfold setUTCHoursZero
  simp only [e]
  exact TimeClip_of_le h2

theorem dateFromParts_midnight {str : JSString} {d : TimeValue} {s : Int}
    (h : dateFromParts str = some d) (hs : d = some s) : IsMidnight s := by
  unfold dateFromParts at h
  simp only at h
  split at h
  · split at h
    · simp only [Option.some.injEq] at h
      rw [newDate_DateUTC] at h
      rw [hs] at h
      exact DateUTC_midnight h
    · simp at h
  · simp at h

theorem dateFromParse_midnight {p : JSString → Option Int} {str : JSString} {s : Int}
    (h : dateFromParse p str = some s) : IsMidnight s := by
  unfold dateFromParse at h
  simp only at h
  split at h
  · rw [newDate_DateUTC] at h
    exact DateUTC_midnight h
  · simp [newDate, TimeClip] at h
    subst h
    exact ⟨by decide, by decide⟩

/-- Every finite time value `convertDateStringToDate` returns is a midnight UTC. -/
theorem convertDateStringToDate_midnight {p : JSString → Option Int} {x : Option JSString}
    {s : Int} (h : convertDateStringToDate p x = some s) : IsMidnight s := by
  unfold convertDateStringToDate at h
  split at h
  · simp [newDate, TimeClip] at h
    subst h
    exact ⟨by decide, by decide⟩
  · simp [newDate, TimeClip] at h
    subst h
    exact ⟨by decide, by decide⟩
  · split at h
    · next d hd => exact dateFromParts_midnight hd h
    · exact dateFromParse_midnight h

/-- The call `setUTCHours(0, 0, 0, 0)` leaves a converted date unchanged. -/
theorem setUTCHoursZero_convert (p : JSString → Option Int) (x : Option JSString) :
    setUTCHoursZero (convertDateStringToDate p x) = convertDateStringToDate p x := by
  cases h : convertDateStringToDate p x with
  | none => rfl
  | some s => exact setUTCHoursZero_midnight (convertDateStringToDate_midnight h)

theorem convert_of_not_truthy {p : JSString → Option Int} {x : Option JSString}
    (h : truthy x = false) : convertDateStringToDate p x = invalidDate := by
  unfold convertDateStringToDate
  match x, h with
  | none, _ => simp [newDate, TimeClip, invalidDate]
  | some [], _ => simp [newDate, TimeClip, invalidDate]
  | some (_ :: _), h => simp [truthy] at h

/-! ## Strings -/

theorem isDecimalDigit_facts {c : Char} (h : isDecimalDigit c = true) :
    isJSWhiteSpace c = false ∧ isDateSeparator c = false ∧ (c == 'T') = false ∧
      c ≠ '-' ∧ c ≠ '+' ∧ c.toNat < 65536 := by
  unfold isDecimalDigit at h
  simp only [Bool.and_eq_true, decide_eq_true_eq] at h
  refine ⟨?_, ?_, ?_, ?_, ?_, by omega⟩
  · unfold isJSWhiteSpace
    simp
    omega
  · unfold isDateSeparator
    simp only [Bool.or_eq_false_iff, beq_eq_false_iff_ne, ne_eq]
    refine ⟨⟨?_, ?_⟩, ?_⟩ <;> (rintro rfl; revert h; decide)
  · simp only [beq_eq_false_iff_ne, ne_eq]
    rintro rfl; revert h; decide
  · rintro rfl; revert h; decide
  · rintro rfl; revert h; decide

theorem jsSplit_of_no_sep (sep : Char → Bool) (s : JSString) (h : ∀ c ∈ s, sep c = false) :
    jsSplit sep s = [s] := by
  induction s with
  | nil => rfl
  | cons c cs ih =>
    have hc : sep c = false := h c (List.mem_cons_self _ _)
    have ih1 := ih (fun x hx => h x (List.mem_cons_of_mem _ hx))
    unfold jsSplit
    simp [hc, ih1]

theorem jsSplit_append_sep (sep : Char → Bool) (a : JSString) (x : Char) (rest : JSString)
    (ha : ∀ c ∈ a, sep c = false) (hx : sep x = true) :
    jsSplit sep (a ++ x :: rest) = a :: jsSplit sep rest := by
  induction a with
  | nil =>
    show jsSplit sep (x :: rest) = [] :: jsSplit sep rest
    rw [jsSplit]
    simp [hx]
  | cons c cs ih =>
    have hc : sep c = false := ha c (List.mem_cons_self _ _)
    have ih1 := ih (fun y hy => ha y (List.mem_cons_of_mem _ hy))
    show jsSplit sep (c :: (cs ++ x :: rest)) = (c :: cs) :: jsSplit sep rest
    rw [jsSplit]
    simp [hc, ih1]

theorem jsSplit_three (sep : Char → Bool) (a b c : JSString) (x y : Char)
    (ha : ∀ z ∈ a, sep z = false) (hb : ∀ z ∈ b, sep z = false) (hc : ∀ z ∈ c, sep z = false)
    (hx : sep x = true) (hy : sep y = true) :
    jsSplit sep (a ++ x :: (b ++ y :: c)) = [a, b, c] := by
  rw [jsSplit_append_sep sep a x _ ha hx, jsSplit_append_sep sep b y _ hb hy,
    jsSplit_of_no_sep sep c hc]

theorem dropWhile_of_head {p : Char → Bool} {s : JSString} (hne : s ≠ [])
    (h : ∀ c, s.head? = some c → p c = false) : s.dropWhile p = s := by
  cases s with
  | nil => exact absurd rfl hne
  | cons c cs =>
    have := h c rfl
    simp [List.dropWhile, this]

theorem jsTrim_of_ends (s : JSString) (hne : s ≠ [])
    (hfirst : ∀ c, s.head? = some c → isJSWhiteSpace c = false)
    (hlast : ∀ c, s.getLast? = some c → isJSWhiteSpace c = false) : jsTrim s = s := by
  unfold jsTrim
  rw [dropWhile_of_head hne hfirst]
  rw [dropWhile_of_head (by simpa using hne) (by simpa using hlast)]
  exact List.reverse_reverse s

theorem jsTrim_of_blank (s : JSString) (h : ∀ c ∈ s, isJSWhiteSpace c = true) : jsTrim s = [] := by
  unfold jsTrim
  have : s.dropWhile isJSWhiteSpace = [] := List.dropWhile_eq_nil_iff.2 h
  simp [this]

theorem jsLength_of_digits (s : JSString) (h : ∀ c ∈ s, isDecimalDigit c = true) :
    jsLength s = s.length := by
  induction s with
  | nil => rfl
  | cons c cs ih =>
    have hc := (isDecimalDigit_facts (h c (List.mem_cons_self _ _))).2.2.2.2.2
    have ih1 := ih (fun x hx => h x (List.mem_cons_of_mem _ hx))
    unfold jsLength at ih1 ⊢
    simp only [List.map_cons, List.sum_cons, List.length_cons, if_pos hc, ih1]
    omega

theorem parseInt10_of_digits (s : JSString) (hne : s ≠ [])
    (h : ∀ c ∈ s, isDecimalDigit c = true) : parseInt10 s = some (digitsValue s : Int) := by
  cases s with
  | nil => exact absurd rfl hne
  | cons c cs =>
    have hc := h c (List.mem_cons_self _ _)
    obtain ⟨hw, _, _, hm, hp, _⟩ := isDecimalDigit_facts hc
    have htw : (c :: cs).takeWhile isDecimalDigit = c :: cs := List.takeWhile_eq_self_iff.2 h
    have hsign : readSign (c :: cs) = (1, c :: cs) := by
      unfold readSign
      split
      · next r heq => exact absurd (List.cons.inj heq).1 hm
      · next r heq => exact absurd (List.cons.inj heq).1 hp
      · rfl
    unfold parseInt10
    simp [List.dropWhile, hw, hsign, htw]

/-! ## `getBannerStatus` -/

theorem getBannerStatus_endDate (env : Env) (startDateStr endDateStr : Option JSString)
    (h : truthy startDateStr = true) :
    (getBannerStatus env startDateStr endDateStr).endDate =
      some (setUTCHoursZero
        (rawEndDate env (convertDateStringToDate env.dateParse startDateStr) endDateStr)) := by
  unfold getBannerStatus
  simp only [h, Bool.not_true, Bool.false_eq_true, if_false]
  split_ifs <;> rfl

theorem getBannerStatus_status (env : Env) (startDateStr endDateStr : Option JSString)
    (h : truthy startDateStr = true) :
    (getBannerStatus env startDateStr endDateStr).status =
      (if numLt (newDate (todayOf env.now))
          (setUTCHoursZero (convertDateStringToDate env.dateParse startDateStr)) then
        BannerStatus.upcoming
      else if numGe (floorDays (numSub (getTime (newDate (todayOf env.now)))
          (getTime (setUTCHoursZero (rawEndDate env
            (convertDateStringToDate env.dateParse startDateStr) endDateStr))))) 0 then
        (if numGt (floorDays (numSub (getTime (newDate (todayOf env.now)))
          (getTime (setUTCHoursZero (rawEndDate env
            (convertDateStringToDate env.dateParse startDateStr) endDateStr))))) 30 then
          BannerStatus.none
        else BannerStatus.ending)
      else BannerStatus.active) := by
  unfold getBannerStatus
  simp only [h, Bool.not_true, Bool.false_eq_true, if_false]
  split_ifs <;> rfl

theorem getBannerStatus_not_truthy (env : Env) (startDateStr endDateStr : Option JSString)
    (h : truthy startDateStr = false) :
    getBannerStatus env startDateStr endDateStr =
      { status := .none, label := "", endDate := Option.none } := by
  unfold getBannerStatus
  simp [h]

theorem newDate_todayOf (now : Int) : newDate (todayOf now) = todayOf now := by
  unfold todayOf
  exact newDate_DateUTC _ _ _

/-- C1. For a start text that parses to the date `s`, an effective end date `e`
(the `endDate` that `getBannerStatus` returns) and the day `td` computed from the
clock, the status is `upcoming` iff `td < s`, which is a comparison of day numbers;
otherwise it is `active` iff `daysSinceEnd < 0`, `ending` iff
`0 ≤ daysSinceEnd ≤ 30` and `none` iff `daysSinceEnd > 30`, where
`daysSinceEnd = floor((td - e) / msPerDay)`. -/
theorem getBannerStatus_classification (env : Env) (startDateStr endDateStr : Option JSString)
    (s e td : Int)
    (hstart : convertDateStringToDate env.dateParse startDateStr = some s)
    (hend : (getBannerStatus env startDateStr endDateStr).endDate = some (some e))
    (htoday : todayOf env.now = some td) :
    ((getBannerStatus env startDateStr endDateStr).status = BannerStatus.upcoming ↔ td < s) ∧
    (td < s ↔ Day td < Day s) ∧
    (¬ td < s →
      ((getBannerStatus env startDateStr endDateStr).status = BannerStatus.active ↔
          daysSinceEnd td e < 0) ∧
      ((getBannerStatus env startDateStr endDateStr).status = BannerStatus.ending ↔
          0 ≤ daysSinceEnd td e ∧ daysSinceEnd td e ≤ 30) ∧
      ((getBannerStatus env startDateStr endDateStr).status = BannerStatus.none ↔
          30 < daysSinceEnd td e)) := by
  have htr : truthy startDateStr = true := by
    cases ht : truthy startDateStr with
    | true => rfl
    | false =>
      rw [getBannerStatus_not_truthy env _ _ ht] at hend
      simp at hend
  have hs := convertDateStringToDate_midnight hstart
  have htd : IsMidnight td := DateUTC_midnight htoday
  rw [getBannerStatus_endDate env _ _ htr] at hend
  have hend1 : setUTCHoursZero
      (rawEndDate env (convertDateStringToDate env.dateParse startDateStr) endDateStr) = some e := by
    simpa using hend
  rw [getBannerStatus_status env _ _ htr, hend1, newDate_todayOf, htoday, hstart,
    setUTCHoursZero_midnight hs]
  simp only [numLt, getTime, numSub, floorDays, Option.map_some', numGe, numGt, decide_eq_true_eq,
    daysSinceEnd]
  have hday : td < s ↔ Day td < Day s := by
    obtain ⟨h1, _⟩ := hs
    obtain ⟨h2, _⟩ := htd
    unfold Day
    unfold msPerDay at *
    omega
  refine ⟨?_, hday, ?_⟩
  · split_ifs <;> simp_all
  · intro hlt
    rw [if_neg hlt]
    refine ⟨?_, ?_, ?_⟩
    · split_ifs <;> simp_all
    · split_ifs <;> simp_all
    · split_ifs <;> simp_all
      omega

/-- C1, witness: start 2024-03-25, end 2024-04-05.  On 2024-04-01 the day count is
-4 and the status `active`; on 2024-04-10 the day count is 5 and the status `ending`. -/
theorem getBannerStatus_classification_witness :
    (daysSinceEnd 1711929600000 1712275200000 = -4 ∧
      (getBannerStatus (sampleEnv 1711929600000) (some "2024-03-25".toList)
        (some "2024-04-05".toList)).status = BannerStatus.active) ∧
    (daysSinceEnd 1712707200000 1712275200000 = 5 ∧
      (getBannerStatus (sampleEnv april10) (some "2024-03-25".toList)
        (some "2024-04-05".toList)).status = BannerStatus.ending) :=
  ⟨⟨by decide,
    ((getBannerStatus_classification (sampleEnv 1711929600000) (some "2024-03-25".toList)
      (some "2024-04-05".toList) 1711324800000 1712275200000 1711929600000
      (by decide) (by decide) (by decide)).2.2 (by decide)).1.2 (by decide)⟩,
   ⟨by decide,
    ((getBannerStatus_classification (sampleEnv april10) (some "2024-03-25".toList)
      (some "2024-04-05".toList) 1711324800000 1712275200000 1712707200000
      (by decide) (by decide) (by decide)).2.2 (by decide)).2.1.2 (by decide)⟩⟩


/-! ## The filter step of `displayImages` -/

theorem isVisible_iff (env : Env) (r : ImageData) (td : Int)
    (htoday : todayOf env.now = some td) :
    isVisible env false r = true ↔
      (startOf env r = invalidDate ∨
        ∀ e : Int, (getBannerStatus env r.startDate r.endDate).endDate = some (some e) →
          daysSinceEnd td e ≤ 30) := by
  by_cases hinv : startOf env r = invalidDate
  · have hv : isVisible env false r = true := by
      unfold isVisible
      unfold startOf invalidDate at hinv
      simp [getTime, hinv]
    simp [hinv, hv]
  · have htr : truthy r.startDate = true := by
      cases ht : truthy r.startDate with
      | true => rfl
      | false => exact absurd (convert_of_not_truthy ht) hinv
    have hinv2 : ¬ (convertDateStringToDate env.dateParse r.startDate = some 0) := hinv
    have hnd : newDate (some td) = some td := by
      rw [← htoday]
      exact newDate_todayOf _
    rw [getBannerStatus_endDate env _ _ htr]
    unfold isVisible
    simp only [Bool.false_eq_true, if_false, getTime, hinv2, htoday, hnd]
    cases hE : setUTCHoursZero
        (rawEndDate env (convertDateStringToDate env.dateParse r.startDate) r.endDate) with
    | none => simp [numSub, floorDays, numGt, hinv]
    | some e =>
      simp [numSub, floorDays, numGt, hinv, daysSinceEnd]

/-! ## `Array.prototype.sort` -/

section SortLemmas

variable {α : Type} (cmp : α → α → Option Int)

theorem orderedInsert_perm (x : α) (l : List α) :
    (orderedInsert cmp x l).Perm (x :: l) := by
  induction l with
  | nil => exact List.Perm.refl _
  | cons y ys ih =>
    unfold orderedInsert
    split_ifs
    · exact List.Perm.refl _
    · exact (List.Perm.cons y ih).trans (List.Perm.swap x y ys)

/-- The sort returns a rearrangement of its input. -/
theorem arraySort_perm (l : List α) : (arraySort cmp l).Perm l := by
  induction l with
  | nil => exact List.Perm.refl _
  | cons x xs ih =>
    unfold arraySort
    exact (orderedInsert_perm cmp x _).trans (List.Perm.cons x ih)

theorem mem_orderedInsert {x a : α} {l : List α} :
    a ∈ orderedInsert cmp x l ↔ a = x ∨ a ∈ l := by
  rw [(orderedInsert_perm cmp x l).mem_iff, List.mem_cons]

theorem mem_arraySort {a : α} {l : List α} : a ∈ arraySort cmp l ↔ a ∈ l :=
  (arraySort_perm cmp l).mem_iff

theorem orderedInsert_pairwise_rank {κ : Type} [LinearOrder κ] (rank : α → κ) (x : α)
    (l : List α)
    (h1 : ∀ b ∈ l, rank x < rank b → sortCompare cmp x b ≤ 0)
    (h2 : ∀ b ∈ l, rank b < rank x → 0 < sortCompare cmp x b)
    (hl : l.Pairwise (fun a b => rank a ≤ rank b)) :
    (orderedInsert cmp x l).Pairwise (fun a b => rank a ≤ rank b) := by
  induction l with
  | nil => simp [orderedInsert]
  | cons y ys ih =>
    obtain ⟨hy, hys⟩ := List.pairwise_cons.1 hl
    unfold orderedInsert
    split_ifs with hc
    · have hxy : rank x ≤ rank y := by
        by_contra hlt
        have := h2 y (List.mem_cons_self _ _) (lt_of_not_ge hlt)
        omega
      refine List.pairwise_cons.2 ⟨?_, hl⟩
      intro b hb
      rcases List.mem_cons.1 hb with rfl | hb
      · exact hxy
      · exact le_trans hxy (hy b hb)
    · have hyx : rank y ≤ rank x := by
        by_contra hlt
        have := h1 y (List.mem_cons_self _ _) (lt_of_not_ge hlt)
        omega
      refine List.pairwise_cons.2 ⟨?_, ?_⟩
      · intro b hb
        rcases (mem_orderedInsert cmp).1 hb with rfl | hb
        · exact hyx
        · exact hy b hb
      · exact ih (fun b hb => h1 b (List.mem_cons_of_mem _ hb))
          (fun b hb => h2 b (List.mem_cons_of_mem _ hb)) hys

/-- When the sign of the comparator follows a rank on the elements of the list
(lower rank first), the sorted list is ordered by rank. -/
theorem arraySort_pairwise_rank {κ : Type} [LinearOrder κ] (rank : α → κ) (l : List α)
    (h1 : ∀ a ∈ l, ∀ b ∈ l, rank a < rank b → sortCompare cmp a b ≤ 0)
    (h2 : ∀ a ∈ l, ∀ b ∈ l, rank b < rank a → 0 < sortCompare cmp a b) :
    (arraySort cmp l).Pairwise (fun a b => rank a ≤ rank b) := by
  induction l with
  | nil => simp [arraySort]
  | cons x xs ih =>
    unfold arraySort
    apply orderedInsert_pairwise_rank
    · intro b hb
      exact h1 x (List.mem_cons_self _ _) b (List.mem_cons_of_mem _ ((mem_arraySort cmp).1 hb))
    · intro b hb
      exact h2 x (List.mem_cons_self _ _) b (List.mem_cons_of_mem _ ((mem_arraySort cmp).1 hb))
    · exact ih (fun a ha b hb => h1 a (List.mem_cons_of_mem _ ha) b (List.mem_cons_of_mem _ hb))
        (fun a ha b hb => h2 a (List.mem_cons_of_mem _ ha) b (List.mem_cons_of_mem _ hb))

theorem sublist_orderedInsert (x : α) (l : List α) : l.Sublist (orderedInsert cmp x l) := by
  induction l with
  | nil => simp [orderedInsert]
  | cons y ys ih =>
    unfold orderedInsert
    split_ifs
    · exact List.sublist_cons_self x _
    · exact List.Sublist.cons₂ y ih

theorem pair_sublist_orderedInsert {x b : α} {l : List α} (hb : b ∈ l)
    (hxb : sortCompare cmp x b ≤ 0) : [x, b].Sublist (orderedInsert cmp x l) := by
  induction l with
  | nil => simp at hb
  | cons y ys ih =>
    unfold orderedInsert
    split_ifs with hc
    · exact List.Sublist.cons₂ x (List.singleton_sublist.2 hb)
    · rcases List.mem_cons.1 hb with rfl | hb
      · exact absurd hxb hc
      · exact List.Sublist.cons y (ih hb)

/-- Stability: two elements that the comparator does not put in the opposite order
keep their order. -/
theorem pair_sublist_arraySort {a b : α} {l : List α} (hab : sortCompare cmp a b ≤ 0)
    (h : [a, b].Sublist l) : [a, b].Sublist (arraySort cmp l) := by
  induction l with
  | nil => simp at h
  | cons x xs ih =>
    unfold arraySort
    cases h with
    | cons _ h => exact (ih h).trans (sublist_orderedInsert cmp x _)
    | cons₂ _ h =>
      exact pair_sublist_orderedInsert cmp
        ((mem_arraySort cmp).2 (List.singleton_sublist.1 h)) hab

theorem orderedInsert_chain (hanti : ∀ a b : α, 0 < sortCompare cmp a b → sortCompare cmp b a ≤ 0)
    (x : α) (l : List α) (hl : l.Chain' (fun a b => sortCompare cmp a b ≤ 0)) :
    (orderedInsert cmp x l).Chain' (fun a b => sortCompare cmp a b ≤ 0) := by
  induction l with
  | nil => simp [orderedInsert]
  | cons y ys ih =>
    unfold orderedInsert
    split_ifs with hc
    · exact List.Chain'.cons hc hl
    · have hyx : sortCompare cmp y x ≤ 0 := hanti x y (by omega)
      have ih1 := ih (List.Chain'.tail hl)
      cases ys with
      | nil => simpa [orderedInsert] using hyx
      | cons z zs =>
        have hyz : sortCompare cmp y z ≤ 0 := (List.chain'_cons.1 hl).1
        unfold orderedInsert at ih1 ⊢
        split_ifs at ih1 ⊢ with hz
        · exact List.Chain'.cons hyx ih1
        · exact List.Chain'.cons hyz ih1

theorem arraySort_chain (hanti : ∀ a b : α, 0 < sortCompare cmp a b → sortCompare cmp b a ≤ 0)
    (l : List α) : (arraySort cmp l).Chain' (fun a b => sortCompare cmp a b ≤ 0) := by
  induction l with
  | nil => simp [arraySort]
  | cons x xs ih =>
    unfold arraySort
    exact orderedInsert_chain cmp hanti x _ ih

theorem arraySort_of_chain (l : List α) (hl : l.Chain' (fun a b => sortCompare cmp a b ≤ 0)) :
    arraySort cmp l = l := by
  induction l with
  | nil => rfl
  | cons x xs ih =>
    unfold arraySort
    rw [ih (List.Chain'.tail hl)]
    cases xs with
    | nil => rfl
    | cons y ys =>
      unfold orderedInsert
      rw [if_pos (List.chain'_cons.1 hl).1]

end SortLemmas

/-! ## The comparator of `displayImages` -/

theorem sortCompare_compareImages (env : Env) (a b : ImageData) :
    sortCompare (compareImages env) a b =
      if endingRank env a = 1 ∧ endingRank env b = 0 then 1
      else if endingRank env a = 0 ∧ endingRank env b = 1 then -1
      else (compareStarts (startOf env a) (startOf env b)).getD 0 := by
  unfold sortCompare compareImages endingRank compareStarts statusOf startOf getTime
  by_cases ha : (getBannerStatus env a.startDate a.endDate).status = BannerStatus.ending <;>
    by_cases hb : (getBannerStatus env b.startDate b.endDate).status = BannerStatus.ending <;>
    simp [ha, hb]

theorem endingRank_le_one (env : Env) (r : ImageData) :
    endingRank env r = 0 ∨ endingRank env r = 1 := by
  unfold endingRank
  split_ifs <;> simp

theorem compareStarts_antisymm (x y : TimeValue) :
    0 < (compareStarts x y).getD 0 → (compareStarts y x).getD 0 ≤ 0 := by
  unfold compareStarts
  by_cases hx : x = some 0 <;> by_cases hy : y = some 0 <;> simp [hx, hy]
  cases x <;> cases y <;> simp [numSub]
  omega

/-- The comparator never ranks two records each after the other. -/
theorem compareImages_antisymm (env : Env) (a b : ImageData) :
    0 < sortCompare (compareImages env) a b → sortCompare (compareImages env) b a ≤ 0 := by
  rw [sortCompare_compareImages, sortCompare_compareImages]
  rcases endingRank_le_one env a with ha | ha <;> rcases endingRank_le_one env b with hb | hb <;>
    simp [ha, hb]
  · exact compareStarts_antisymm _ _
  · exact compareStarts_antisymm _ _

theorem compareImages_endingRank_lt (env : Env) (a b : ImageData)
    (h : endingRank env a < endingRank env b) : sortCompare (compareImages env) a b ≤ 0 := by
  rw [sortCompare_compareImages]
  rcases endingRank_le_one env a with ha | ha <;> rcases endingRank_le_one env b with hb | hb <;>
    simp [ha, hb] at h ⊢

theorem compareImages_endingRank_gt (env : Env) (a b : ImageData)
    (h : endingRank env b < endingRank env a) : 0 < sortCompare (compareImages env) a b := by
  rw [sortCompare_compareImages]
  rcases endingRank_le_one env a with ha | ha <;> rcases endingRank_le_one env b with hb | hb <;>
    simp [ha, hb] at h ⊢

theorem compareImages_classRank_lt (env : Env) (a b : ImageData)
    (h : classRank env a < classRank env b) : sortCompare (compareImages env) a b ≤ 0 := by
  rw [sortCompare_compareImages]
  unfold classRank at h
  unfold compareStarts
  rcases endingRank_le_one env a with ha | ha <;> rcases endingRank_le_one env b with hb | hb <;>
    by_cases hx : startOf env a = invalidDate <;> by_cases hy : startOf env b = invalidDate <;>
    simp [ha, hb, hx, hy, invalidDate] at h ⊢
  all_goals simp_all [invalidDate]

theorem compareImages_classRank_gt (env : Env) (a b : ImageData)
    (h : classRank env b < classRank env a) : 0 < sortCompare (compareImages env) a b := by
  rw [sortCompare_compareImages]
  unfold classRank at h
  unfold compareStarts
  rcases endingRank_le_one env a with ha | ha <;> rcases endingRank_le_one env b with hb | hb <;>
    by_cases hx : startOf env a = invalidDate <;> by_cases hy : startOf env b = invalidDate <;>
    simp [ha, hb, hx, hy, invalidDate] at h ⊢
  all_goals simp_all [invalidDate]

theorem startOf_bound (env : Env) (r : ImageData) :
    ((startOf env r).getD 0).natAbs ≤ 8640000000000000 := by
  cases h : startOf env r with
  | none => simp
  | some s => exact (convertDateStringToDate_midnight h).2

theorem classRank_le_three (env : Env) (r : ImageData) : classRank env r ≤ 3 := by
  unfold classRank
  rcases endingRank_le_one env r with h | h <;> split_ifs <;> omega

theorem compareImages_same_class (env : Env) (a b : ImageData) (sa sb : Int)
    (ha : startOf env a = some sa) (hb : startOf env b = some sb)
    (hc : classRank env a = classRank env b) :
    sortCompare (compareImages env) a b = sb - sa := by
  rw [sortCompare_compareImages]
  unfold classRank at hc
  unfold compareStarts
  rw [ha, hb] at hc ⊢
  rcases endingRank_le_one env a with h1 | h1 <;> rcases endingRank_le_one env b with h2 | h2 <;>
    by_cases hx : sa = 0 <;> by_cases hy : sb = 0 <;>
    simp [h1, h2, hx, hy, invalidDate, numSub] at hc ⊢

theorem compareImages_sortKey_lt (env : Env) (a b : ImageData)
    (ha : startOf env a ≠ none) (hb : startOf env b ≠ none)
    (h : sortKey env a < sortKey env b) : sortCompare (compareImages env) a b ≤ 0 := by
  have ba := startOf_bound env a
  have bb := startOf_bound env b
  have ca := classRank_le_three env a
  have cb := classRank_le_three env b
  rcases lt_trichotomy (classRank env a) (classRank env b) with hlt | heq | hgt
  · exact compareImages_classRank_lt env a b hlt
  · obtain ⟨sa, hsa⟩ := Option.ne_none_iff_exists'.1 ha
    obtain ⟨sb, hsb⟩ := Option.ne_none_iff_exists'.1 hb
    rw [compareImages_same_class env a b sa sb hsa hsb heq]
    unfold sortKey at h
    rw [hsa, hsb, heq] at h
    simp only [Option.getD_some] at h
    omega
  · unfold sortKey at h
    omega

theorem compareImages_sortKey_gt (env : Env) (a b : ImageData)
    (ha : startOf env a ≠ none) (hb : startOf env b ≠ none)
    (h : sortKey env b < sortKey env a) : 0 < sortCompare (compareImages env) a b := by
  have ba := startOf_bound env a
  have bb := startOf_bound env b
  have ca := classRank_le_three env a
  have cb := classRank_le_three env b
  rcases lt_trichotomy (classRank env a) (classRank env b) with hlt | heq | hgt
  · unfold sortKey at h
    omega
  · obtain ⟨sa, hsa⟩ := Option.ne_none_iff_exists'.1 ha
    obtain ⟨sb, hsb⟩ := Option.ne_none_iff_exists'.1 hb
    rw [compareImages_same_class env a b sa sb hsa hsb heq]
    unfold sortKey at h
    rw [hsa, hsb, heq] at h
    simp only [Option.getD_some] at h
    omega
  · exact compareImages_classRank_gt env a b hgt

/-! ## The order `displayImages` produces -/

/-- C3. In the list the sort step produces, no record whose status is `ending`
stands before a record whose status is not `ending`; the sorted list holds the
same records as the input.  This holds for every list and every clock reading. -/
theorem sortStep_ending_last (env : Env) (images : List ImageData) :
    EndingLast env (sortStep env images) ∧ (sortStep env images).Perm images := by
  refine ⟨?_, arraySort_perm _ _⟩
  have h := arraySort_pairwise_rank (compareImages env) (endingRank env) images
    (fun a _ b _ hlt => compareImages_endingRank_lt env a b hlt)
    (fun a _ b _ hgt => compareImages_endingRank_gt env a b hgt)
  unfold EndingLast sortStep
  refine h.imp ?_
  intro a b hab hea
  unfold endingRank at hab
  by_contra hb
  rw [if_pos hea, if_neg hb] at hab
  omega

/-- Ordering rule 2 on lists without `NaN`. When every start date in the list has a
defined time value, two records of the sorted list that are both `ending` or both
not, and both have valid start dates, stand in start-date descending order. -/
theorem sortStep_start_descending (env : Env) (images : List ImageData)
    (hfin : ∀ r ∈ images, startOf env r ≠ none) :
    StartDescending env (sortStep env images) := by
  have h := arraySort_pairwise_rank (compareImages env) (sortKey env) images
    (fun a ha b hb hlt => compareImages_sortKey_lt env a b (hfin a ha) (hfin b hb) hlt)
    (fun a ha b hb hgt => compareImages_sortKey_gt env a b (hfin a ha) (hfin b hb) hgt)
  unfold StartDescending sortStep
  refine h.imp ?_
  intro a b hab hcl sa sb hsa hsa0 hsb hsb0
  unfold sortKey classRank endingRank at hab
  rw [hsa, hsb] at hab
  have ia : ¬ (some sa = invalidDate) := by simpa [invalidDate] using hsa0
  have ib : ¬ (some sb = invalidDate) := by simpa [invalidDate] using hsb0
  rw [if_neg ia, if_neg ib] at hab
  simp only [Option.getD_some] at hab
  by_cases hea : statusOf env a = BannerStatus.ending
  · rw [if_pos hea, if_pos (hcl.1 hea)] at hab
    omega
  · rw [if_neg hea, if_neg (fun hb => hea (hcl.2 hb))] at hab
    omega

/-- C5, amended. In the sorted list, among records that are both `ending` or both
not, no record with the Invalid start date stands before a record with another
start date; and no `ending` record stands before a record that is not `ending`,
whatever their start dates.  This holds for every list. -/
theorem sortStep_invalid_last_in_class (env : Env) (images : List ImageData) :
    InvalidStartLastInClass env (sortStep env images) ∧
    EndingLast env (sortStep env images) := by
  have h := arraySort_pairwise_rank (compareImages env) (classRank env) images
    (fun a _ b _ hlt => compareImages_classRank_lt env a b hlt)
    (fun a _ b _ hgt => compareImages_classRank_gt env a b hgt)
  unfold InvalidStartLastInClass EndingLast sortStep
  constructor
  · refine h.imp ?_
    intro a b hab hcl hia
    unfold classRank endingRank at hab
    by_contra hib
    rw [if_pos hia, if_neg hib] at hab
    by_cases hea : statusOf env a = BannerStatus.ending
    · rw [if_pos hea, if_pos (hcl.1 hea)] at hab
      omega
    · rw [if_neg hea, if_neg (fun hb => hea (hcl.2 hb))] at hab
      omega
  · refine h.imp ?_
    intro a b hab hea
    unfold classRank endingRank at hab
    by_contra hb
    rw [if_pos hea, if_neg hb] at hab
    split_ifs at hab <;> omega

/-- Ordering rule 2 on three banners with defined start dates, on 10 April 2024. -/
theorem sortStep_start_descending_sample :
    StartDescending (sampleEnv april10)
      (sortStep (sampleEnv april10) [bannerJan, bannerEnded, bannerFeb]) :=
  sortStep_start_descending (sampleEnv april10) [bannerJan, bannerEnded, bannerFeb]
    (by decide)

/-- C4, at the failing input. The start text `"01/01/999999"` is three-part numeric,
so it is handed to `Date.UTC`, which yields `NaN`; the comparator then returns
`NaN` against both neighbours, which the sort reads as equal.  The list
`[bannerJan, bannerFarYear, bannerFeb]` is left as it is: the January banner stays
before the February banner although both are `active` with valid start dates. -/
theorem sortStep_start_descending_fails :
    startOf (sampleEnv april10) bannerFarYear = none ∧
    compareImages (sampleEnv april10) bannerJan bannerFarYear = none ∧
    compareImages (sampleEnv april10) bannerFarYear bannerFeb = none ∧
    sortStep (sampleEnv april10) [bannerJan, bannerFarYear, bannerFeb] =
      [bannerJan, bannerFarYear, bannerFeb] ∧
    ¬ StartDescending (sampleEnv april10)
      (sortStep (sampleEnv april10) [bannerJan, bannerFarYear, bannerFeb]) := by
  refine ⟨by decide, by decide, by decide, by decide, ?_⟩
  have hs : sortStep (sampleEnv april10) [bannerJan, bannerFarYear, bannerFeb] =
      [bannerJan, bannerFarYear, bannerFeb] := by decide
  rw [hs]
  intro h
  have hab := (List.pairwise_cons.1 h).1 bannerFeb (by simp)
  have hle := hab (by decide) 1704067200000 1706745600000 (by decide) (by decide) (by decide)
    (by decide)
  omega

/-- C5, counterexample. On 10 April 2024 the undated banner (Invalid start date,
status `none`) is placed before the banner that ended on 5 April (valid start
date, status `ending`): the `ending` rule is applied before the Invalid rule. -/
theorem sortStep_invalid_last_counterexample :
    ¬ InvalidStartLast (sampleEnv april10)
      (sortStep (sampleEnv april10) [bannerEnded, bannerUndated]) := by
  have hs : sortStep (sampleEnv april10) [bannerEnded, bannerUndated] =
      [bannerUndated, bannerEnded] := by decide
  rw [hs]
  intro h
  have hab := (List.pairwise_cons.1 h).1 bannerEnded (by simp)
  have hinv := hab (by decide)
  exact absurd hinv (by decide)

/-! ## Texts that write a calendar date -/

theorem leapFlag_eq (y : Nat) : leapFlag (y : Int) = if isLeapYear y then 1 else 0 := by
  unfold leapFlag DaysInYear isLeapYear
  by_cases h4 : y % 4 = 0 <;> by_cases h100 : y % 100 = 0 <;> by_cases h400 : y % 400 = 0 <;>
    simp [h4, h100, h400] <;> omega

theorem calendar_day_within_year (y m d : Nat) (h : IsCalendarDate y m d) :
    0 ≤ monthStart ((m : Int) - 1) (leapFlag y) + d - 1 ∧
    monthStart ((m : Int) - 1) (leapFlag y) + d - 1 < DaysInYear y ∧
    monthOfDay (monthStart ((m : Int) - 1) (leapFlag y) + d - 1) (leapFlag y) = (m : Int) - 1 := by
  obtain ⟨h1, h2, h3, h4⟩ := h
  have hl := leapFlag_eq y
  rcases leapFlag_cases (y : Int) with ⟨hd, hf⟩ | ⟨hd, hf⟩
  · have hleap : isLeapYear y = false := by
      by_contra hc
      simp only [Bool.not_eq_false] at hc
      rw [hc, hf] at hl
      simp at hl
    rw [hf, hd]
    unfold daysInMonth at h4
    rw [hleap] at h4
    interval_cases m <;> simp [monthStart, monthOfDay] at h4 ⊢ <;> omega
  · have hleap : isLeapYear y = true := by
      by_contra hc
      simp only [Bool.not_eq_true] at hc
      rw [hc, hf] at hl
      simp at hl
    rw [hf, hd]
    unfold daysInMonth at h4
    rw [hleap] at h4
    interval_cases m <;> simp [monthStart, monthOfDay] at h4 ⊢ <;> omega

theorem isDateSeparator_facts {c : Char} (h : isDateSeparator c = true) :
    (c == 'T') = false ∧ isJSWhiteSpace c = false := by
  unfold isDateSeparator at h
  simp only [Bool.or_eq_true, beq_iff_eq] at h
  rcases h with (rfl | rfl) | rfl <;> exact ⟨by decide, by decide⟩

theorem convert_of_ne_nil (p : JSString → Option Int) (str : JSString) (hne : str ≠ []) :
    convertDateStringToDate p (some str) =
      match dateFromParts str with
      | some d => d
      | none => dateFromParse p str := by
  cases str with
  | nil => exact absurd rfl hne
  | cons c cs => rfl

theorem dateFromParts_of_split (str p0 p1 p2 : JSString)
    (hT : ∀ c ∈ str, (c == 'T') = false) (htrim : jsTrim str = str)
    (hsplit : jsSplit isDateSeparator str = [p0, p1, p2])
    (n0 n1 n2 : Int) (h0 : parseInt10 p0 = some n0) (h1 : parseInt10 p1 = some n1)
    (h2 : parseInt10 p2 = some n2) :
    dateFromParts str = some (if jsLength p0 = 4 then DateUTC (some n0) (some (n1 - 1)) (some n2)
      else DateUTC (some n2) (some (n1 - 1)) (some n0)) := by
  unfold dateFromParts
  simp only [jsSplit_of_no_sep _ str hT, List.headD_cons, htrim, hsplit, h0, h1, h2]
  split_ifs <;> simp [newDate_DateUTC]

theorem digits_text_facts (a b c : JSString) (x y : Char) (na nb nc : Nat)
    (ha : IsDecimal a na) (hb : IsDecimal b nb) (hc : IsDecimal c nc)
    (hx : isDateSeparator x = true) (hy : isDateSeparator y = true) :
    (a ++ x :: (b ++ y :: c)) ≠ [] ∧
    (∀ z ∈ a ++ x :: (b ++ y :: c), (z == 'T') = false) ∧
    jsTrim (a ++ x :: (b ++ y :: c)) = a ++ x :: (b ++ y :: c) ∧
    jsSplit isDateSeparator (a ++ x :: (b ++ y :: c)) = [a, b, c] := by
  obtain ⟨hane, had, _⟩ := ha
  obtain ⟨_, hbd, _⟩ := hb
  obtain ⟨hcne, hcd, _⟩ := hc
  refine ⟨by simp, ?_, ?_, ?_⟩
  · intro z hz
    simp only [List.mem_append, List.mem_cons] at hz
    rcases hz with hz | rfl | hz | rfl | hz
    · exact (isDecimalDigit_facts (had z hz)).2.2.1
    · exact (isDateSeparator_facts hx).1
    · exact (isDecimalDigit_facts (hbd z hz)).2.2.1
    · exact (isDateSeparator_facts hy).1
    · exact (isDecimalDigit_facts (hcd z hz)).2.2.1
  · apply jsTrim_of_ends _ (by simp)
    · intro z hz
      cases a with
      | nil => exact absurd rfl hane
      | cons a0 a1 =>
        simp only [List.cons_append, List.head?_cons, Option.some.injEq] at hz
        subst hz
        exact (isDecimalDigit_facts (had _ (List.mem_cons_self _ _))).1
    · intro z hz
      rcases List.eq_nil_or_concat c with hnil | ⟨c1, cl, rfl⟩
      · exact absurd hnil hcne
      · have e : a ++ x :: (b ++ y :: c1.concat cl) = (a ++ x :: (b ++ y :: c1)) ++ [cl] := by
          simp
        rw [e, List.getLast?_append] at hz
        simp only [List.getLast?_singleton, Option.or, Option.some.injEq] at hz
        subst hz
        exact (isDecimalDigit_facts (hcd _ (by simp))).1
  · exact jsSplit_three _ a b c x y
      (fun z hz => (isDecimalDigit_facts (had z hz)).2.1)
      (fun z hz => (isDecimalDigit_facts (hbd z hz)).2.1)
      (fun z hz => (isDecimalDigit_facts (hcd z hz)).2.1) hx hy

theorem digitsValue_four (ds : JSString) (h : ∀ c ∈ ds, isDecimalDigit c = true)
    (hlen : ds.length = 4) : digitsValue ds ≤ 9999 := by
  match ds, hlen with
  | [a, b, c, d], _ =>
    have ha := h a (by simp)
    have hb := h b (by simp)
    have hc := h c (by simp)
    have hd := h d (by simp)
    unfold isDecimalDigit at ha hb hc hd
    simp only [Bool.and_eq_true, decide_eq_true_eq] at ha hb hc hd
    simp only [digitsValue, List.foldl]
    omega

theorem DateUTC_calendar (y m d : Nat) (hcal : IsCalendarDate y m d) (hy : 100 ≤ y)
    (hr : InDateRange y m d) :
    YieldsCalendarDate (DateUTC (some (y : Int)) (some ((m : Int) - 1)) (some (d : Int))) y m d := by
  obtain ⟨w0, w1, w2⟩ := calendar_day_within_year y m d hcal
  obtain ⟨hm1, hm12, hd1, hd2⟩ := hcal
  have hdiv : ((m : Int) - 1) / 12 = 0 := by omega
  have hmod : ((m : Int) - 1) % 12 = (m : Int) - 1 := by omega
  have hday : MakeDay (y : Int) ((m : Int) - 1) (d : Int) =
      DayFromYear y + (monthStart ((m : Int) - 1) (leapFlag y) + d - 1) := by
    unfold MakeDay daysBeforeMonth
    simp only [hdiv, hmod, add_zero]
    omega
  generalize hW : monthStart ((m : Int) - 1) (leapFlag (y : Int)) + (d : Int) - 1 = W at *
  have hsucc := DayFromYear_succ (y : Int)
  have hlow : -1000000 ≤ DayFromYear (y : Int) := by unfold DayFromYear; omega
  have hup : DayFromYear (y : Int) + W ≤ 100000000 := by
    rcases hr with hlt | ⟨rfl, hmd⟩
    · have h1 : DayFromYear ((y : Int) + 1) ≤ 99999744 := by unfold DayFromYear; omega
      omega
    · have h1 : DayFromYear ((275760 : Nat) : Int) = 99999744 := by decide
      have h2 : leapFlag ((275760 : Nat) : Int) = 1 := by decide
      have h3 : isLeapYear 275760 = true := by decide
      rw [h1]
      rw [h2] at hW
      clear hday hsucc hlow w0 w1 w2 hdiv hmod
      interval_cases m <;> simp [monthStart, daysInMonth, h3] at hd2 hW hmd <;> omega
  have hyr : ¬ (0 ≤ (y : Int) ∧ (y : Int) ≤ 99) := by omega
  have hclip : TimeClip ((DayFromYear (y : Int) + W) * msPerDay) =
      some ((DayFromYear (y : Int) + W) * msPerDay) := by
    apply TimeClip_of_le
    unfold msPerDay
    omega
  have hD : Day ((DayFromYear (y : Int) + W) * msPerDay) = DayFromYear (y : Int) + W := by
    unfold Day msPerDay
    omega
  have hY : YearFromTime ((DayFromYear (y : Int) + W) * msPerDay) = y := by
    unfold YearFromTime
    rw [hD]
    exact yearFromDay_unique (by omega) (by omega)
  have hDW : DayWithinYear ((DayFromYear (y : Int) + W) * msPerDay) = W := by
    unfold DayWithinYear
    rw [hD, hY]
    omega
  have hL : InLeapYear ((DayFromYear (y : Int) + W) * msPerDay) = leapFlag y := by
    unfold InLeapYear
    rw [hY]
  have hM : MonthFromTime ((DayFromYear (y : Int) + W) * msPerDay) = (m : Int) - 1 := by
    unfold MonthFromTime
    rw [hDW, hL]
    exact w2
  refine ⟨(DayFromYear (y : Int) + W) * msPerDay, ?_, hY, hM, ?_, ?_⟩
  · unfold DateUTC
    simp only [if_neg hyr, hday, MakeDate, MakeTime]
    simpa using hclip
  · unfold DateFromTime
    rw [hM, hDW, hL]
    have := monthStart_add_dateOfDay ((m : Int) - 1) W (leapFlag y)
    omega
  · unfold TimeWithinDay msPerDay
    omega

theorem convert_digits_text (p : JSString → Option Int) (a b c : JSString) (x y : Char)
    (na nb nc : Nat) (ha : IsDecimal a na) (hb : IsDecimal b nb) (hc : IsDecimal c nc)
    (hx : isDateSeparator x = true) (hy : isDateSeparator y = true) :
    convertDateStringToDate p (some (a ++ x :: (b ++ y :: c))) =
      if a.length = 4 then DateUTC (some (na : Int)) (some ((nb : Int) - 1)) (some (nc : Int))
      else DateUTC (some (nc : Int)) (some ((nb : Int) - 1)) (some (na : Int)) := by
  obtain ⟨hne, hT, htrim, hsplit⟩ := digits_text_facts a b c x y na nb nc ha hb hc hx hy
  have pa := parseInt10_of_digits a ha.1 ha.2.1
  have pb := parseInt10_of_digits b hb.1 hb.2.1
  have pc := parseInt10_of_digits c hc.1 hc.2.1
  rw [ha.2.2] at pa
  rw [hb.2.2] at pb
  rw [hc.2.2] at pc
  rw [convert_of_ne_nil p _ hne,
    dateFromParts_of_split _ a b c hT htrim hsplit na nb nc pa pb pc,
    jsLength_of_digits a ha.2.1]

/-- C7, amended. For a calendar date with a year of at least 100, written in
decimal digits with any two separators among `/`, `-` and `.`:
the text year-month-day with a first segment of exactly 4 digits yields that date,
and the text day-month-year with a first segment that is not 4 characters long
yields that date when it is not after 13 September 275760. -/
theorem convertDateStringToDate_calendar (p : JSString → Option Int) (y m d : Nat)
    (ys ms ds : JSString) (s1 s2 : Char)
    (hcal : IsCalendarDate y m d) (hy : 100 ≤ y)
    (hys : IsDecimal ys y) (hms : IsDecimal ms m) (hds : IsDecimal ds d)
    (hs1 : isDateSeparator s1 = true) (hs2 : isDateSeparator s2 = true) :
    (ys.length = 4 →
      YieldsCalendarDate
        (convertDateStringToDate p (some (ys ++ s1 :: (ms ++ s2 :: ds)))) y m d) ∧
    (ds.length ≠ 4 → InDateRange y m d →
      YieldsCalendarDate
        (convertDateStringToDate p (some (ds ++ s1 :: (ms ++ s2 :: ys)))) y m d) := by
  constructor
  · intro hlen
    rw [convert_digits_text p ys ms ds s1 s2 y m d hys hms hds hs1 hs2, if_pos hlen]
    have h9 : y ≤ 9999 := by
      have := digitsValue_four ys hys.2.1 hlen
      rw [hys.2.2] at this
      exact this
    exact DateUTC_calendar y m d hcal hy (Or.inl (by omega))
  · intro hlen hr
    rw [convert_digits_text p ds ms ys s1 s2 d m y hds hms hys hs1 hs2, if_neg hlen]
    exact DateUTC_calendar y m d hcal hy hr

/-- C7, witness: `"2024-03-15"` and `"15/03/2024"` both yield 15 March 2024, the
time value 1710460800000. -/
theorem convertDateStringToDate_calendar_witness :
    YieldsCalendarDate
      (convertDateStringToDate (fun _ => none) (some "2024-03-15".toList)) 2024 3 15 ∧
    YieldsCalendarDate
      (convertDateStringToDate (fun _ => none) (some "15/03/2024".toList)) 2024 3 15 ∧
    convertDateStringToDate (fun _ => none) (some "2024-03-15".toList) = some 1710460800000 ∧
    convertDateStringToDate (fun _ => none) (some "15/03/2024".toList) = some 1710460800000 :=
  ⟨(convertDateStringToDate_calendar (fun _ => none) 2024 3 15 "2024".toList "03".toList
      "15".toList '-' '-' (by unfold IsCalendarDate; decide) (by decide)
      (by unfold IsDecimal; decide) (by unfold IsDecimal; decide) (by unfold IsDecimal; decide)
      (by decide) (by decide)).1 (by decide),
    (convertDateStringToDate_calendar (fun _ => none) 2024 3 15 "2024".toList "03".toList
      "15".toList '/' '/' (by unfold IsCalendarDate; decide) (by decide)
      (by unfold IsDecimal; decide) (by unfold IsDecimal; decide) (by unfold IsDecimal; decide)
      (by decide) (by decide)).2 (by decide) (by unfold InDateRange; decide),
    by decide, by decide⟩

/-- C7, counterexample. The year 24 is read as 1924: the texts `"0024-03-15"`
(first segment of exactly 4 digits) and `"15/03/24"` both yield 15 March 1924,
not 15 March of the year 24.  And the text `"01/01/275761"`, a calendar date after
the last day a `Date` can hold, yields an Invalid Date (`NaN`). -/
theorem convertDateStringToDate_calendar_counterexample :
    IsCalendarDate 24 3 15 ∧ IsCalendarDate 275761 1 1 ∧
    convertDateStringToDate (fun _ => none) (some "01/01/275761".toList) = none ∧
    ¬ YieldsCalendarDate
      (convertDateStringToDate (fun _ => none) (some "0024-03-15".toList)) 24 3 15 ∧
    ¬ YieldsCalendarDate
      (convertDateStringToDate (fun _ => none) (some "15/03/24".toList)) 24 3 15 ∧
    convertDateStringToDate (fun _ => none) (some "0024-03-15".toList) =
      DateUTC (some 1924) (some 2) (some 15) := by
  have h1 : convertDateStringToDate (fun _ => none) (some "0024-03-15".toList) =
      some (-1445299200000) := by decide
  have h2 : convertDateStringToDate (fun _ => none) (some "15/03/24".toList) =
      some (-1445299200000) := by decide
  refine ⟨by unfold IsCalendarDate; decide, by unfold IsCalendarDate; decide, by decide,
    ?_, ?_, by decide⟩
  · rintro ⟨t, ht, hy, -⟩
    rw [h1] at ht
    cases ht
    exact absurd hy (by decide)
  · rintro ⟨t, ht, hy, -⟩
    rw [h2] at ht
    cases ht
    exact absurd hy (by decide)

/-! ## The Invalid sentinel and the effective end date -/

theorem dateFromParts_eq_none (str : JSString) (h : ¬ IsThreePartNumeric str) :
    dateFromParts str = none := by
  unfold dateFromParts
  simp only
  split
  · next p0 p1 p2 hsplit =>
    split
    · next year month day hymd =>
      exfalso
      apply h
      refine ⟨p0, p1, p2, hsplit, ?_, ?_, ?_⟩ <;>
        (split_ifs at hymd <;> simp only [Prod.mk.injEq] at hymd <;> simp [hymd])
    · rfl
  · rfl

/-- C8. The function is total, and it returns the Invalid sentinel, the date with
time value 0, for `null`/`undefined`, for the empty string, and for every text
that is not a three-part numeric date and that the engine's parser rejects. -/
theorem convertDateStringToDate_invalid (p : JSString → Option Int) (str : JSString)
    (hparts : ¬ IsThreePartNumeric str) (hparse : p str = none) :
    convertDateStringToDate p none = invalidDate ∧
    convertDateStringToDate p (some []) = invalidDate ∧
    convertDateStringToDate p (some str) = invalidDate := by
  have h0 : newDate (some 0) = invalidDate := by decide
  refine ⟨h0, h0, ?_⟩
  cases str with
  | nil => exact h0
  | cons c cs =>
    show (match dateFromParts (c :: cs) with
      | some d => d
      | none => dateFromParse p (c :: cs)) = invalidDate
    rw [dateFromParts_eq_none _ hparts]
    unfold dateFromParse
    simp only [hparse, Option.none_bind, getTime]
    exact h0

/-- C8, witness: the text `"abc"` with a parser that rejects it. -/
theorem convertDateStringToDate_invalid_witness :
    convertDateStringToDate (fun _ => none) none = invalidDate ∧
    convertDateStringToDate (fun _ => none) (some []) = invalidDate ∧
    convertDateStringToDate (fun _ => none) (some "abc".toList) = invalidDate :=
  convertDateStringToDate_invalid (fun _ => none) "abc".toList
    (by
      rintro ⟨p0, p1, p2, hsplit, -⟩
      have hs : jsSplit isDateSeparator
          (jsTrim ((jsSplit (fun c => c == 'T') "abc".toList).headD [])) = ["abc".toList] := by
        decide
      rw [hs] at hsplit
      simp at hsplit)
    rfl

theorem endDatePresent_of_blank {endDateStr : Option JSString} (h : isBlank endDateStr) :
    endDatePresent endDateStr = false := by
  cases endDateStr with
  | none => rfl
  | some str =>
    unfold endDatePresent
    have ht : jsTrim str = [] := jsTrim_of_blank str h
    simp [ht]

theorem truthy_of_valid {p : JSString → Option Int} {x : Option JSString} {s : Int}
    (h : convertDateStringToDate p x = some s) (hs : s ≠ 0) : truthy x = true := by
  cases ht : truthy x with
  | true => rfl
  | false =>
    rw [convert_of_not_truthy ht] at h
    unfold invalidDate at h
    simp only [Option.some.injEq] at h
    exact absurd h.symm hs

theorem rawEndDate_of_blank (env : Env) (s : Int) (endDateStr : Option JSString)
    (hs : IsMidnight s) (hblank : isBlank endDateStr) :
    rawEndDate env (some s) endDateStr = TimeClip (s + 10 * msPerDay) := by
  have hnd : newDate (some s) = some s := by
    unfold newDate
    simpa using TimeClip_of_le hs.2
  have hmk : MakeDate (MakeDay (YearFromTime s) (MonthFromTime s) (DateFromTime s + 10))
      (TimeWithinDay s) = s + 10 * msPerDay := by
    rw [MakeDay_roundtrip]
    obtain ⟨h1, _⟩ := hs
    unfold MakeDate TimeWithinDay Day
    unfold msPerDay at *
    omega
  unfold rawEndDate
  simp only [endDatePresent_of_blank hblank, Bool.false_eq_true, if_false, getTime, hnd,
    getUTCDate, Option.map_some', numAdd, setUTCDate, hmk]

/-- C9, amended. For a valid start date `s` whose tenth following day is still
within the range of `Date` (not after 13 September 275760), and an end-date text
that is absent, empty or only white space, the effective end date that
`getBannerStatus` uses and returns as `endDate` is `s` plus 10 days. -/
theorem getBannerStatus_implicit_end (env : Env) (startDateStr endDateStr : Option JSString)
    (s : Int)
    (hstart : convertDateStringToDate env.dateParse startDateStr = some s) (hvalid : s ≠ 0)
    (hblank : isBlank endDateStr)
    (hrange : s + 10 * msPerDay ≤ 8640000000000000) :
    (getBannerStatus env startDateStr endDateStr).endDate = some (some (s + 10 * msPerDay)) ∧
    Day (s + 10 * msPerDay) = Day s + 10 := by
  have hs := convertDateStringToDate_midnight hstart
  have hmid : IsMidnight (s + 10 * msPerDay) := by
    obtain ⟨h1, h2⟩ := hs
    unfold IsMidnight
    unfold msPerDay at *
    omega
  constructor
  · rw [getBannerStatus_endDate env _ _ (truthy_of_valid hstart hvalid), hstart,
      rawEndDate_of_blank env s endDateStr hs hblank, TimeClip_of_le hmid.2,
      setUTCHoursZero_midnight hmid]
  · unfold Day msPerDay
    omega

/-- C9, witness: start 2024-03-01 with no end date gives the effective end
2024-03-11; on 2024-04-20 the day count is 40 and the status `none`. -/
theorem getBannerStatus_implicit_end_witness :
    (getBannerStatus (sampleEnv 1713571200000) (some "2024-03-01".toList) none).endDate =
      some (some (1709251200000 + 10 * msPerDay)) ∧
    convertDateStringToDate (fun _ => none) (some "2024-03-11".toList) =
      some (1709251200000 + 10 * msPerDay) ∧
    daysSinceEnd 1713571200000 (1709251200000 + 10 * msPerDay) = 40 ∧
    (getBannerStatus (sampleEnv 1713571200000) (some "2024-03-01".toList) none).status =
      BannerStatus.none :=
  ⟨(getBannerStatus_implicit_end (sampleEnv 1713571200000) (some "2024-03-01".toList) none
      1709251200000 (by decide) (by decide) trivial (by decide)).1,
    by decide, by decide, by decide⟩

/-- C9, counterexample. The start text `"13/09/275760"` parses to the last day a
`Date` can hold, a valid date; with no end date, `setUTCDate(getUTCDate() + 10)`
leaves the range and the effective end is an Invalid Date (`NaN`), not the start
date plus 10 days. -/
theorem getBannerStatus_implicit_end_counterexample :
    convertDateStringToDate (fun _ => none) (some "13/09/275760".toList) =
      some 8640000000000000 ∧
    (getBannerStatus (sampleEnv april10) (some "13/09/275760".toList) none).endDate =
      some none ∧
    (getBannerStatus (sampleEnv april10) (some "13/09/275760".toList) none).endDate ≠
      some (some (8640000000000000 + 10 * msPerDay)) := by
  refine ⟨by decide, by decide, by decide⟩

/-- C10, amended. For a start text that is present and every end-date text that is
present and not blank, the effective end date of `getBannerStatus` is the date
`convertDateStringToDate` returns for the end text, valid or not: for an end text
that does not parse it is the Invalid sentinel, 1 January 1970, and the start date
plus 10 days is used only for an absent or blank end text. -/
theorem getBannerStatus_present_end (env : Env) (startDateStr endDateStr : Option JSString)
    (hstart : truthy startDateStr = true) (hpresent : endDatePresent endDateStr = true) :
    (getBannerStatus env startDateStr endDateStr).endDate =
      some (convertDateStringToDate env.dateParse endDateStr) ∧
    (convertDateStringToDate env.dateParse endDateStr = invalidDate →
      (getBannerStatus env startDateStr endDateStr).endDate = some invalidDate) := by
  have h : (getBannerStatus env startDateStr endDateStr).endDate =
      some (convertDateStringToDate env.dateParse endDateStr) := by
    rw [getBannerStatus_endDate env _ _ hstart]
    unfold rawEndDate
    rw [if_pos hpresent, setUTCHoursZero_convert]
  exact ⟨h, fun hinv => by rw [h, hinv]⟩

/-- C10, witness: start 2024-03-01 with the end text `"abc"`. -/
theorem getBannerStatus_present_end_witness :
    (getBannerStatus (sampleEnv april10) (some "2024-03-01".toList)
      (some "abc".toList)).endDate = some invalidDate :=
  (getBannerStatus_present_end (sampleEnv april10) (some "2024-03-01".toList)
    (some "abc".toList) (by decide) (by decide)).2 (by decide)

/-- C10, counterexample. Start 2024-03-01 with the end text `"abc"`, which is
present and does not parse: the effective end is 1 January 1970, not 11 March 2024. -/
theorem getBannerStatus_present_end_counterexample :
    convertDateStringToDate (fun _ => none) (some "2024-03-01".toList) = some 1709251200000 ∧
    endDatePresent (some "abc".toList) = true ∧
    convertDateStringToDate (fun _ => none) (some "abc".toList) = invalidDate ∧
    (getBannerStatus (sampleEnv april10) (some "2024-03-01".toList)
      (some "abc".toList)).endDate ≠ some (some (1709251200000 + 10 * msPerDay)) := by
  refine ⟨by decide, by decide, by decide, by decide⟩

/-! ## Start dates that do not parse, time-of-day suffixes, midnight, language -/

/-- C11, at the failing input. The start text `"abc"` is present and does not
parse, so its date is the Invalid sentinel; with the end text `"31/12/2024"`, on
10 April 2024, `getBannerStatus` returns `active`, not `none`: only an absent or
empty start text is tested. -/
theorem getBannerStatus_unparseable_start_fails :
    convertDateStringToDate (sampleEnv april10).dateParse (some "abc".toList) = invalidDate ∧
    (getBannerStatus (sampleEnv april10) (some "abc".toList)
      (some "31/12/2024".toList)).status = BannerStatus.active ∧
    (getBannerStatus (sampleEnv april10) none (some "31/12/2024".toList)).status =
      BannerStatus.none ∧
    (getBannerStatus (sampleEnv april10) (some []) (some "31/12/2024".toList)).status =
      BannerStatus.none := by
  refine ⟨by decide, by decide, by decide, by decide⟩

theorem dateFromParts_ne_none {str : JSString} (h : IsThreePartNumeric str) :
    dateFromParts str ≠ none := by
  obtain ⟨p0, p1, p2, hsplit, h0, h1, h2⟩ := h
  obtain ⟨n0, e0⟩ := Option.ne_none_iff_exists'.1 h0
  obtain ⟨n1, e1⟩ := Option.ne_none_iff_exists'.1 h1
  obtain ⟨n2, e2⟩ := Option.ne_none_iff_exists'.1 h2
  unfold dateFromParts
  simp only [hsplit, e0, e1, e2]
  split_ifs <;> simp

theorem dateFromParts_append_T (d t : JSString) (hT : ∀ c ∈ d, (c == 'T') = false) :
    dateFromParts (d ++ 'T' :: t) = dateFromParts d := by
  unfold dateFromParts
  rw [jsSplit_append_sep (fun c => c == 'T') d 'T' t hT (by decide),
    jsSplit_of_no_sep (fun c => c == 'T') d hT]
  rfl

/-- C15. For every three-part numeric date text `d` that contains no `T` and every
suffix `t`, the text `d + "T" + t` converts to the same date as `d`. -/
theorem convertDateStringToDate_ignores_time (p : JSString → Option Int) (d t : JSString)
    (hT : ∀ c ∈ d, (c == 'T') = false) (h3 : IsThreePartNumeric d) :
    convertDateStringToDate p (some (d ++ 'T' :: t)) = convertDateStringToDate p (some d) := by
  have hne : d ≠ [] := by
    rintro rfl
    obtain ⟨p0, p1, p2, hsplit, -⟩ := h3
    have hs : jsSplit isDateSeparator (jsTrim ((jsSplit (fun c => c == 'T') []).headD [])) =
        [[]] := by decide
    rw [hs] at hsplit
    simp at hsplit
  have hd := dateFromParts_ne_none h3
  obtain ⟨v, hv⟩ := Option.ne_none_iff_exists'.1 hd
  rw [convert_of_ne_nil p _ (by simp), convert_of_ne_nil p _ hne, dateFromParts_append_T d t hT,
    hv]

/-- C15, witness: `"2024-03-15T10:00:00+07:00"` converts as `"2024-03-15"` does. -/
theorem convertDateStringToDate_ignores_time_witness :
    convertDateStringToDate (fun _ => none) (some "2024-03-15T10:00:00+07:00".toList) =
      convertDateStringToDate (fun _ => none) (some "2024-03-15".toList) :=
  convertDateStringToDate_ignores_time (fun _ => none) "2024-03-15".toList
    "10:00:00+07:00".toList (by decide)
    ⟨"2024".toList, "03".toList, "15".toList, by decide, by decide, by decide, by decide⟩

theorem setUTCHoursZero_eq_some {d : TimeValue} {s : Int} (h : setUTCHoursZero d = some s) :
    IsMidnight s := by
  unfold setUTCHoursZero at h
  split at h
  · obtain ⟨rfl, hle⟩ := TimeClip_eq_some h
    refine ⟨?_, hle⟩
    unfold MakeDate MakeTime msPerDay
    omega
  · simp at h

/-- C16, amended. Every defined time value that `convertDateStringToDate` returns is
a whole multiple of 86,400,000 ms; the start and the effective end that
`getBannerStatus` compares with `today`, whenever they have a time value, are at
midnight UTC, and then `today - effectiveEnd` is a whole number of days. -/
theorem engine_dates_midnight (env : Env) (startDateStr endDateStr : Option JSString) :
    (∀ (x : Option JSString) (s : Int),
      convertDateStringToDate env.dateParse x = some s → s % msPerDay = 0) ∧
    (∀ s : Int,
      setUTCHoursZero (convertDateStringToDate env.dateParse startDateStr) = some s →
        s % msPerDay = 0) ∧
    (∀ e : Int, (getBannerStatus env startDateStr endDateStr).endDate = some (some e) →
      e % msPerDay = 0 ∧
      ∀ td : Int, todayOf env.now = some td →
        td % msPerDay = 0 ∧ td - e = daysSinceEnd td e * msPerDay) := by
  refine ⟨fun x s h => (convertDateStringToDate_midnight h).1,
    fun s h => (setUTCHoursZero_eq_some h).1, ?_⟩
  intro e he
  have htr : truthy startDateStr = true := by
    cases ht : truthy startDateStr with
    | true => rfl
    | false =>
      rw [getBannerStatus_not_truthy env _ _ ht] at he
      simp at he
  rw [getBannerStatus_endDate env _ _ htr] at he
  have hmid : IsMidnight e := setUTCHoursZero_eq_some (by simpa using he)
  refine ⟨hmid.1, ?_⟩
  intro td htd
  have h2 := (DateUTC_midnight htd).1
  have h1 := hmid.1
  unfold daysSinceEnd
  unfold msPerDay at *
  omega

/-- C16, counterexample. The text `"01/01/999999"` is three-part numeric, so the
result of `Date.UTC` is returned as it is: an Invalid Date, whose time value is
`NaN` and not a defined number. -/
theorem engine_dates_midnight_counterexample :
    IsThreePartNumeric "01/01/999999".toList ∧
    convertDateStringToDate (fun _ => none) (some "01/01/999999".toList) = none ∧
    (getBannerStatus (sampleEnv april10) (some "01/01/2024".toList)
      (some "01/01/999999".toList)).endDate = some none :=
  ⟨⟨"01".toList, "01".toList, "999999".toList, by decide, by decide, by decide, by decide⟩,
    by decide, by decide⟩

theorem rawEndDate_congr (env1 env2 : Env) (hp : env1.dateParse = env2.dateParse)
    (start : TimeValue) (endDateStr : Option JSString) :
    rawEndDate env1 start endDateStr = rawEndDate env2 start endDateStr := by
  unfold rawEndDate
  rw [hp]

/-- C17. Two calls of `getBannerStatus` with the same start text and end text, in
interpreter states that agree on the day `today` (and run on the same engine),
return the same status and the same end date, whatever `translations` and
`currentLanguage` are; the function has no effect on any state. -/
theorem getBannerStatus_language_independent (env1 env2 : Env)
    (startDateStr endDateStr : Option JSString)
    (hparse : env1.dateParse = env2.dateParse)
    (htoday : todayOf env1.now = todayOf env2.now) :
    (getBannerStatus env1 startDateStr endDateStr).status =
      (getBannerStatus env2 startDateStr endDateStr).status ∧
    (getBannerStatus env1 startDateStr endDateStr).endDate =
      (getBannerStatus env2 startDateStr endDateStr).endDate := by
  cases ht : truthy startDateStr with
  | false =>
    rw [getBannerStatus_not_truthy env1 _ _ ht, getBannerStatus_not_truthy env2 _ _ ht]
    exact ⟨rfl, rfl⟩
  | true =>
    rw [getBannerStatus_status env1 _ _ ht, getBannerStatus_status env2 _ _ ht,
      getBannerStatus_endDate env1 _ _ ht, getBannerStatus_endDate env2 _ _ ht,
      hparse, htoday, rawEndDate_congr env1 env2 hparse]
    exact ⟨rfl, rfl⟩

/-- C17, witness: the default language at 08:00 and the language `vietnam` at 20:00
of 10 April 2024 give the same status and end date, and different labels. -/
theorem getBannerStatus_language_independent_witness :
    ((getBannerStatus (sampleEnv april10) (some "2024-03-25".toList)
        (some "2024-04-05".toList)).status =
      (getBannerStatus (sampleEnvVietnam (april10 + 43200000)) (some "2024-03-25".toList)
        (some "2024-04-05".toList)).status ∧
    (getBannerStatus (sampleEnv april10) (some "2024-03-25".toList)
        (some "2024-04-05".toList)).endDate =
      (getBannerStatus (sampleEnvVietnam (april10 + 43200000)) (some "2024-03-25".toList)
        (some "2024-04-05".toList)).endDate) ∧
    (getBannerStatus (sampleEnv april10) (some "2024-03-25".toList)
        (some "2024-04-05".toList)).label = "ENDING" ∧
    (getBannerStatus (sampleEnvVietnam (april10 + 43200000)) (some "2024-03-25".toList)
        (some "2024-04-05".toList)).label = "SẮP KẾT THÚC" :=
  ⟨getBannerStatus_language_independent (sampleEnv april10)
      (sampleEnvVietnam (april10 + 43200000)) (some "2024-03-25".toList)
      (some "2024-04-05".toList) rfl (by decide),
    by decide, by decide⟩

/-! ## The automatic cleanup of the console -/

theorem digitChar_isDecimalDigit (d : Nat) (h : d < 10) :
    isDecimalDigit (digitChar d) = true ∧ (digitChar d).toNat - 48 = d := by
  interval_cases d <;> exact ⟨by decide, by decide⟩

theorem digitsValue_append_singleton (ds : List Char) (c : Char) :
    digitsValue (ds ++ [c]) = 10 * digitsValue ds + (c.toNat - 48) := by
  unfold digitsValue
  rw [List.foldl_append]
  rfl

theorem natToDecimalAux_spec (fuel n : Nat) (acc : List Char) (h : n < fuel) :
    ∃ ds : List Char, natToDecimalAux fuel n acc = ds ++ acc ∧ ds ≠ [] ∧
      (∀ c ∈ ds, isDecimalDigit c = true) ∧ digitsValue ds = n := by
  induction fuel generalizing n acc with
  | zero => omega
  | succ fuel ih =>
    obtain ⟨hd, hv⟩ := digitChar_isDecimalDigit (n % 10) (Nat.mod_lt _ (by decide))
    unfold natToDecimalAux
    split_ifs with h0
    · refine ⟨[digitChar (n % 10)], rfl, by simp, ?_, ?_⟩
      · intro c hc
        rw [List.mem_singleton.1 hc]
        exact hd
      · simp only [digitsValue, List.foldl]
        omega
    · obtain ⟨ds, hds, hne, hall, hval⟩ := ih (n / 10) (digitChar (n % 10) :: acc) (by omega)
      refine ⟨ds ++ [digitChar (n % 10)], ?_, by simp, ?_, ?_⟩
      · rw [hds]
        simp
      · intro c hc
        rcases List.mem_append.1 hc with hc | hc
        · exact hall c hc
        · rw [List.mem_singleton.1 hc]
          exact hd
      · rw [digitsValue_append_singleton, hval]
        omega

theorem natToDecimal_spec (n : Nat) :
    natToDecimal n ≠ [] ∧ (∀ c ∈ natToDecimal n, isDecimalDigit c = true) ∧
      digitsValue (natToDecimal n) = n := by
  obtain ⟨ds, hds, hne, hall, hval⟩ := natToDecimalAux_spec (n + 1) n [] (by omega)
  unfold natToDecimal
  rw [hds, List.append_nil]
  exact ⟨hne, hall, hval⟩

theorem readDigitsAuto_digits (sign : Int) (ds : List Char) (hne : ds ≠ [])
    (hall : ∀ c ∈ ds, isDecimalDigit c = true) :
    readDigitsAuto sign ds = some (sign * (digitsValue ds : Int)) := by
  have htw : ds.takeWhile isDecimalDigit = ds := List.takeWhile_eq_self_iff.2 hall
  unfold readDigitsAuto
  split
  · next h =>
    have := hall 'x' (by simp)
    exact absurd this (by decide)
  · next h =>
    have := hall 'X' (by simp)
    exact absurd this (by decide)
  · rw [htw]
    cases ds with
    | nil => exact absurd rfl hne
    | cons c cs => simp

/-- The map `b => parseInt(b.id)` returns the id of a row whose id is an integer. -/
theorem parseIntAuto_numberToString (n : Int) : parseIntAuto (numberToString n) = some n := by
  obtain ⟨hne, hall, hval⟩ := natToDecimal_spec n.natAbs
  obtain ⟨c, cs, hcs⟩ := List.exists_cons_of_ne_nil hne
  have hc : isDecimalDigit c = true := hall c (by rw [hcs]; simp)
  obtain ⟨hw, _, _, hm, hp, _⟩ := isDecimalDigit_facts hc
  have hsign : readSign (c :: cs) = (1, c :: cs) := by
    unfold readSign
    split
    · next r heq => exact absurd (List.cons.inj heq).1 hm
    · next r heq => exact absurd (List.cons.inj heq).1 hp
    · rfl
  unfold numberToString
  split_ifs with hneg
  · unfold parseIntAuto
    have hd : ('-' :: natToDecimal n.natAbs).dropWhile isJSWhiteSpace =
        '-' :: natToDecimal n.natAbs := by
      simp [List.dropWhile, show isJSWhiteSpace '-' = false by decide]
    have hs : readSign ('-' :: natToDecimal n.natAbs) = (-1, natToDecimal n.natAbs) := rfl
    simp only [hd, hs]
    rw [readDigitsAuto_digits (-1) _ hne hall, hval]
    congr 1
    omega
  · unfold parseIntAuto
    have hd : (natToDecimal n.natAbs).dropWhile isJSWhiteSpace = natToDecimal n.natAbs := by
      rw [hcs]
      simp [List.dropWhile, hw]
    have hs : readSign (natToDecimal n.natAbs) = (1, natToDecimal n.natAbs) := by
      rw [hcs]
      exact hsign
    simp only [hd, hs]
    rw [readDigitsAuto_digits 1 _ hne hall, hval]
    congr 1
    omega

theorem expiredIds_eq (env : AdminEnv) (allBanners : List BannerRow) :
    expiredIds env allBanners = (expiredBanners env allBanners).map (fun b => some b.id) := by
  unfold expiredIds
  exact List.map_congr_left (fun b _ => parseIntAuto_numberToString b.id)

theorem isExpired_news (env : AdminEnv) (b : BannerRow)
    (h : b.nation_key = some "news".toList) : isExpired env b = false := by
  unfold isExpired
  split_ifs <;> rfl

/-! ## The cleanup and the visibility filter compared -/

theorem setUTCHoursZero_DateUTC (a b c : Option Int) :
    setUTCHoursZero (DateUTC a b c) = DateUTC a b c := by
  cases h : DateUTC a b c with
  | none => rfl
  | some s => exact setUTCHoursZero_midnight (DateUTC_midnight h)

theorem jsTrim_digits (a : JSString) (hne : a ≠ []) (hall : ∀ c ∈ a, isDecimalDigit c = true) :
    jsTrim a = a := by
  apply jsTrim_of_ends a hne
  · intro z hz
    exact (isDecimalDigit_facts (hall z (List.mem_of_mem_head? hz))).1
  · intro z hz
    exact (isDecimalDigit_facts (hall z (List.mem_of_mem_getLast? hz))).1

theorem toNumber_digits (other : JSString → Option Int) (a : JSString) (n : Nat)
    (ha : IsDecimal a n) : toNumber other a = some (n : Int) := by
  obtain ⟨hne, hall, hval⟩ := ha
  have hall2 : a.all isDecimalDigit = true := List.all_eq_true.2 hall
  have hemp : a.isEmpty = false := by
    cases a with
    | nil => exact absurd rfl hne
    | cons c cs => rfl
  unfold toNumber
  simp only [jsTrim_digits a hne hall, hemp, Bool.false_eq_true, if_false, hall2, if_true, hval]

theorem parseDateString_digits_local (aenv : AdminEnv) (a b c : JSString) (na nb nc : Nat)
    (ha : IsDecimal a na) (hb : IsDecimal b nb) (hc : IsDecimal c nc) :
    parseDateString aenv (some (a ++ '/' :: (b ++ '/' :: c))) =
      some (newDateLocal aenv (nc : Int) ((nb : Int) - 1) (na : Int)) := by
  obtain ⟨hne, _, htrim, _⟩ :=
    digits_text_facts a b c '/' '/' na nb nc ha hb hc (by decide) (by decide)
  have hsep : ∀ (x : JSString), (∀ z ∈ x, isDecimalDigit z = true) →
      ∀ z ∈ x, (fun c => c == '/') z = false := by
    intro x hx z hz
    have h := (isDecimalDigit_facts (hx z hz)).2.1
    unfold isDateSeparator at h
    simp only [Bool.or_eq_false_iff] at h
    exact h.1.1
  have hsplit : jsSplit (fun c => c == '/') (a ++ '/' :: (b ++ '/' :: c)) = [a, b, c] :=
    jsSplit_three _ a b c '/' '/' (hsep a ha.2.1) (hsep b hb.2.1) (hsep c hc.2.1)
      (by decide) (by decide)
  have hemp : (a ++ '/' :: (b ++ '/' :: c)).isEmpty = false := by
    cases h : a ++ '/' :: (b ++ '/' :: c) with
    | nil => exact absurd h hne
    | cons z zs => rfl
  unfold parseDateString
  simp only [htrim, hemp, Bool.or_self, Bool.false_eq_true, if_false, hsplit,
    toNumber_digits _ a na ha, toNumber_digits _ b nb hb, toNumber_digits _ c nc hc]

/-- The filter callback on an end text of three digit runs separated by `/`: the
record is kept iff the day count from the local midnight of today to the local
date (year `ny`, month `nm`, day `na`) is above 30. -/
theorem isExpired_of_text (env : AdminEnv) (b : BannerRow) (a m y : JSString) (na nm ny : Nat)
    (hkey : b.nation_key ≠ some "news".toList)
    (hend : b.end_date = some (a ++ '/' :: (m ++ '/' :: y)))
    (ha : IsDecimal a na) (hm : IsDecimal m nm) (hy : IsDecimal y ny) :
    isExpired env b =
      numGt (floorDays (numSub (localToday env)
        (newDateLocal env (ny : Int) ((nm : Int) - 1) (na : Int)))) 30 := by
  obtain ⟨hne, _, _, _⟩ :=
    digits_text_facts a m y '/' '/' na nm ny ha hm hy (by decide) (by decide)
  have htr : truthy (some (a ++ '/' :: (m ++ '/' :: y))) = true := by
    cases h : a ++ '/' :: (m ++ '/' :: y) with
    | nil => exact absurd h hne
    | cons z zs => rfl
  unfold isExpired
  simp only [hend, htr, Bool.not_true, Bool.false_eq_true, if_false, hkey,
    parseDateString_digits_local env a m y na nm ny ha hm hy, getTime]

theorem isExpired_iff_days (env : AdminEnv) (b : BannerRow) (a m y : JSString) (na nm ny : Nat)
    (hkey : b.nation_key ≠ some "news".toList)
    (hend : b.end_date = some (a ++ '/' :: (m ++ '/' :: y)))
    (ha : IsDecimal a na) (hm : IsDecimal m nm) (hy : IsDecimal y ny) :
    isExpired env b = true ↔
      ∃ e td : Int, newDateLocal env (ny : Int) ((nm : Int) - 1) (na : Int) = some e ∧
        localToday env = some td ∧ 30 < daysSinceEnd td e := by
  rw [isExpired_of_text env b a m y na nm ny hkey hend ha hm hy]
  cases h1 : localToday env with
  | none => simp [numSub, floorDays, numGt]
  | some td =>
    cases h2 : newDateLocal env (ny : Int) ((nm : Int) - 1) (na : Int) with
    | none => simp [numSub, floorDays, numGt]
    | some e => simp [numSub, floorDays, numGt, daysSinceEnd]

theorem parseDateString_of_parts (env : AdminEnv) (s : JSString)
    (h : (jsSplit (fun c => c == '/') (jsTrim s)).length ≠ 3) :
    parseDateString env (some s) = none := by
  unfold parseDateString
  simp only
  split_ifs
  · rfl
  · split
    · next p0 p1 p2 heq =>
      rw [heq] at h
      exact absurd rfl h
    · rfl

theorem isExpired_of_null (env : AdminEnv) (b : BannerRow)
    (h : parseDateString env b.end_date = none) : isExpired env b = false := by
  unfold isExpired
  split_ifs
  · rfl
  · rfl
  · simp only [h]

theorem expiredIds_append (env : AdminEnv) (pre post : List BannerRow) (b : BannerRow) :
    expiredIds env (pre ++ b :: post) =
      expiredIds env pre ++ (if isExpired env b = true then [some b.id] else []) ++
        expiredIds env post := by
  simp only [expiredIds_eq, expiredBanners, List.filter_append, List.filter_cons, List.map_append]
  split_ifs <;> simp

theorem autoCleanup_call (env : AdminEnv) (allBanners : List BannerRow) (rpcError : Bool)
    (h : expiredIds env allBanners ≠ []) :
    AdminCall.manageBannerDelete env.adminEmail env.adminKey (expiredIds env allBanners) ∈
      autoCleanupBanners env allBanners rpcError := by
  have hall : ¬ allBanners.length = 0 := by
    intro h0
    rw [List.length_eq_zero] at h0
    rw [h0] at h
    exact h rfl
  have hpos : (expiredIds env allBanners).length > 0 := List.length_pos.2 h
  unfold autoCleanupBanners
  simp only [hall, if_false, hpos, if_true, List.mem_cons, true_or]

theorem autoCleanup_call_ids (env : AdminEnv) (allBanners : List BannerRow) (rpcError : Bool)
    (em key : Option String) (ids : List (Option Int))
    (h : AdminCall.manageBannerDelete em key ids ∈ autoCleanupBanners env allBanners rpcError) :
    em = env.adminEmail ∧ key = env.adminKey ∧ ids = expiredIds env allBanners ∧ ids ≠ [] := by
  unfold autoCleanupBanners at h
  by_cases h0 : allBanners.length = 0
  · simp [h0] at h
  · by_cases hpos : (expiredIds env allBanners).length > 0
    · have hne : expiredIds env allBanners ≠ [] := List.length_pos.1 hpos
      simp only [h0, if_false, hpos, if_true, List.mem_cons] at h
      rcases h with h | h
      · injection h with h1 h2 h3
        exact ⟨h1, h2, h3, h3 ▸ hne⟩
      · cases rpcError <;> simp at h
    · simp [h0, hpos] at h

/-- C12. For every record set, every clock and every time zone of the console: no
record that `autoCleanupBanners` keeps has the nation key `"news"`; with distinct
ids, the id of a news record is in no list of ids that `autoCleanupBanners` sends
for deletion; and for a news record whose end text denotes the day 45 days before
`today`, anywhere in a record set: the ids sent are those sent without the record,
whereas with the same record under any other nation key in its place the id of the
record is among the ids of the delete call that `autoCleanupBanners` issues. -/
theorem autoCleanup_spares_news (env : AdminEnv) (allBanners : List BannerRow)
    (rpcError : Bool) :
    (∀ b ∈ expiredBanners env allBanners, b.nation_key ≠ some "news".toList) ∧
    (∀ b ∈ allBanners, b.nation_key = some "news".toList →
      (allBanners.map (fun r => r.id)).Nodup →
        some b.id ∉ expiredIds env allBanners ∧
        ∀ (em key : Option String) (ids : List (Option Int)),
          AdminCall.manageBannerDelete em key ids ∈
            autoCleanupBanners env allBanners rpcError → some b.id ∉ ids) ∧
    (∀ (b : BannerRow) (key : Option JSString) (a m y : JSString) (na nm ny : Nat) (e td : Int)
        (pre post : List BannerRow),
      b.nation_key = some "news".toList → key ≠ some "news".toList →
      b.end_date = some (a ++ '/' :: (m ++ '/' :: y)) →
      IsDecimal a na → IsDecimal m nm → IsDecimal y ny →
      newDateLocal env (ny : Int) ((nm : Int) - 1) (na : Int) = some e →
      localToday env = some td → daysSinceEnd td e = 45 →
        expiredIds env (pre ++ b :: post) = expiredIds env pre ++ expiredIds env post ∧
        expiredIds env (pre ++ { b with nation_key := key } :: post) =
          expiredIds env pre ++ some b.id :: expiredIds env post ∧
        AdminCall.manageBannerDelete env.adminEmail env.adminKey
            (expiredIds env pre ++ some b.id :: expiredIds env post) ∈
          autoCleanupBanners env (pre ++ { b with nation_key := key } :: post) rpcError) := by
  have hspare : ∀ b ∈ allBanners, b.nation_key = some "news".toList →
      (allBanners.map (fun r => r.id)).Nodup → some b.id ∉ expiredIds env allBanners := by
    intro b hb hnews hnodup hmem
    rw [expiredIds_eq] at hmem
    obtain ⟨r, hr, hid⟩ := List.mem_map.1 hmem
    have hrmem : r ∈ allBanners := (List.mem_filter.1 hr).1
    have hrb : r = b :=
      List.inj_on_of_nodup_map hnodup hrmem hb (by simpa using hid)
    rw [hrb] at hr
    have := (List.mem_filter.1 hr).2
    rw [isExpired_news env b hnews] at this
    exact absurd this (by decide)
  refine ⟨?_, ?_, ?_⟩
  · intro b hb hnews
    unfold expiredBanners at hb
    have := (List.mem_filter.1 hb).2
    rw [isExpired_news env b hnews] at this
    exact absurd this (by decide)
  · intro b hb hnews hnodup
    refine ⟨hspare b hb hnews hnodup, ?_⟩
    intro em key ids hcall
    rw [(autoCleanup_call_ids env allBanners rpcError em key ids hcall).2.2.1]
    exact hspare b hb hnews hnodup
  · intro b key a m y na nm ny e td pre post hnews hkey hend ha hm hy he htd hdays
    have htwin : isExpired env { b with nation_key := key } = true :=
      (isExpired_iff_days env { b with nation_key := key } a m y na nm ny hkey hend ha hm hy).2
        ⟨e, td, he, htd, by omega⟩
    have h1 : expiredIds env (pre ++ b :: post) = expiredIds env pre ++ expiredIds env post := by
      rw [expiredIds_append, isExpired_news env b hnews]
      simp
    have h2 : expiredIds env (pre ++ { b with nation_key := key } :: post) =
        expiredIds env pre ++ some b.id :: expiredIds env post := by
      rw [expiredIds_append, htwin]
      simp
    refine ⟨h1, h2, ?_⟩
    rw [← h2]
    apply autoCleanup_call
    rw [h2]
    simp

/-- C12, witness: on 10 April 2024, in a UTC browser, a news record that ended on
25 February 2024, 45 days before, alone in the record set: no id is kept and no call
is made; the same record with the nation key `vietnam`: its id 7 is the id sent. -/
theorem autoCleanup_spares_news_witness :
    daysSinceEnd 1712707200000 1708819200000 = 45 ∧
    expiredIds (sampleAdminEnv april10)
      [sampleRow 7 (some "news".toList) (some "01/02/2024".toList)
        (some "25/02/2024".toList)] = [] ∧
    expiredIds (sampleAdminEnv april10)
      [sampleRow 7 (some "vietnam".toList) (some "01/02/2024".toList)
        (some "25/02/2024".toList)] = [some 7] ∧
    AdminCall.manageBannerDelete none none [some 7] ∈
      autoCleanupBanners (sampleAdminEnv april10)
        [sampleRow 7 (some "vietnam".toList) (some "01/02/2024".toList)
          (some "25/02/2024".toList)] false :=
  ⟨by decide,
    (autoCleanup_spares_news (sampleAdminEnv april10) [] false).2.2
      (sampleRow 7 (some "news".toList) (some "01/02/2024".toList) (some "25/02/2024".toList))
      (some "vietnam".toList) "25".toList "02".toList "2024".toList 25 2 2024
      1708819200000 1712707200000 [] [] rfl (by decide) rfl
      (by unfold IsDecimal; decide) (by unfold IsDecimal; decide) (by unfold IsDecimal; decide)
      (by decide) (by decide) (by decide)⟩

/-- C12, sample: on 10 April 2024 a news record and a Vietnam record both ended on
25 February 2024, 45 days before; only the id of the Vietnam record is sent. -/
theorem autoCleanup_spares_news_sample :
    daysSinceEnd 1712707200000 1708819200000 = 45 ∧
    autoCleanupBanners (sampleAdminEnv april10)
      [sampleRow 7 (some "news".toList) (some "01/02/2024".toList) (some "25/02/2024".toList),
       sampleRow 8 (some "vietnam".toList) (some "01/02/2024".toList)
         (some "25/02/2024".toList)] false =
      [AdminCall.manageBannerDelete none none [some 8], AdminCall.fetchBanners] := by
  refine ⟨by decide, by decide⟩

/-- C13, amended. The candidates of `autoCleanupBanners` come from the end text
only, read as day/month/year between `/`: a record with no end date is never kept,
changing the start date changes nothing; a non-news record whose end text is three
runs of decimal digits separated by `/` is kept iff the local date with the year of
the third run, the month of the second and the day of the first has a time value
`e`, the local midnight of today has a time value `td`, and
`floor((td - e) / 1 day) > 30`; a record whose end text does not split at `/` in
three parts is never kept; and one batch delete is issued with exactly the ids of
the kept records, none at all when no record is kept. -/
theorem autoCleanup_candidates (env : AdminEnv) (allBanners : List BannerRow) (rpcError : Bool) :
    (∀ b : BannerRow, truthy b.end_date = false →
      isExpired env b = false ∧ b ∉ expiredBanners env allBanners) ∧
    (∀ (b : BannerRow) (start : Option JSString),
      isExpired env { b with start_date := start } = isExpired env b) ∧
    (∀ (b : BannerRow) (a m y : JSString) (na nm ny : Nat),
      b.nation_key ≠ some "news".toList →
      b.end_date = some (a ++ '/' :: (m ++ '/' :: y)) →
      IsDecimal a na → IsDecimal m nm → IsDecimal y ny →
      (b ∈ expiredBanners env allBanners ↔
        b ∈ allBanners ∧
          ∃ e td : Int, newDateLocal env (ny : Int) ((nm : Int) - 1) (na : Int) = some e ∧
            localToday env = some td ∧ 30 < daysSinceEnd td e)) ∧
    (∀ (b : BannerRow) (s : JSString), b.end_date = some s →
      (jsSplit (fun c => c == '/') (jsTrim s)).length ≠ 3 →
      isExpired env b = false ∧ b ∉ expiredBanners env allBanners) ∧
    expiredIds env allBanners = (expiredBanners env allBanners).map (fun b => some b.id) ∧
    (expiredBanners env allBanners = [] → autoCleanupBanners env allBanners rpcError = []) ∧
    (expiredBanners env allBanners ≠ [] →
      autoCleanupBanners env allBanners rpcError =
        AdminCall.manageBannerDelete env.adminEmail env.adminKey
            ((expiredBanners env allBanners).map (fun b => some b.id)) ::
          (if rpcError then [] else [AdminCall.fetchBanners])) := by
  refine ⟨?_, ?_, ?_, ?_, expiredIds_eq env allBanners, ?_, ?_⟩
  · intro b hb
    have hf : isExpired env b = false := by
      unfold isExpired
      simp [hb]
    refine ⟨hf, fun hmem => ?_⟩
    have hx := (List.mem_filter.1 hmem).2
    rw [hf] at hx
    exact absurd hx (by decide)
  · intro b start
    rfl
  · intro b a m y na nm ny hkey hend ha hm hy
    unfold expiredBanners
    rw [List.mem_filter, isExpired_iff_days env b a m y na nm ny hkey hend ha hm hy]
  · intro b s hend hparts
    have hf : isExpired env b = false :=
      isExpired_of_null env b (by rw [hend]; exact parseDateString_of_parts env s hparts)
    refine ⟨hf, fun hmem => ?_⟩
    have hx := (List.mem_filter.1 hmem).2
    rw [hf] at hx
    exact absurd hx (by decide)
  · intro hnil
    unfold autoCleanupBanners
    rw [expiredIds_eq, hnil]
    simp
  · intro hne
    have hall : allBanners ≠ [] := by
      rintro rfl
      exact hne rfl
    have hlen : ¬ allBanners.length = 0 := by
      simpa [List.length_eq_zero] using hall
    have hpos : ((expiredBanners env allBanners).map (fun b => some b.id)).length > 0 := by
      rw [List.length_map]
      exact List.length_pos.2 hne
    unfold autoCleanupBanners
    simp only [hlen, if_false, expiredIds_eq, hpos, if_true]
    cases rpcError <;> rfl

/-- C13, witness: on 10 April 2024, in a UTC browser, the India record with the end
text `"25/02/2024"` is kept: its end date is 45 days before today. -/
theorem autoCleanup_candidates_witness :
    sampleRow 2 (some "india".toList) (some "01/02/2024".toList) (some "25/02/2024".toList) ∈
      expiredBanners (sampleAdminEnv april10)
        [sampleRow 1 (some "vietnam".toList) (some "01/01/2020".toList) none,
         sampleRow 2 (some "india".toList) (some "01/02/2024".toList)
           (some "25/02/2024".toList)] :=
  ((autoCleanup_candidates (sampleAdminEnv april10)
      [sampleRow 1 (some "vietnam".toList) (some "01/01/2020".toList) none,
       sampleRow 2 (some "india".toList) (some "01/02/2024".toList) (some "25/02/2024".toList)]
      false).2.2.1
    (sampleRow 2 (some "india".toList) (some "01/02/2024".toList) (some "25/02/2024".toList))
    "25".toList "02".toList "2024".toList 25 2 2024 (by decide) rfl
    (by unfold IsDecimal; decide) (by unfold IsDecimal; decide)
    (by unfold IsDecimal; decide)).2
    ⟨by decide, 1708819200000, 1712707200000, by decide, by decide, by decide⟩

/-- C13, counterexample. On 10 April 2024, in a UTC browser: a non-news record with
the end text `"2024-01-01"`, an end date 100 days before today, is no candidate
(`parseDateString` returns `null` for a text without `/`) and no call is made; a
record with the end text `"2024/12/31"`, an end date 265 days ahead, is a candidate
and its id is sent, the text being read as day 2024 of December 1931. -/
theorem autoCleanup_candidates_counterexample :
    (DateUTC (some 2024) (some 0) (some 1) = some 1704067200000 ∧
      localToday (sampleAdminEnv april10) = some 1712707200000 ∧
      daysSinceEnd 1712707200000 1704067200000 = 100 ∧
      parseDateString (sampleAdminEnv april10) (some "2024-01-01".toList) = none ∧
      autoCleanupBanners (sampleAdminEnv april10)
        [sampleRow 1 (some "vietnam".toList) (some "01/12/2023".toList)
          (some "2024-01-01".toList)] false = []) ∧
    (DateUTC (some 2024) (some 11) (some 31) = some 1735603200000 ∧
      daysSinceEnd 1712707200000 1735603200000 = -265 ∧
      autoCleanupBanners (sampleAdminEnv april10)
        [sampleRow 2 (some "vietnam".toList) (some "01/01/2024".toList)
          (some "2024/12/31".toList)] false =
        [AdminCall.manageBannerDelete none none [some 2], AdminCall.fetchBanners]) := by
  refine ⟨⟨by decide, by decide, by decide, by decide, by decide⟩,
    ⟨by decide, by decide, by decide⟩⟩

/-- C13, sample: on 10 April 2024, of a record without end date, a record that ended
45 days before and a record that ended 30 days before, only the second is sent. -/
theorem autoCleanup_candidates_sample :
    autoCleanupBanners (sampleAdminEnv april10)
      [sampleRow 1 (some "vietnam".toList) (some "01/01/2020".toList) none,
       sampleRow 2 (some "india".toList) (some "01/02/2024".toList) (some "25/02/2024".toList),
       sampleRow 3 (some "india".toList) (some "01/02/2024".toList) (some "11/03/2024".toList)]
      true =
      [AdminCall.manageBannerDelete none none [some 2]] := by
  decide

theorem newDateLocal_eq (aenv : AdminEnv) (y m d : Int) :
    newDateLocal aenv y m d =
      TimeClip (localMidnight y m d - aenv.offsetAtLocal (localMidnight y m d)) := rfl

theorem DateUTC_eq_localMidnight (y m d : Int) :
    DateUTC (some y) (some m) (some d) = TimeClip (localMidnight y m d) := rfl

theorem todayOf_eq_localMidnight (now : Int) :
    todayOf now =
      TimeClip (localMidnight (YearFromTime now) (MonthFromTime now) (DateFromTime now)) := rfl

/-- The calendar fields of a time depend on its day number only. -/
theorem fields_of_same_day {s t : Int} (h : Day s = Day t) :
    YearFromTime s = YearFromTime t ∧ MonthFromTime s = MonthFromTime t ∧
      DateFromTime s = DateFromTime t := by
  simp only [YearFromTime, MonthFromTime, DateFromTime, DayWithinYear, InLeapYear, h, and_self]

theorem monthStart_nonneg (mn l : Int) (hl : 0 ≤ l) : 0 ≤ monthStart mn l := by
  unfold monthStart
  omega

theorem leapFlag_nonneg (y : Int) : 0 ≤ leapFlag y := by
  unfold leapFlag
  split_ifs <;> omega

/-- A date built from fields that are natural numbers is not before the year 99. -/
theorem localMidnight_lower (na nb nc : Nat) :
    -100000000000000 ≤ localMidnight (nc : Int) ((nb : Int) - 1) (na : Int) := by
  unfold localMidnight MakeDate MakeDay MakeTime daysBeforeMonth msPerDay
  simp only
  split_ifs with h
  · have h1 := monthStart_nonneg (((nb : Int) - 1) % 12)
      (leapFlag (1900 + (nc : Int) + ((nb : Int) - 1) / 12)) (leapFlag_nonneg _)
    generalize monthStart (((nb : Int) - 1) % 12)
      (leapFlag (1900 + (nc : Int) + ((nb : Int) - 1) / 12)) = W at h1 ⊢
    unfold DayFromYear
    omega
  · have h1 := monthStart_nonneg (((nb : Int) - 1) % 12)
      (leapFlag ((nc : Int) + ((nb : Int) - 1) / 12)) (leapFlag_nonneg _)
    generalize monthStart (((nb : Int) - 1) % 12)
      (leapFlag ((nc : Int) + ((nb : Int) - 1) / 12)) = W at h1 ⊢
    unfold DayFromYear
    omega

/-- The midnight of the day of a clock reading is not after the reading, except that
a reading in the years 0 to 99 is moved to the years 1900 to 1999. -/
theorem localMidnight_today_le (t : Int) (ht : t + msPerDay ≤ 8640000000000000) :
    localMidnight (YearFromTime t) (MonthFromTime t) (DateFromTime t) + msPerDay ≤
      8640000000000000 := by
  unfold localMidnight
  simp only
  split_ifs with hy
  · obtain ⟨m0, m11⟩ := monthOfDay_range (DayWithinYear t) (InLeapYear t)
    have hspec := yearFromDay_spec (Day t)
    have hsucc := DayFromYear_succ (YearFromTime t)
    have hdiy := DaysInYear_cases (YearFromTime t)
    have hdw : 0 ≤ DayWithinYear t ∧ DayWithinYear t ≤ 365 := by
      unfold DayWithinYear
      unfold YearFromTime at hsucc hdiy ⊢
      omega
    have hl2 : 0 ≤ InLeapYear t := leapFlag_nonneg _
    have hdiv : MonthFromTime t / 12 = 0 := by unfold MonthFromTime; omega
    have hmod : MonthFromTime t % 12 = MonthFromTime t := by unfold MonthFromTime; omega
    have hms : monthStart (MonthFromTime t) (leapFlag (1900 + YearFromTime t)) ≤ 335 := by
      have := leapFlag_cases (1900 + YearFromTime t)
      unfold monthStart
      omega
    have hD : DateFromTime t ≤ 366 := by
      unfold DateFromTime dateOfDay
      omega
    have hDY : DayFromYear (1900 + YearFromTime t) ≤ 11000 := by
      unfold DayFromYear
      omega
    unfold MakeDate MakeDay MakeTime daysBeforeMonth msPerDay
    simp only [hdiv, hmod, add_zero]
    omega
  · have h := MakeDay_roundtrip t 0
    rw [add_zero, add_zero] at h
    unfold MakeDate MakeTime
    rw [h]
    unfold Day msPerDay at *
    omega

/-- Two local midnights moved by the same offset give the same verdict on the day
count as the unmoved ones, the range of `Date` included. -/
theorem shifted_count_agrees (Ft Fe k : Int) (hFe : -100000000000000 ≤ Fe)
    (hFt : Ft + 86400000 ≤ 8640000000000000) (hk1 : -86400000 ≤ k) (hk2 : k ≤ 86400000) :
    numGt (floorDays (numSub (TimeClip (Ft - k)) (TimeClip (Fe - k)))) 30 =
      numGt (floorDays (numSub (TimeClip Ft) (TimeClip Fe))) 30 := by
  unfold TimeClip
  split_ifs <;> simp [numSub, floorDays, numGt, msPerDay] <;> omega

/-- C14, amended. The two day counts agree on end-date texts written
day/month/year in decimal digits with `/` between them and a first segment that is
not 4 characters long, when both sides read the same clock (a time more than a day
before the end of the range of `Date`), the calendar day of the console in local
time is the calendar day in UTC, and the offset `k` of local time, less than a day,
is the same at the local midnight of the end date and at the local midnight of
today, as it is in a zone with a fixed offset: then `autoCleanupBanners` keeps a
non-news record iff the day count of the display engine for its end date is above
30, and every record it keeps that has a start date other than the Invalid sentinel
is hidden by the visibility filter. -/
theorem cleanup_agrees_with_display (aenv : AdminEnv) (env : Env) (row : BannerRow)
    (a b c : JSString) (na nb nc : Nat) (k : Int)
    (hclock : aenv.now = env.now)
    (hnow : env.now + msPerDay ≤ 8640000000000000)
    (hday : Day (aenv.now + aenv.offsetAtUTC aenv.now) = Day aenv.now)
    (hoffEnd : aenv.offsetAtLocal (localMidnight (nc : Int) ((nb : Int) - 1) (na : Int)) = k)
    (hoffToday : aenv.offsetAtLocal (localMidnight (YearFromTime aenv.now)
      (MonthFromTime aenv.now) (DateFromTime aenv.now)) = k)
    (hk : -msPerDay ≤ k ∧ k ≤ msPerDay)
    (hkey : row.nation_key ≠ some "news".toList)
    (hend : row.end_date = some (a ++ '/' :: (b ++ '/' :: c)))
    (ha : IsDecimal a na) (hb : IsDecimal b nb) (hc : IsDecimal c nc)
    (hlen : a.length ≠ 4) :
    isExpired aenv row = numGt (displayDaysSinceEnd env row.end_date) 30 ∧
    (isExpired aenv row = true → startOf env (toImageData row) ≠ invalidDate →
      isVisible env false (toImageData row) = false) := by
  obtain ⟨hne, _, htrim, _⟩ :=
    digits_text_facts a b c '/' '/' na nb nc ha hb hc (by decide) (by decide)
  have hconv : convertDateStringToDate env.dateParse (some (a ++ '/' :: (b ++ '/' :: c))) =
      DateUTC (some (nc : Int)) (some ((nb : Int) - 1)) (some (na : Int)) := by
    rw [convert_digits_text env.dateParse a b c '/' '/' na nb nc ha hb hc (by decide) (by decide),
      if_neg hlen]
  have htr : truthy (some (a ++ '/' :: (b ++ '/' :: c))) = true := by
    cases h : a ++ '/' :: (b ++ '/' :: c) with
    | nil => exact absurd h hne
    | cons z zs => rfl
  have hemp : (a ++ '/' :: (b ++ '/' :: c)).isEmpty = false := by
    cases h : a ++ '/' :: (b ++ '/' :: c) with
    | nil => exact absurd h hne
    | cons z zs => rfl
  have hpres : endDatePresent (some (a ++ '/' :: (b ++ '/' :: c))) = true := by
    unfold endDatePresent
    simp only [htr, htrim, hemp, Bool.not_false, Bool.and_self]
  have htoday : localToday aenv =
      TimeClip (localMidnight (YearFromTime aenv.now) (MonthFromTime aenv.now)
        (DateFromTime aenv.now) - k) := by
    obtain ⟨f1, f2, f3⟩ := fields_of_same_day hday
    unfold localToday
    simp only [f1, f2, f3]
    rw [newDateLocal_eq, hoffToday]
  have hendLocal : newDateLocal aenv (nc : Int) ((nb : Int) - 1) (na : Int) =
      TimeClip (localMidnight (nc : Int) ((nb : Int) - 1) (na : Int) - k) := by
    rw [newDateLocal_eq, hoffEnd]
  have hk1 : -86400000 ≤ k := hk.1
  have hk2 : k ≤ 86400000 := hk.2
  have hexp : isExpired aenv row =
      numGt (floorDays (numSub (todayOf env.now)
        (DateUTC (some (nc : Int)) (some ((nb : Int) - 1)) (some (na : Int))))) 30 := by
    rw [isExpired_of_text aenv row a b c na nb nc hkey hend ha hb hc, htoday, hendLocal,
      shifted_count_agrees _ _ k (localMidnight_lower na nb nc)
        (localMidnight_today_le aenv.now (by rw [hclock]; exact hnow)) hk1 hk2,
      hclock, todayOf_eq_localMidnight, DateUTC_eq_localMidnight]
  have hdisp : displayDaysSinceEnd env row.end_date =
      floorDays (numSub (todayOf env.now)
        (DateUTC (some (nc : Int)) (some ((nb : Int) - 1)) (some (na : Int)))) := by
    unfold displayDaysSinceEnd
    rw [hend, setUTCHoursZero_convert, hconv, newDate_todayOf]
    rfl
  refine ⟨by rw [hexp, hdisp], ?_⟩
  intro hx hstart
  rw [hexp] at hx
  have hstart2 : ¬ (convertDateStringToDate env.dateParse row.start_date = some 0) := hstart
  unfold isVisible
  simp only [Bool.false_eq_true, if_false, toImageData, getTime, hstart2, hend, rawEndDate,
    hpres, if_true, hconv, setUTCHoursZero_DateUTC, newDate_todayOf, hx]

/-- C14, witness: on 10 April 2024 at 08:00 UTC, in a browser at UTC+7 (15:00 of the
same day in local time), a Vietnam record that ended on 25 February 2024 is kept by
the cleanup, has the display day count 45, and is hidden by the filter. -/
theorem cleanup_agrees_with_display_witness :
    Day (april10 + 25200000) = Day april10 ∧
    isExpired (sampleAdminEnvPlus7 april10)
        (sampleRow 8 (some "vietnam".toList) (some "01/02/2024".toList)
          (some "25/02/2024".toList)) =
      numGt (displayDaysSinceEnd (sampleEnv april10) (some "25/02/2024".toList)) 30 ∧
    displayDaysSinceEnd (sampleEnv april10) (some "25/02/2024".toList) = some 45 ∧
    isVisible (sampleEnv april10) false
      (toImageData (sampleRow 8 (some "vietnam".toList) (some "01/02/2024".toList)
        (some "25/02/2024".toList))) = false :=
  ⟨by decide,
    (cleanup_agrees_with_display (sampleAdminEnvPlus7 april10) (sampleEnv april10)
      (sampleRow 8 (some "vietnam".toList) (some "01/02/2024".toList)
        (some "25/02/2024".toList))
      "25".toList "02".toList "2024".toList 25 2 2024 25200000 rfl (by decide) (by decide)
      rfl rfl (by decide)
      (by decide) rfl (by unfold IsDecimal; decide) (by unfold IsDecimal; decide)
      (by unfold IsDecimal; decide) (by decide)).1,
    by decide,
    (cleanup_agrees_with_display (sampleAdminEnvPlus7 april10) (sampleEnv april10)
      (sampleRow 8 (some "vietnam".toList) (some "01/02/2024".toList)
        (some "25/02/2024".toList))
      "25".toList "02".toList "2024".toList 25 2 2024 25200000 rfl (by decide) (by decide)
      rfl rfl (by decide)
      (by decide) rfl (by unfold IsDecimal; decide) (by unfold IsDecimal; decide)
      (by unfold IsDecimal; decide) (by decide)).2 (by decide) (by decide)⟩

/-- C14, counterexample. On 10 April 2024, in a UTC browser: the end text
`"2024-01-01"` has the display day count 100, yet `parseDateString` returns `null`
for it (it is not cut at `/`) and the cleanup does not keep the record; the end text
`"2024/12/31"` is 31 December 2024 for the display engine, which shows the record,
yet `parseDateString` reads it as day 2024 of December 1931 and the cleanup keeps
the record for deletion.  In a browser at UTC+7, at 20:00 UTC, when the local day is
already 11 April, the end text `"11/03/2024"` gives the cleanup 31 days and the
display engine 30.  And in a browser at UTC+1 that went to UTC+2 on 31 March, at
08:00 UTC, the end text `"10/03/2024"` gives the display engine 31 days, which hides
the record, and the cleanup 30 days less an hour, so it does not keep it. -/
theorem cleanup_agrees_with_display_counterexample :
    (displayDaysSinceEnd (sampleEnv april10) (some "2024-01-01".toList) = some 100 ∧
      isExpired (sampleAdminEnv april10)
        (sampleRow 1 (some "vietnam".toList) (some "01/12/2023".toList)
          (some "2024-01-01".toList)) = false) ∧
    (isExpired (sampleAdminEnv april10)
        (sampleRow 2 (some "vietnam".toList) (some "01/01/2024".toList)
          (some "2024/12/31".toList)) = true ∧
      numGt (displayDaysSinceEnd (sampleEnv april10) (some "2024/12/31".toList)) 30 = false ∧
      isVisible (sampleEnv april10) false
        (toImageData (sampleRow 2 (some "vietnam".toList) (some "01/01/2024".toList)
          (some "2024/12/31".toList))) = true) ∧
    (Day (april10 + 43200000 + 25200000) = Day (april10 + 43200000) + 1 ∧
      isExpired (sampleAdminEnvPlus7 (april10 + 43200000))
        (sampleRow 3 (some "vietnam".toList) (some "01/02/2024".toList)
          (some "11/03/2024".toList)) = true ∧
      displayDaysSinceEnd (sampleEnv (april10 + 43200000)) (some "11/03/2024".toList) =
        some 30 ∧
      isVisible (sampleEnv (april10 + 43200000)) false
        (toImageData (sampleRow 3 (some "vietnam".toList) (some "01/02/2024".toList)
          (some "11/03/2024".toList))) = true) ∧
    (Day (april10 + 7200000) = Day april10 ∧
      parseDateString (sampleAdminEnvDST april10) (some "10/03/2024".toList) =
        some (some 1710025200000) ∧
      localToday (sampleAdminEnvDST april10) = some 1712700000000 ∧
      daysSinceEnd 1712700000000 1710025200000 = 30 ∧
      isExpired (sampleAdminEnvDST april10)
        (sampleRow 4 (some "vietnam".toList) (some "01/02/2024".toList)
          (some "10/03/2024".toList)) = false ∧
      displayDaysSinceEnd (sampleEnv april10) (some "10/03/2024".toList) = some 31 ∧
      isVisible (sampleEnv april10) false
        (toImageData (sampleRow 4 (some "vietnam".toList) (some "01/02/2024".toList)
          (some "10/03/2024".toList))) = false) := by
  refine ⟨⟨by decide, by decide⟩, ⟨by decide, by decide, by decide⟩,
    ⟨by decide, by decide, by decide, by decide⟩,
    ⟨by decide, by decide, by decide, by decide, by decide, by decide, by decide⟩⟩

/-! ## The fetch cycle: guard and failure -/

theorem tryBlock_frame (page : Page) (silent : Bool) (currentPath : JSString) (s : FetchState)
    (outcome : Outcome) :
    (tryBlock page silent currentPath s outcome).1.inFlight = s.inFlight := by
  unfold tryBlock
  cases outcome with
  | networkError => rfl
  | httpError => rfl
  | badBody => rfl
  | ok rawData =>
    simp only
    split
    · rfl
    · split <;> split_ifs <;> rfl

theorem settleStep_inFlight (page : Page) (currentPath : JSString) (outcome : Outcome)
    (s : FetchState) (silent : Bool) (rest : List Bool) (h : s.inFlight = silent :: rest) :
    (settleStep page currentPath outcome s).inFlight = rest ∧
    (settleStep page currentPath outcome s).isFetching = false := by
  unfold settleStep
  rw [h]
  refine ⟨?_, rfl⟩
  have hf := tryBlock_frame page silent currentPath { s with inFlight := rest } outcome
  show (if (tryBlock page silent currentPath { s with inFlight := rest } outcome).2 = true then
      catchBlock page silent (tryBlock page silent currentPath { s with inFlight := rest }
        outcome).1
    else (tryBlock page silent currentPath { s with inFlight := rest } outcome).1).inFlight = rest
  split_ifs
  · simpa [catchBlock] using hf
  · simpa using hf

theorem fetchStep_invariant (page : Page) (s : FetchState) (ev : FetchEvent)
    (h : s.inFlight.length = if s.isFetching then 1 else 0) :
    (fetchStep page s ev).inFlight.length = if (fetchStep page s ev).isFetching then 1 else 0 := by
  cases ev with
  | call silent =>
    unfold fetchStep callStep
    cases hf : s.isFetching with
    | true => simpa [hf] using h
    | false =>
      rw [hf] at h
      simp only [Bool.false_eq_true, if_false] at h ⊢
      simp [h]
  | settle currentPath outcome =>
    unfold fetchStep
    cases hfl : s.inFlight with
    | nil =>
      unfold settleStep
      simp only [hfl]
      rw [hfl] at h
      exact h
    | cons silent rest =>
      obtain ⟨h1, h2⟩ := settleStep_inFlight page currentPath outcome s silent rest hfl
      rw [h1, h2]
      rw [hfl] at h
      cases hf : s.isFetching with
      | true =>
        rw [hf] at h
        simp only [List.length_cons, if_true] at h
        have : rest.length = 0 := by omega
        simp [this]
      | false =>
        rw [hf] at h
        simp at h

theorem fetchRun_snoc (page : Page) (events : List FetchEvent) (ev : FetchEvent) :
    fetchRun page (events ++ [ev]) = fetchStep page (fetchRun page events) ev := by
  unfold fetchRun
  rw [List.foldl_append]
  rfl

theorem fetchRun_invariant (page : Page) (events : List FetchEvent) :
    (fetchRun page events).inFlight.length =
      if (fetchRun page events).isFetching then 1 else 0 := by
  induction events using List.reverseRecOn with
  | nil => rfl
  | append_singleton events ev ih =>
    rw [fetchRun_snoc]
    exact fetchStep_invariant page _ ev ih

/-- C18. A call made while `isFetching` is set leaves the state as it is and issues
no request; a call made while it is clear sets it and issues one request; the end
of a fetch cycle leaves `isFetching` clear, whatever the outcome of the request;
and in every state the page can reach, the number of fetch cycles in flight is 1
when `isFetching` is set and 0 otherwise, so never more than one. -/
theorem fetch_guard (page : Page) :
    (∀ (s : FetchState) (silent : Bool), s.isFetching = true → callStep silent s = s) ∧
    (∀ (s : FetchState) (silent : Bool), s.isFetching = false →
      (callStep silent s).isFetching = true ∧
      (callStep silent s).effects = s.effects ++ [Effect.request] ∧
      (callStep silent s).inFlight = s.inFlight ++ [silent]) ∧
    (∀ (s : FetchState) (currentPath : JSString) (outcome : Outcome), s.inFlight ≠ [] →
      (settleStep page currentPath outcome s).isFetching = false) ∧
    (∀ events : List FetchEvent,
      (fetchRun page events).inFlight.length =
        (if (fetchRun page events).isFetching then 1 else 0) ∧
      (fetchRun page events).inFlight.length ≤ 1) := by
  refine ⟨?_, ?_, ?_, ?_⟩
  · intro s silent h
    unfold callStep
    rw [if_pos h]
  · intro s silent h
    unfold callStep
    simp [h]
  · intro s currentPath outcome h
    obtain ⟨silent, rest, hfl⟩ := List.exists_cons_of_ne_nil h
    exact (settleStep_inFlight page currentPath outcome s silent rest hfl).2
  · intro events
    have h := fetchRun_invariant page events
    refine ⟨h, ?_⟩
    rw [h]
    split_ifs <;> omega

/-- C19. When the request of a fetch cycle fails (`fetch` rejects, or the response is
not OK), `nationData` and `lastDataHash` are left as they were; the only effects
are the log of the error and, when the call is not silent and the image grid
exists, the error placeholder: a silent call writes nothing to the grid. -/
theorem fetch_failure_frame (page : Page) (currentPath : JSString) (s : FetchState)
    (silent : Bool) (rest : List Bool) (outcome : Outcome)
    (hfl : s.inFlight = silent :: rest)
    (hfail : outcome = Outcome.networkError ∨ outcome = Outcome.httpError) :
    (settleStep page currentPath outcome s).nationData = s.nationData ∧
    (settleStep page currentPath outcome s).lastDataHash = s.lastDataHash ∧
    (settleStep page currentPath outcome s).effects =
      s.effects ++ [Effect.consoleError] ++
        (if !silent && page.imageGridPresent then [Effect.errorPlaceholder] else []) ∧
    (silent = true →
      (settleStep page currentPath outcome s).effects = s.effects ++ [Effect.consoleError]) ∧
    (silent = false → page.imageGridPresent = true →
      (settleStep page currentPath outcome s).effects =
        s.effects ++ [Effect.consoleError, Effect.errorPlaceholder]) := by
  have key : (settleStep page currentPath outcome s).nationData = s.nationData ∧
      (settleStep page currentPath outcome s).lastDataHash = s.lastDataHash ∧
      (settleStep page currentPath outcome s).effects =
        s.effects ++ [Effect.consoleError] ++
          (if !silent && page.imageGridPresent then [Effect.errorPlaceholder] else []) := by
    unfold settleStep
    rcases hfail with rfl | rfl <;> simp [hfl, tryBlock, catchBlock]
  refine ⟨key.1, key.2.1, key.2.2, ?_, ?_⟩
  · intro hs
    rw [key.2.2, hs]
    simp
  · intro hs hg
    rw [key.2.2, hs, hg]
    simp

/-- C19, witness: after a first successful load, a silent poll whose request fails
changes neither `nationData` nor `lastDataHash` and only logs the error. -/
theorem fetch_failure_frame_witness :
    (settleStep samplePage "/news".toList Outcome.networkError
      (callStep true (fetchCycle samplePage false "/".toList (Outcome.ok sampleRows)
        initialFetchState))).effects =
      (callStep true (fetchCycle samplePage false "/".toList (Outcome.ok sampleRows)
        initialFetchState)).effects ++ [Effect.consoleError] :=
  (fetch_failure_frame samplePage "/news".toList
    (callStep true (fetchCycle samplePage false "/".toList (Outcome.ok sampleRows)
      initialFetchState)) true [] Outcome.networkError (by decide) (Or.inl rfl)).2.2.2.1 rfl

/-! ## Objects as association lists -/

theorem assocGet_isSome {κ : Type} [DecidableEq κ] (l : List (κ × Images)) (k : κ) :
    (assocGet l k).isSome = true ↔ k ∈ l.map (fun e => e.1) := by
  induction l with
  | nil => simp [assocGet]
  | cons e r ih =>
    obtain ⟨k1, v⟩ := e
    unfold assocGet
    by_cases h : k1 = k
    · simp [h]
    · have h2 : ¬ k = k1 := fun e => h e.symm
      simp [h, h2, ih]

theorem assocGet_eq_none {κ : Type} [DecidableEq κ] (l : List (κ × Images)) (k : κ)
    (h : k ∉ l.map (fun e => e.1)) : assocGet l k = none := by
  cases hg : assocGet l k with
  | none => rfl
  | some v =>
    have := (assocGet_isSome l k).1 (by rw [hg]; rfl)
    exact absurd this h

theorem assocGet_map_reset {κ : Type} [DecidableEq κ] (l : List (κ × Images)) (k : κ) :
    assocGet (l.map (fun e => (e.1, ([] : Images)))) k = (assocGet l k).map (fun _ => []) := by
  induction l with
  | nil => rfl
  | cons e r ih =>
    obtain ⟨k1, v⟩ := e
    simp only [List.map_cons, assocGet]
    split_ifs
    · rfl
    · exact ih

theorem assocGet_strPut (l : List (JSString × Images)) (k k' : JSString) (v : Images) :
    assocGet (strPut l k v) k' = if k = k' then some v else assocGet l k' := by
  induction l with
  | nil => simp [strPut, assocGet]
  | cons e r ih =>
    obtain ⟨k1, w⟩ := e
    unfold strPut
    by_cases h1 : k1 = k
    · subst h1
      simp only [if_true, assocGet]
      split_ifs <;> rfl
    · simp only [if_neg h1, assocGet, ih]
      by_cases h2 : k1 = k'
      · subst h2
        have : ¬ k = k1 := fun e => h1 e.symm
        simp [this]
      · simp [h2]

theorem assocGet_idxPut (l : List (Nat × Images)) (n m : Nat) (v : Images) :
    assocGet (idxPut l n v) m = if n = m then some v else assocGet l m := by
  induction l with
  | nil => simp [idxPut, assocGet]
  | cons e r ih =>
    obtain ⟨k1, w⟩ := e
    unfold idxPut
    by_cases h1 : n < k1
    · simp only [if_pos h1]
      rw [assocGet]
    · simp only [if_neg h1]
      by_cases h2 : n = k1
      · subst h2
        simp only [if_true, assocGet]
        split_ifs <;> rfl
      · simp only [if_neg h2, assocGet, ih]
        by_cases h3 : k1 = m
        · subst h3
          simp [h2]
        · simp [h3]

theorem strPut_keys (l : List (JSString × Images)) (k : JSString) (v : Images) :
    (strPut l k v).map (fun e => e.1) =
      if k ∈ l.map (fun e => e.1) then l.map (fun e => e.1) else l.map (fun e => e.1) ++ [k] := by
  induction l with
  | nil => simp [strPut]
  | cons e r ih =>
    obtain ⟨k1, w⟩ := e
    unfold strPut
    by_cases h1 : k1 = k
    · subst h1
      simp
    · have h2 : ¬ k = k1 := fun e => h1 e.symm
      simp only [if_neg h1, List.map_cons, ih, List.mem_cons, h2, false_or]
      split_ifs <;> simp

theorem strPut_strPut (l : List (JSString × Images)) (k : JSString) (v w : Images) :
    strPut (strPut l k v) k w = strPut l k w := by
  induction l with
  | nil => simp [strPut]
  | cons e r ih =>
    obtain ⟨k1, u⟩ := e
    by_cases h1 : k1 = k
    · subst h1
      simp [strPut]
    · simp [strPut, h1, ih]

theorem idxPut_idxPut (l : List (Nat × Images)) (n : Nat) (v w : Images) :
    idxPut (idxPut l n v) n w = idxPut l n w := by
  induction l with
  | nil => simp [idxPut]
  | cons e r ih =>
    obtain ⟨k1, u⟩ := e
    by_cases h1 : n < k1
    · simp [idxPut, h1]
    · by_cases h2 : n = k1
      · subst h2
        simp [idxPut]
      · simp [idxPut, h1, h2, ih]

theorem mem_idxPut {l : List (Nat × Images)} {n : Nat} {v : Images} {e : Nat × Images}
    (h : e ∈ idxPut l n v) : e = (n, v) ∨ e ∈ l := by
  induction l with
  | nil => simpa [idxPut] using h
  | cons e1 r ih =>
    obtain ⟨k1, u⟩ := e1
    unfold idxPut at h
    by_cases h1 : n < k1
    · simp only [if_pos h1, List.mem_cons] at h
      rcases h with h | h | h
      · exact Or.inl h
      · exact Or.inr (by rw [h]; exact List.mem_cons_self _ _)
      · exact Or.inr (List.mem_cons_of_mem _ h)
    · by_cases h2 : n = k1
      · simp only [if_neg h1, if_pos h2, List.mem_cons] at h
        rcases h with h | h
        · exact Or.inl h
        · exact Or.inr (List.mem_cons_of_mem _ h)
      · simp only [if_neg h1, if_neg h2, List.mem_cons] at h
        rcases h with h | h
        · exact Or.inr (by rw [h]; exact List.mem_cons_self _ _)
        · rcases ih h with h | h
          · exact Or.inl h
          · exact Or.inr (List.mem_cons_of_mem _ h)

theorem idxPut_sorted (l : List (Nat × Images)) (n : Nat) (v : Images)
    (h : l.Pairwise (fun a b => a.1 < b.1)) :
    (idxPut l n v).Pairwise (fun a b => a.1 < b.1) := by
  induction l with
  | nil => simp [idxPut]
  | cons e1 r ih =>
    obtain ⟨k1, u⟩ := e1
    obtain ⟨hk, hr⟩ := List.pairwise_cons.1 h
    unfold idxPut
    by_cases h1 : n < k1
    · simp only [if_pos h1]
      refine List.pairwise_cons.2 ⟨?_, h⟩
      intro b hb
      rcases List.mem_cons.1 hb with rfl | hb
      · exact h1
      · exact lt_trans h1 (hk b hb)
    · by_cases h2 : n = k1
      · subst h2
        simp only [if_neg h1, if_true]
        exact List.pairwise_cons.2 ⟨hk, hr⟩
      · simp only [if_neg h1, if_neg h2]
        refine List.pairwise_cons.2 ⟨?_, ih hr⟩
        intro b hb
        rcases mem_idxPut hb with rfl | hb
        · show k1 < n
          omega
        · exact hk b hb

theorem idx_ext (l1 l2 : List (Nat × Images))
    (h1 : l1.Pairwise (fun a b => a.1 < b.1)) (h2 : l2.Pairwise (fun a b => a.1 < b.1))
    (h : ∀ m, assocGet l1 m = assocGet l2 m) : l1 = l2 := by
  induction l1 generalizing l2 with
  | nil =>
    cases l2 with
    | nil => rfl
    | cons e r =>
      have := h e.1
      simp [assocGet] at this
  | cons e1 r1 ih =>
    obtain ⟨a, v⟩ := e1
    cases l2 with
    | nil =>
      have := h a
      simp [assocGet] at this
    | cons e2 r2 =>
      obtain ⟨b, w⟩ := e2
      obtain ⟨hk1, hr1⟩ := List.pairwise_cons.1 h1
      obtain ⟨hk2, hr2⟩ := List.pairwise_cons.1 h2
      have n1 : ∀ m, m ≤ a → m ∉ r1.map (fun e => e.1) := by
        intro m hm hmem
        obtain ⟨e, he, rfl⟩ := List.mem_map.1 hmem
        have := hk1 e he
        simp only at this
        omega
      have n2 : ∀ m, m ≤ b → m ∉ r2.map (fun e => e.1) := by
        intro m hm hmem
        obtain ⟨e, he, rfl⟩ := List.mem_map.1 hmem
        have := hk2 e he
        simp only at this
        omega
      have hab : a = b := by
        rcases lt_trichotomy a b with hlt | heq | hgt
        · have := h a
          rw [assocGet, if_pos rfl, assocGet, if_neg (by omega),
            assocGet_eq_none r2 a (n2 a (by omega))] at this
          simp at this
        · exact heq
        · have := h b
          rw [assocGet, if_neg (by omega), assocGet_eq_none r1 b (n1 b (by omega)),
            assocGet, if_pos rfl] at this
          simp at this
      subst hab
      have hvw : v = w := by
        have := h a
        simpa [assocGet] using this
      subst hvw
      have htail : ∀ m, assocGet r1 m = assocGet r2 m := by
        intro m
        by_cases hm : a = m
        · subst hm
          rw [assocGet_eq_none r1 a (n1 a (le_refl _)), assocGet_eq_none r2 a (n2 a (le_refl _))]
        · have := h m
          simpa [assocGet, hm] using this
      rw [ih r2 hr1 hr2 htail]

theorem str_ext (l1 l2 : List (JSString × Images))
    (hk : l1.map (fun e => e.1) = l2.map (fun e => e.1))
    (hn : (l1.map (fun e => e.1)).Nodup)
    (h : ∀ k, assocGet l1 k = assocGet l2 k) : l1 = l2 := by
  induction l1 generalizing l2 with
  | nil =>
    cases l2 with
    | nil => rfl
    | cons e r => simp at hk
  | cons e1 r1 ih =>
    obtain ⟨a, v⟩ := e1
    cases l2 with
    | nil => simp at hk
    | cons e2 r2 =>
      obtain ⟨b, w⟩ := e2
      simp only [List.map_cons, List.cons.injEq] at hk
      obtain ⟨hab, hkr⟩ := hk
      subst hab
      obtain ⟨hna, hnr⟩ := List.nodup_cons.1 hn
      have hvw : v = w := by
        have := h a
        simpa [assocGet] using this
      subst hvw
      have htail : ∀ k, assocGet r1 k = assocGet r2 k := by
        intro k
        by_cases hm : a = k
        · subst hm
          rw [assocGet_eq_none r1 a hna, assocGet_eq_none r2 a (by rw [← hkr]; exact hna)]
        · have := h k
          simpa [assocGet, hm] using this
      rw [ih r2 hkr hnr htail]

theorem addKeys_prefix {κ : Type} [DecidableEq κ] (l ks : List κ) :
    ∃ X, addKeys l ks = l ++ X := by
  induction ks generalizing l with
  | nil => exact ⟨[], by simp [addKeys]⟩
  | cons k ks ih =>
    unfold addKeys
    simp only [List.foldl_cons]
    split_ifs with hk
    · exact ih l
    · obtain ⟨X, hX⟩ := ih (l ++ [k])
      refine ⟨k :: X, ?_⟩
      unfold addKeys at hX
      rw [hX]
      simp

theorem addKeys_cons {κ : Type} [DecidableEq κ] (l : List κ) (k : κ) (ks : List κ) :
    addKeys l (k :: ks) = addKeys (if k ∈ l then l else l ++ [k]) ks := rfl

theorem addKeys_of_subset {κ : Type} [DecidableEq κ] (l ks : List κ) (h : ∀ k ∈ ks, k ∈ l) :
    addKeys l ks = l := by
  induction ks with
  | nil => rfl
  | cons k ks ih =>
    unfold addKeys
    simp only [List.foldl_cons, if_pos (h k (List.mem_cons_self _ _))]
    exact ih (fun x hx => h x (List.mem_cons_of_mem _ hx))

theorem mem_addKeys {κ : Type} [DecidableEq κ] (l ks : List κ) (k : κ) :
    k ∈ addKeys l ks ↔ k ∈ l ∨ k ∈ ks := by
  induction ks generalizing l with
  | nil => simp [addKeys]
  | cons x ks ih =>
    have step : addKeys l (x :: ks) = addKeys (if x ∈ l then l else l ++ [x]) ks := rfl
    rw [step, ih]
    split_ifs with hx
    · constructor
      · rintro (h | h)
        · exact Or.inl h
        · exact Or.inr (List.mem_cons_of_mem _ h)
      · rintro (h | h)
        · exact Or.inl h
        · rcases List.mem_cons.1 h with rfl | h
          · exact Or.inl hx
          · exact Or.inr h
    · simp only [List.mem_append, List.mem_singleton, List.mem_cons]
      tauto

theorem addKeys_of_nodup {κ : Type} [DecidableEq κ] (l X : List κ) (h : (l ++ X).Nodup) :
    addKeys l X = l ++ X := by
  induction X generalizing l with
  | nil => simp [addKeys]
  | cons x X ih =>
    have hx : x ∉ l := by
      intro hx
      have := List.nodup_append.1 h
      exact this.2.2 hx (List.mem_cons_self _ _)
    have step : addKeys l (x :: X) = addKeys (if x ∈ l then l else l ++ [x]) X := rfl
    rw [step, if_neg hx, ih (l ++ [x]) (by simpa using h)]
    simp

theorem addKeys_append {κ : Type} [DecidableEq κ] (l ks1 ks2 : List κ) :
    addKeys l (ks1 ++ ks2) = addKeys (addKeys l ks1) ks2 := by
  unfold addKeys
  rw [List.foldl_append]

/-! ## The object `nationData` -/

theorem getC_putC (o : NationData) (c c' : Nat ⊕ JSString) (v : Images) :
    (o.putC c v).getC c' = if c = c' then some v else o.getC c' := by
  cases c <;> cases c' <;>
    simp [NationData.putC, NationData.getC, assocGet_idxPut, assocGet_strPut]

theorem putC_putC (o : NationData) (c : Nat ⊕ JSString) (v w : Images) :
    (o.putC c v).putC c w = o.putC c w := by
  cases c <;> simp [NationData.putC, idxPut_idxPut, strPut_strPut]

theorem strPut_nodup (l : List (JSString × Images)) (k : JSString) (v : Images)
    (h : (l.map (fun e => e.1)).Nodup) : ((strPut l k v).map (fun e => e.1)).Nodup := by
  rw [strPut_keys]
  split_ifs with hk
  · exact h
  · refine List.nodup_append.2 ⟨h, List.nodup_singleton k, ?_⟩
    intro a ha hb
    rw [List.mem_singleton] at hb
    subst hb
    exact hk ha

theorem putC_canon (o : NationData) (c : Nat ⊕ JSString) (v : Images) (h : o.Canon) :
    (o.putC c v).Canon := by
  cases c with
  | inl n => exact ⟨idxPut_sorted _ _ _ h.1, h.2⟩
  | inr k => exact ⟨h.1, strPut_nodup _ _ _ h.2⟩

theorem nationData_ext (a b : NationData) (ha : a.Canon) (hb : b.Canon)
    (hk : a.str.map (fun e => e.1) = b.str.map (fun e => e.1))
    (h : ∀ c, a.getC c = b.getC c) : a = b := by
  have h1 : a.idx = b.idx := idx_ext _ _ ha.1 hb.1 (fun m => h (Sum.inl m))
  have h2 : a.str = b.str := str_ext _ _ hk ha.2 (fun k => h (Sum.inr k))
  cases a
  cases b
  simp only at h1 h2
  rw [h1, h2]

theorem pushRecord_eq (n : NationData) (item : BannerRow)
    (h : propertyKey item.nation_key ∉ objectPrototypeKeys) :
    pushRecord n item =
      some (n.updC (classifyKey (propertyKey item.nation_key)) (toImageData item)) := by
  unfold pushRecord
  simp only [if_neg h, NationData.get, NationData.put, NationData.updC]
  cases hg : n.getC (classifyKey (propertyKey item.nation_key)) with
  | none => simp [getC_putC, putC_putC]
  | some v => simp [hg]

theorem pushRecords_eq (n : NationData) (rawData : List BannerRow)
    (h : WellFormedRecords rawData) : pushRecords n rawData = some (pushAll n rawData) := by
  induction rawData generalizing n with
  | nil => rfl
  | cons r rest ih =>
    have hr : propertyKey r.nation_key ∉ objectPrototypeKeys := h r (List.mem_cons_self _ _)
    have hrest : WellFormedRecords rest := fun x hx => h x (List.mem_cons_of_mem _ hx)
    unfold pushRecords
    rw [pushRecord_eq n r hr]
    exact ih _ hrest

theorem imagesFor_cons (c : Nat ⊕ JSString) (r : BannerRow) (rest : List BannerRow) :
    imagesFor c (r :: rest) =
      if classifyKey (propertyKey r.nation_key) = c then toImageData r :: imagesFor c rest
      else imagesFor c rest := by
  unfold imagesFor
  by_cases h : classifyKey (propertyKey r.nation_key) = c
  · simp [List.filter_cons, h]
  · simp [List.filter_cons, h]

theorem pushAll_cons (n : NationData) (r : BannerRow) (rest : List BannerRow) :
    pushAll n (r :: rest) =
      pushAll (n.updC (classifyKey (propertyKey r.nation_key)) (toImageData r)) rest := rfl

theorem getC_pushAll_some (n : NationData) (rawData : List BannerRow) (c : Nat ⊕ JSString)
    (v : Images) (h : n.getC c = some v) :
    (pushAll n rawData).getC c = some (v ++ imagesFor c rawData) := by
  induction rawData generalizing n v with
  | nil => simpa [pushAll, imagesFor] using h
  | cons r rest ih =>
    rw [pushAll_cons, imagesFor_cons]
    by_cases hc : classifyKey (propertyKey r.nation_key) = c
    · rw [if_pos hc]
      have h1 : (n.updC (classifyKey (propertyKey r.nation_key)) (toImageData r)).getC c
          = some (v ++ [toImageData r]) := by
        rw [NationData.updC, getC_putC, if_pos hc, hc, h]
        rfl
      rw [ih _ _ h1]
      simp
    · rw [if_neg hc]
      have h1 : (n.updC (classifyKey (propertyKey r.nation_key)) (toImageData r)).getC c
          = some v := by
        rw [NationData.updC, getC_putC, if_neg hc, h]
      exact ih _ _ h1

theorem getC_pushAll_none (n : NationData) (rawData : List BannerRow) (c : Nat ⊕ JSString)
    (h : n.getC c = none) :
    (pushAll n rawData).getC c =
      if imagesFor c rawData = [] then none else some (imagesFor c rawData) := by
  induction rawData generalizing n with
  | nil => simpa [pushAll, imagesFor] using h
  | cons r rest ih =>
    rw [pushAll_cons, imagesFor_cons]
    by_cases hc : classifyKey (propertyKey r.nation_key) = c
    · rw [if_pos hc]
      have h1 : (n.updC (classifyKey (propertyKey r.nation_key)) (toImageData r)).getC c
          = some ([toImageData r]) := by
        rw [NationData.updC, getC_putC, if_pos hc, hc, h]
        rfl
      rw [getC_pushAll_some _ _ _ _ h1]
      simp
    · rw [if_neg hc]
      have h1 : (n.updC (classifyKey (propertyKey r.nation_key)) (toImageData r)).getC c
          = none := by
        rw [NationData.updC, getC_putC, if_neg hc, h]
      exact ih _ h1

theorem pushAll_canon (n : NationData) (rawData : List BannerRow) (h : n.Canon) :
    (pushAll n rawData).Canon := by
  induction rawData generalizing n with
  | nil => exact h
  | cons r rest ih =>
    rw [pushAll_cons]
    exact ih _ (putC_canon _ _ _ h)

theorem pushAll_strKeys (n : NationData) (rawData : List BannerRow) :
    (pushAll n rawData).str.map (fun e => e.1) =
      addKeys (n.str.map (fun e => e.1)) (recordStrKeys rawData) := by
  induction rawData generalizing n with
  | nil => rfl
  | cons r rest ih =>
    rw [pushAll_cons, ih]
    unfold recordStrKeys
    rw [List.filterMap_cons]
    cases hc : classifyKey (propertyKey r.nation_key) with
    | inl m => rfl
    | inr k =>
      show addKeys ((strPut n.str k _).map (fun e => e.1)) _ =
        addKeys _ (k :: recordStrKeys rest)
      rw [strPut_keys, addKeys_cons]
      split_ifs <;> rfl

theorem resetCopy_canon (o : NationData) (h : o.Canon) : (resetCopy o).Canon := by
  constructor
  · show (o.idx.map (fun e => (e.1, ([] : Images)))).Pairwise (fun a b => a.1 < b.1)
    rw [List.pairwise_map]
    exact h.1
  · show ((o.str.map (fun e => (e.1, ([] : Images)))).map (fun e => e.1)).Nodup
    rw [List.map_map]
    exact h.2

theorem resetCopy_strKeys (o : NationData) :
    (resetCopy o).str.map (fun e => e.1) = o.str.map (fun e => e.1) := by
  show (o.str.map (fun e => (e.1, ([] : Images)))).map (fun e => e.1) = _
  rw [List.map_map]
  rfl

theorem getC_resetCopy (o : NationData) (c : Nat ⊕ JSString) :
    (resetCopy o).getC c = (o.getC c).map (fun _ => []) := by
  cases c with
  | inl m => exact assocGet_map_reset o.idx m
  | inr k => exact assocGet_map_reset o.str k

theorem idxFold_isSome (es l : List (Nat × Images)) (m : Nat) :
    (assocGet (es.foldl (fun acc e => idxPut acc e.1 e.2) l) m).isSome =
      ((assocGet es m).isSome || (assocGet l m).isSome) := by
  induction es generalizing l with
  | nil => simp [assocGet]
  | cons e es ih =>
    obtain ⟨a, v⟩ := e
    rw [List.foldl_cons, ih, assocGet_idxPut]
    by_cases h : a = m
    · simp [assocGet, h]
    · simp [assocGet, h]

theorem strFold_isSome (es l : List (JSString × Images)) (k : JSString) :
    (assocGet (es.foldl (fun acc e => strPut acc e.1 e.2) l) k).isSome =
      ((assocGet es k).isSome || (assocGet l k).isSome) := by
  induction es generalizing l with
  | nil => simp [assocGet]
  | cons e es ih =>
    obtain ⟨a, v⟩ := e
    rw [List.foldl_cons, ih, assocGet_strPut]
    by_cases h : a = k
    · simp [assocGet, h]
    · simp [assocGet, h]

theorem idxFold_sorted (es l : List (Nat × Images)) (h : l.Pairwise (fun a b => a.1 < b.1)) :
    (es.foldl (fun acc e => idxPut acc e.1 e.2) l).Pairwise (fun a b => a.1 < b.1) := by
  induction es generalizing l with
  | nil => exact h
  | cons e es ih => exact ih _ (idxPut_sorted _ _ _ h)

theorem strFold_keys (es l : List (JSString × Images)) :
    (es.foldl (fun acc e => strPut acc e.1 e.2) l).map (fun e => e.1) =
      addKeys (l.map (fun e => e.1)) (es.map (fun e => e.1)) := by
  induction es generalizing l with
  | nil => rfl
  | cons e es ih =>
    rw [List.foldl_cons, ih, strPut_keys, List.map_cons, addKeys_cons]
    split_ifs <;> rfl

theorem strFold_nodup (es l : List (JSString × Images)) (h : (l.map (fun e => e.1)).Nodup) :
    ((es.foldl (fun acc e => strPut acc e.1 e.2) l).map (fun e => e.1)).Nodup := by
  induction es generalizing l with
  | nil => exact h
  | cons e es ih => exact ih _ (strPut_nodup _ _ _ h)

theorem assignAll_canon (d n : NationData) (h : d.Canon) : (assignAll d n).Canon :=
  ⟨idxFold_sorted _ _ h.1, strFold_nodup _ _ h.2⟩

theorem assignAll_isSome (d n : NationData) (c : Nat ⊕ JSString) :
    ((assignAll d n).getC c).isSome = ((n.getC c).isSome || (d.getC c).isSome) := by
  cases c with
  | inl m => exact idxFold_isSome _ _ m
  | inr k => exact strFold_isSome _ _ k

theorem assignAll_strKeys (d n : NationData) :
    (assignAll d n).str.map (fun e => e.1) =
      addKeys (d.str.map (fun e => e.1)) (n.str.map (fun e => e.1)) :=
  strFold_keys _ _

/-- Building `newNationData` again, after the first one has been assigned into
`nationData`, gives the same object. -/
theorem rebuild_same (d : NationData) (rawData : List BannerRow) (hd : d.Canon) :
    pushAll (resetCopy (assignAll d (pushAll (resetCopy d) rawData))) rawData =
      pushAll (resetCopy d) rawData := by
  have hA : (pushAll (resetCopy d) rawData).Canon := pushAll_canon _ _ (resetCopy_canon _ hd)
  have hD1 : (assignAll d (pushAll (resetCopy d) rawData)).Canon := assignAll_canon _ _ hd
  have hB := pushAll_canon _ rawData (resetCopy_canon _ hD1)
  have hKA : (pushAll (resetCopy d) rawData).str.map (fun e => e.1) =
      addKeys (d.str.map (fun e => e.1)) (recordStrKeys rawData) := by
    rw [pushAll_strKeys, resetCopy_strKeys]
  refine nationData_ext _ _ hB hA ?_ ?_
  · rw [pushAll_strKeys, resetCopy_strKeys, assignAll_strKeys]
    obtain ⟨X, hX⟩ := addKeys_prefix (d.str.map (fun e => e.1)) (recordStrKeys rawData)
    have hnodup : (d.str.map (fun e => e.1) ++ X).Nodup := by
      rw [← hX, ← hKA]
      exact hA.2
    have h1 : addKeys (d.str.map (fun e => e.1))
        ((pushAll (resetCopy d) rawData).str.map (fun e => e.1)) =
        (pushAll (resetCopy d) rawData).str.map (fun e => e.1) := by
      rw [hKA, hX, addKeys_append, addKeys_of_subset _ _ (fun k hk => hk),
        addKeys_of_nodup _ _ hnodup]
    rw [h1]
    apply addKeys_of_subset
    intro k hk
    rw [hKA, mem_addKeys]
    exact Or.inr hk
  · intro c
    cases hdc : d.getC c with
    | some v =>
      have hr : (resetCopy d).getC c = some [] := by rw [getC_resetCopy, hdc]; rfl
      have hs : ((assignAll d (pushAll (resetCopy d) rawData)).getC c).isSome = true := by
        rw [assignAll_isSome, hdc]
        simp
      obtain ⟨w, hw⟩ := Option.isSome_iff_exists.1 hs
      have hr1 : (resetCopy (assignAll d (pushAll (resetCopy d) rawData))).getC c = some [] := by
        rw [getC_resetCopy, hw]
        rfl
      rw [getC_pushAll_some _ _ _ _ hr, getC_pushAll_some _ _ _ _ hr1]
    | none =>
      have hr : (resetCopy d).getC c = none := by rw [getC_resetCopy, hdc]; rfl
      have hA' := getC_pushAll_none _ rawData c hr
      by_cases hi : imagesFor c rawData = []
      · rw [if_pos hi] at hA'
        have hs : (assignAll d (pushAll (resetCopy d) rawData)).getC c = none := by
          have := assignAll_isSome d (pushAll (resetCopy d) rawData) c
          rw [hA', hdc] at this
          cases hg : (assignAll d (pushAll (resetCopy d) rawData)).getC c with
          | none => rfl
          | some w => rw [hg] at this; simp at this
        have hr1 : (resetCopy (assignAll d (pushAll (resetCopy d) rawData))).getC c = none := by
          rw [getC_resetCopy, hs]
          rfl
        rw [getC_pushAll_none _ _ _ hr1, if_pos hi, hA']
      · rw [if_neg hi] at hA'
        have hs : ((assignAll d (pushAll (resetCopy d) rawData)).getC c).isSome = true := by
          rw [assignAll_isSome, hA']
          simp
        obtain ⟨w, hw⟩ := Option.isSome_iff_exists.1 hs
        have hr1 : (resetCopy (assignAll d (pushAll (resetCopy d) rawData))).getC c
            = some [] := by
          rw [getC_resetCopy, hw]
          rfl
        rw [getC_pushAll_some _ _ _ _ hr1, hA']
        rfl

/-! ## Two fetches of the same records -/

theorem pushRecords_none (n : NationData) (rawData : List BannerRow)
    (h : ¬ WellFormedRecords rawData) : pushRecords n rawData = none := by
  induction rawData generalizing n with
  | nil => exact absurd (fun r hr => absurd hr (List.not_mem_nil r)) h
  | cons r rest ih =>
    unfold pushRecords
    by_cases hr : propertyKey r.nation_key ∈ objectPrototypeKeys
    · simp [pushRecord, hr]
    · rw [pushRecord_eq n r hr]
      apply ih
      intro hrest
      apply h
      intro x hx
      rcases List.mem_cons.1 hx with rfl | hx
      · exact hr
      · exact hrest x hx

theorem tryBlock_nationData (page : Page) (silent : Bool) (currentPath : JSString)
    (s : FetchState) (outcome : Outcome) :
    (tryBlock page silent currentPath s outcome).1.nationData = s.nationData ∨
    ∃ n, (tryBlock page silent currentPath s outcome).1.nationData = assignAll s.nationData n := by
  unfold tryBlock
  cases outcome with
  | networkError => exact Or.inl rfl
  | httpError => exact Or.inl rfl
  | badBody => exact Or.inl rfl
  | ok rawData =>
    simp only
    cases buildNewNationData s.nationData rawData with
    | none => exact Or.inl rfl
    | some n =>
      simp only
      rcases page.settings with _ | _ | _ <;> simp only <;> split_ifs <;>
        first
          | exact Or.inl rfl
          | exact Or.inr ⟨n, rfl⟩

theorem settleStep_nationData (page : Page) (currentPath : JSString) (outcome : Outcome)
    (s : FetchState) :
    (settleStep page currentPath outcome s).nationData = s.nationData ∨
    ∃ n, (settleStep page currentPath outcome s).nationData = assignAll s.nationData n := by
  unfold settleStep
  cases h : s.inFlight with
  | nil => exact Or.inl rfl
  | cons silent rest =>
    have ht := tryBlock_nationData page silent currentPath { s with inFlight := rest } outcome
    show (if (tryBlock page silent currentPath { s with inFlight := rest } outcome).2 = true then
        catchBlock page silent (tryBlock page silent currentPath { s with inFlight := rest }
          outcome).1
      else (tryBlock page silent currentPath { s with inFlight := rest } outcome).1).nationData
        = s.nationData ∨ ∃ n,
      (if (tryBlock page silent currentPath { s with inFlight := rest } outcome).2 = true then
        catchBlock page silent (tryBlock page silent currentPath { s with inFlight := rest }
          outcome).1
      else (tryBlock page silent currentPath { s with inFlight := rest } outcome).1).nationData
        = assignAll s.nationData n
    split_ifs
    · simpa [catchBlock] using ht
    · simpa using ht

theorem fetchRun_canon (page : Page) (events : List FetchEvent) :
    (fetchRun page events).nationData.Canon := by
  induction events using List.reverseRecOn with
  | nil =>
    show initialNationData.Canon
    unfold NationData.Canon
    decide
  | append_singleton events ev ih =>
    rw [fetchRun_snoc]
    cases ev with
    | call silent =>
      unfold fetchStep callStep
      split_ifs
      · exact ih
      · exact ih
    | settle currentPath outcome =>
      unfold fetchStep
      rcases settleStep_nationData page currentPath outcome (fetchRun page events) with h | ⟨n, h⟩
      · rw [h]
        exact ih
      · rw [h]
        exact assignAll_canon _ _ ih

theorem fetchCycle_idle (page : Page) (silent : Bool) (currentPath : JSString)
    (outcome : Outcome) (s : FetchState) (hidle : s.isFetching = false) (hfl : s.inFlight = []) :
    (fetchCycle page silent currentPath outcome s).isFetching = false ∧
    (fetchCycle page silent currentPath outcome s).inFlight = [] := by
  have h : (callStep silent s).inFlight = silent :: [] := by
    simp [callStep, hidle, hfl]
  have := settleStep_inFlight page currentPath outcome (callStep silent s) silent [] h
  exact ⟨this.2, this.1⟩

theorem fetchCycle_throws (page : Page) (silent : Bool) (currentPath : JSString)
    (rawData : List BannerRow) (s : FetchState) (hidle : s.isFetching = false)
    (hfl : s.inFlight = []) (h : ¬ WellFormedRecords rawData) :
    (fetchCycle page silent currentPath (Outcome.ok rawData) s).nationData = s.nationData ∧
    (fetchCycle page silent currentPath (Outcome.ok rawData) s).lastDataHash = s.lastDataHash ∧
    (fetchCycle page silent currentPath (Outcome.ok rawData) s).effects =
      s.effects ++ ([Effect.request, Effect.consoleError] ++
        (if !silent && page.imageGridPresent then [Effect.errorPlaceholder] else [])) := by
  have hb : ∀ n, pushRecords n rawData = none := fun n => pushRecords_none n rawData h
  unfold fetchCycle settleStep callStep
  simp [hidle, hfl, tryBlock, buildNewNationData, hb, catchBlock]

theorem fetchCycle_builds (page : Page) (silent : Bool) (currentPath : JSString)
    (rawData : List BannerRow) (s : FetchState) (hidle : s.isFetching = false)
    (hfl : s.inFlight = []) (h : WellFormedRecords rawData) :
    (fetchCycle page silent currentPath (Outcome.ok rawData) s).lastDataHash =
      jsonStringify page (pushAll (resetCopy s.nationData) rawData) ∧
    ((fetchCycle page silent currentPath (Outcome.ok rawData) s).nationData = s.nationData ∨
     (fetchCycle page silent currentPath (Outcome.ok rawData) s).nationData =
      assignAll s.nationData (pushAll (resetCopy s.nationData) rawData)) := by
  have hb : ∀ n, pushRecords n rawData = some (pushAll n rawData) :=
    fun n => pushRecords_eq n rawData h
  unfold fetchCycle settleStep callStep
  simp only [hidle, hfl, tryBlock, buildNewNationData, hb, Bool.false_eq_true, if_false,
    List.nil_append]
  by_cases h1 : s.lastDataHash = []
  · rcases page.settings with _ | _ | _ <;> simp [h1, catchBlock]
  · by_cases h2 : s.lastDataHash = jsonStringify page (pushAll (resetCopy s.nationData) rawData)
    · rcases page.settings with _ | _ | _ <;> simp [h1, h2, catchBlock] <;> simp [← h2, h1]
    · rcases page.settings with _ | _ | _ <;> simp [h1, h2, catchBlock]

theorem fetchCycle_no_change (page : Page) (silent : Bool) (currentPath : JSString)
    (rawData : List BannerRow) (s : FetchState) (hidle : s.isFetching = false)
    (hfl : s.inFlight = []) (h : WellFormedRecords rawData)
    (hh : s.lastDataHash = jsonStringify page (pushAll (resetCopy s.nationData) rawData)) :
    (fetchCycle page silent currentPath (Outcome.ok rawData) s).nationData = s.nationData ∧
    (fetchCycle page silent currentPath (Outcome.ok rawData) s).lastDataHash = s.lastDataHash ∧
    ∃ tail, (fetchCycle page silent currentPath (Outcome.ok rawData) s).effects =
        s.effects ++ tail ∧
      ∀ key isNews, Effect.displayImages key isNews ∉ tail := by
  have hb : ∀ n, pushRecords n rawData = some (pushAll n rawData) :=
    fun n => pushRecords_eq n rawData h
  have h1 : s.lastDataHash ≠ [] := by
    rw [hh]
    exact List.cons_ne_nil _ _
  unfold fetchCycle settleStep callStep
  simp only [hidle, hfl, tryBlock, buildNewNationData, hb, Bool.false_eq_true, if_false,
    List.nil_append]
  rcases hs : page.settings with _ | _ | _
  · refine ⟨by simp [h1, ← hh, catchBlock], by simp [h1, ← hh, catchBlock], ?_⟩
    refine ⟨[Effect.request] ++ (if silent then [] else [Effect.consoleLog]) ++
      [Effect.updateLatestNewsPreview] ++ [Effect.consoleError] ++
      (if !silent && page.imageGridPresent then [Effect.errorPlaceholder] else []), ?_, ?_⟩
    · simp [h1, ← hh, catchBlock]
    · intro key isNews
      cases silent <;> cases page.imageGridPresent <;> simp
  · refine ⟨by simp [h1, ← hh], by simp [h1, ← hh], ?_⟩
    refine ⟨[Effect.request] ++ (if silent then [] else [Effect.consoleLog]) ++
      [Effect.updateLatestNewsPreview], ?_, ?_⟩
    · simp [h1, ← hh]
    · intro key isNews
      cases silent <;> simp
  · refine ⟨by simp [h1, ← hh], by simp [h1, ← hh], ?_⟩
    refine ⟨[Effect.request] ++ (if silent then [] else [Effect.consoleLog]) ++
      [Effect.updateLatestNewsPreview] ++ [Effect.applyHomeBackgrounds], ?_, ?_⟩
    · simp [h1, ← hh]
    · intro key isNews
      cases silent <;> simp

/-- C20. Two consecutive fetch cycles that receive the same records `rawData`, begun
in any state the page can reach with no fetch in flight: when building
`newNationData` does not throw, the fingerprint of the second cycle is the
`lastDataHash` the first one left; in every case the second cycle leaves `nationData`
and `lastDataHash` as the first one left them, and none of its effects is a call of
`displayImages`.  The nation keys of the records are arbitrary. -/
theorem second_fetch_detects_no_change (page : Page) (events : List FetchEvent)
    (silentA silentB : Bool) (pathA pathB : JSString) (rawData : List BannerRow)
    (hidle : (fetchRun page events).isFetching = false) :
    (WellFormedRecords rawData →
      ∃ n, buildNewNationData
          (fetchCycle page silentA pathA (Outcome.ok rawData) (fetchRun page events)).nationData
          rawData = some n ∧
        jsonStringify page n =
          (fetchCycle page silentA pathA (Outcome.ok rawData)
            (fetchRun page events)).lastDataHash) ∧
    (fetchCycle page silentB pathB (Outcome.ok rawData)
      (fetchCycle page silentA pathA (Outcome.ok rawData) (fetchRun page events))).nationData =
      (fetchCycle page silentA pathA (Outcome.ok rawData) (fetchRun page events)).nationData ∧
    (fetchCycle page silentB pathB (Outcome.ok rawData)
      (fetchCycle page silentA pathA (Outcome.ok rawData) (fetchRun page events))).lastDataHash =
      (fetchCycle page silentA pathA (Outcome.ok rawData) (fetchRun page events)).lastDataHash ∧
    ∃ tail,
      (fetchCycle page silentB pathB (Outcome.ok rawData)
        (fetchCycle page silentA pathA (Outcome.ok rawData) (fetchRun page events))).effects =
        (fetchCycle page silentA pathA (Outcome.ok rawData) (fetchRun page events)).effects
          ++ tail ∧
      ∀ key isNews, Effect.displayImages key isNews ∉ tail := by
  have hfl : (fetchRun page events).inFlight = [] := by
    have := fetchRun_invariant page events
    rw [hidle] at this
    exact List.length_eq_zero.1 (by simpa using this)
  have hcanon := fetchRun_canon page events
  obtain ⟨hidle1, hfl1⟩ :=
    fetchCycle_idle page silentA pathA (Outcome.ok rawData) (fetchRun page events) hidle hfl
  by_cases hwf : WellFormedRecords rawData
  · obtain ⟨hhash, hdata⟩ :=
      fetchCycle_builds page silentA pathA rawData (fetchRun page events) hidle hfl hwf
    have hsame : pushAll (resetCopy
        (fetchCycle page silentA pathA (Outcome.ok rawData) (fetchRun page events)).nationData)
        rawData = pushAll (resetCopy (fetchRun page events).nationData) rawData := by
      rcases hdata with h | h
      · rw [h]
      · rw [h]
        exact rebuild_same _ rawData hcanon
    have hh : (fetchCycle page silentA pathA (Outcome.ok rawData)
        (fetchRun page events)).lastDataHash = jsonStringify page (pushAll (resetCopy
          (fetchCycle page silentA pathA (Outcome.ok rawData)
            (fetchRun page events)).nationData) rawData) := by
      rw [hsame]
      exact hhash
    obtain ⟨h1, h2, h3⟩ := fetchCycle_no_change page silentB pathB rawData _ hidle1 hfl1 hwf hh
    refine ⟨fun _ => ⟨_, pushRecords_eq _ rawData hwf, hh.symm⟩, h1, h2, h3⟩
  · obtain ⟨h1, h2, h3⟩ := fetchCycle_throws page silentB pathB rawData _ hidle1 hfl1 hwf
    refine ⟨fun h => absurd h hwf, h1, h2, _, h3, ?_⟩
    intro key isNews
    cases silentB <;> cases page.imageGridPresent <;> simp

/-- C20, witness: after a first load, two polls that receive the same three records,
one of them with the nation key `japan`, on the page of Japan: the first poll takes
the records in, the second one changes neither `nationData` nor `lastDataHash`. -/
theorem second_fetch_detects_no_change_witness :
    (fetchRun samplePage [FetchEvent.call false,
      FetchEvent.settle "/".toList (Outcome.ok [])]).isFetching = false ∧
    (fetchCycle samplePage true "/nation/japan".toList (Outcome.ok sampleRows)
      (fetchCycle samplePage true "/nation/japan".toList (Outcome.ok sampleRows)
        (fetchRun samplePage [FetchEvent.call false,
          FetchEvent.settle "/".toList (Outcome.ok [])]))).nationData =
      (fetchCycle samplePage true "/nation/japan".toList (Outcome.ok sampleRows)
        (fetchRun samplePage [FetchEvent.call false,
          FetchEvent.settle "/".toList (Outcome.ok [])])).nationData :=
  ⟨by decide,
   (second_fetch_detects_no_change samplePage
      [FetchEvent.call false, FetchEvent.settle "/".toList (Outcome.ok [])]
      true true "/nation/japan".toList "/nation/japan".toList sampleRows (by decide)).2.1⟩

/-- C20, on the sample: the first of the two polls does call `displayImages` for
Japan and stores the three records, and the second adds only the request and the
refresh of the news preview, followed by the error of the unbound `settings`. -/
theorem second_fetch_sample :
    (fetchCycle samplePage true "/nation/japan".toList (Outcome.ok sampleRows)
      (fetchRun samplePage [FetchEvent.call false,
        FetchEvent.settle "/".toList (Outcome.ok [])])).effects =
      (fetchRun samplePage [FetchEvent.call false,
        FetchEvent.settle "/".toList (Outcome.ok [])]).effects ++
        [Effect.request, Effect.consoleLog, Effect.displayImages "japan".toList false,
          Effect.updateLatestNewsPreview, Effect.consoleLog, Effect.consoleError] ∧
    (fetchCycle samplePage true "/nation/japan".toList (Outcome.ok sampleRows)
      (fetchRun samplePage [FetchEvent.call false,
        FetchEvent.settle "/".toList (Outcome.ok [])])).nationData.get "japan".toList =
      some [toImageData (sampleRow 2 (some "japan".toList) (some "01/02/2024".toList) none)] ∧
    (fetchCycle samplePage true "/nation/japan".toList (Outcome.ok sampleRows)
      (fetchCycle samplePage true "/nation/japan".toList (Outcome.ok sampleRows)
        (fetchRun samplePage [FetchEvent.call false,
          FetchEvent.settle "/".toList (Outcome.ok [])]))).effects =
      (fetchCycle samplePage true "/nation/japan".toList (Outcome.ok sampleRows)
        (fetchRun samplePage [FetchEvent.call false,
          FetchEvent.settle "/".toList (Outcome.ok [])])).effects ++
        [Effect.request, Effect.updateLatestNewsPreview, Effect.consoleError] := by
  decide

/-! ## The download proxy -/

theorem retryLoop_ok (url urlPath : JSString) (outcomes : Nat → AttemptOutcome)
    (attempts : Nat) (events : List HandlerEvent) (contentType : Option JSString)
    (body : List Nat) (h : attempts < maxAttempts)
    (ho : outcomes attempts = AttemptOutcome.ok contentType body) :
    retryLoop url urlPath outcomes attempts events =
      { response := some (successResponse urlPath (attempts + 1) contentType body),
        events := events ++ [HandlerEvent.fetch url] } := by
  rw [retryLoop]
  simp [h, ho]

theorem retryLoop_fail_last (url urlPath : JSString) (outcomes : Nat → AttemptOutcome)
    (attempts : Nat) (events : List HandlerEvent) (h : attempts + 1 = maxAttempts)
    (ho : (outcomes attempts).isOk = false) :
    retryLoop url urlPath outcomes attempts events =
      { response := some (failureResponse url (attempts + 1) (outcomes attempts).errorMessage),
        events := events ++ [HandlerEvent.fetch url] ++
          [HandlerEvent.consoleError (attempts + 1) (outcomes attempts).errorMessage] } := by
  have h1 : attempts < maxAttempts := by omega
  have h2 : attempts + 1 ≥ maxAttempts := by omega
  rw [retryLoop]
  cases hc : outcomes attempts <;> simp_all [AttemptOutcome.isOk]

theorem retryLoop_fail_retry (url urlPath : JSString) (outcomes : Nat → AttemptOutcome)
    (attempts : Nat) (events : List HandlerEvent) (h : attempts + 1 < maxAttempts)
    (ho : (outcomes attempts).isOk = false) :
    retryLoop url urlPath outcomes attempts events =
      retryLoop url urlPath outcomes (attempts + 1)
        (events ++ [HandlerEvent.fetch url] ++
          [HandlerEvent.consoleError (attempts + 1) (outcomes attempts).errorMessage] ++
          [HandlerEvent.wait (1000 * (attempts + 1))]) := by
  have h1 : attempts < maxAttempts := by omega
  have h2 : ¬ attempts + 1 ≥ maxAttempts := by omega
  conv_lhs => rw [retryLoop]
  cases hc : outcomes attempts <;> simp_all [AttemptOutcome.isOk]

theorem handler_eq_retryLoop (parseURL : JSString → Option JSString) (req : Request)
    (outcomes : Nat → AttemptOutcome) (url urlPath : JSString)
    (hmethod : req.method ≠ "OPTIONS") (hurl : req.url = some url) (hne : url ≠ [])
    (hparse : parseURL url = some urlPath) :
    handler parseURL req outcomes = retryLoop url urlPath outcomes 0 [] := by
  unfold handler
  cases url with
  | nil => exact absurd rfl hne
  | cons c cs => simp [hmethod, hurl, truthy, hparse]

theorem isOk_eq_true {o : AttemptOutcome} (h : o.isOk = true) :
    ∃ contentType body, o = AttemptOutcome.ok contentType body := by
  cases o <;> simp_all [AttemptOutcome.isOk]

theorem retryLoop_zero_cases (url urlPath : JSString) (outcomes : Nat → AttemptOutcome) :
    (∃ k contentType body, k < 3 ∧ outcomes k = AttemptOutcome.ok contentType body ∧
      (∀ j < k, (outcomes j).isOk = false) ∧
      (retryLoop url urlPath outcomes 0 []).response =
        some (successResponse urlPath (k + 1) contentType body) ∧
      (retryLoop url urlPath outcomes 0 []).fetches = k + 1 ∧
      (retryLoop url urlPath outcomes 0 []).waits =
        (List.range k).map (fun j => 1000 * (j + 1))) ∨
    ((∀ k < 3, (outcomes k).isOk = false) ∧
      (retryLoop url urlPath outcomes 0 []).response =
        some (failureResponse url 3 (outcomes 2).errorMessage) ∧
      (retryLoop url urlPath outcomes 0 []).fetches = 3 ∧
      (retryLoop url urlPath outcomes 0 []).waits = [1000, 2000]) := by
  by_cases h0 : (outcomes 0).isOk = true
  · obtain ⟨ct, b, e0⟩ := isOk_eq_true h0
    refine Or.inl ⟨0, ct, b, by omega, e0, fun j hj => absurd hj (Nat.not_lt_zero j), ?_⟩
    rw [retryLoop_ok url urlPath outcomes 0 [] ct b (by decide) e0]
    simp [HandlerRun.fetches, HandlerRun.waits]
  · have h0f : (outcomes 0).isOk = false := by simpa using h0
    rw [retryLoop_fail_retry url urlPath outcomes 0 [] (by decide) h0f]
    by_cases h1 : (outcomes 1).isOk = true
    · obtain ⟨ct, b, e1⟩ := isOk_eq_true h1
      refine Or.inl ⟨1, ct, b, by omega, e1, ?_, ?_⟩
      · intro j hj
        have : j = 0 := by omega
        rw [this]
        exact h0f
      · rw [retryLoop_ok url urlPath outcomes 1 _ ct b (by decide) e1]
        simp [HandlerRun.fetches, HandlerRun.waits, List.range_succ]
    · have h1f : (outcomes 1).isOk = false := by simpa using h1
      rw [retryLoop_fail_retry url urlPath outcomes 1 _ (by decide) h1f]
      by_cases h2 : (outcomes 2).isOk = true
      · obtain ⟨ct, b, e2⟩ := isOk_eq_true h2
        refine Or.inl ⟨2, ct, b, by omega, e2, ?_, ?_⟩
        · intro j hj
          have : j = 0 ∨ j = 1 := by omega
          rcases this with rfl | rfl
          · exact h0f
          · exact h1f
        · rw [retryLoop_ok url urlPath outcomes 2 _ ct b (by decide) e2]
          simp [HandlerRun.fetches, HandlerRun.waits, List.range_succ]
      · have h2f : (outcomes 2).isOk = false := by simpa using h2
        refine Or.inr ⟨?_, ?_⟩
        · intro k hk
          have : k = 0 ∨ k = 1 ∨ k = 2 := by omega
          rcases this with rfl | rfl | rfl
          · exact h0f
          · exact h1f
          · exact h2f
        · rw [retryLoop_fail_last url urlPath outcomes 2 _ (by decide) h2f]
          simp [HandlerRun.fetches, HandlerRun.waits]

/-- C21. For a request that is not `OPTIONS` and carries a well-formed url, and for
every sequence of attempt outcomes: the handler returns, it has responded, and it
has made at most 3 fetch attempts; when attempt `k` is the first that succeeds,
exactly `k + 1` attempts are made and the response is the 200 of that attempt; the
status is 500 exactly when the first 3 attempts all fail, and then the body is
`{error, message, attempts, url}` with `attempts = 3`, the requested `url` and the
message of the third failure. -/
theorem handler_retry_bounded (parseURL : JSString → Option JSString) (req : Request)
    (outcomes : Nat → AttemptOutcome) (url urlPath : JSString)
    (hmethod : req.method ≠ "OPTIONS") (hurl : req.url = some url) (hne : url ≠ [])
    (hparse : parseURL url = some urlPath) :
    (handler parseURL req outcomes).fetches ≤ 3 ∧
    (∃ r, (handler parseURL req outcomes).response = some r) ∧
    (∀ k < 3, (outcomes k).isOk = true → (∀ j < k, (outcomes j).isOk = false) →
      (handler parseURL req outcomes).fetches = k + 1 ∧
      ∃ contentType body, outcomes k = AttemptOutcome.ok contentType body ∧
        (handler parseURL req outcomes).response =
          some (successResponse urlPath (k + 1) contentType body)) ∧
    (((handler parseURL req outcomes).response.map (fun r => r.status) = some 500) ↔
      ∀ k < 3, (outcomes k).isOk = false) ∧
    ((∀ k < 3, (outcomes k).isOk = false) →
      (handler parseURL req outcomes).fetches = 3 ∧
      (handler parseURL req outcomes).response =
        some { status := 500, headers := corsHeaders,
               body := ResponseBody.failureJson
                 "Failed to download image after multiple attempts".toList
                 (outcomes 2).errorMessage 3 url }) := by
  rw [handler_eq_retryLoop parseURL req outcomes url urlPath hmethod hurl hne hparse]
  rcases retryLoop_zero_cases url urlPath outcomes with
    ⟨k0, ct, b, hk0, e0, hprev0, hresp, hfetch, _⟩ | ⟨hall, hresp, hfetch, _⟩
  · have hok0 : (outcomes k0).isOk = true := by rw [e0]; rfl
    refine ⟨by omega, ⟨_, hresp⟩, ?_, ?_, ?_⟩
    · intro k _ hok hprev
      have hkk : k = k0 := by
        rcases lt_trichotomy k k0 with h | h | h
        · have := hprev0 k h
          rw [hok] at this
          exact absurd this (by decide)
        · exact h
        · have := hprev k0 h
          rw [hok0] at this
          exact absurd this (by decide)
      subst hkk
      exact ⟨hfetch, ct, b, e0, hresp⟩
    · rw [hresp]
      constructor
      · intro h
        simp [successResponse] at h
      · intro h
        have := h k0 hk0
        rw [hok0] at this
        exact absurd this (by decide)
    · intro h
      have := h k0 hk0
      rw [hok0] at this
      exact absurd this (by decide)
  · refine ⟨by omega, ⟨_, hresp⟩, ?_, ?_, ?_⟩
    · intro k hk hok
      have := hall k hk
      rw [hok] at this
      exact absurd this (by decide)
    · rw [hresp]
      constructor
      · intro _
        exact hall
      · intro _
        rfl
    · intro _
      exact ⟨hfetch, hresp⟩

/-- C21, witness: three attempts that all get the status 503. -/
theorem handler_retry_bounded_witness :
    (handler sampleParseURL sampleRequest sampleOutcomes503).fetches = 3 ∧
    (handler sampleParseURL sampleRequest sampleOutcomes503).response =
      some { status := 500, headers := corsHeaders,
             body := ResponseBody.failureJson
               "Failed to download image after multiple attempts".toList
               "HTTP 503: Service Unavailable".toList 3
               "https://example.com/banner.png".toList } :=
  (handler_retry_bounded sampleParseURL sampleRequest sampleOutcomes503
    "https://example.com/banner.png".toList "/banner.png".toList
    (by decide) rfl (by decide) rfl).2.2.2.2 (fun _ _ => rfl)

/-- C22, amended. A response that is not OK makes the attempt fail like any other
failure: when it comes on the first or second attempt (the attempts before having
failed), the handler waits 1 s times the attempt number and makes a further fetch
attempt; only when it comes on the third attempt is it reported, with the status
500 and the message `HTTP <status>: <statusText>`. -/
theorem handler_retries_http_failure (parseURL : JSString → Option JSString) (req : Request)
    (outcomes : Nat → AttemptOutcome) (url urlPath : JSString) (k status : Nat)
    (statusText : JSString)
    (hmethod : req.method ≠ "OPTIONS") (hurl : req.url = some url) (hne : url ≠ [])
    (hparse : parseURL url = some urlPath)
    (hk : outcomes k = AttemptOutcome.notOk status statusText)
    (hprev : ∀ j < k, (outcomes j).isOk = false) :
    (k < 2 →
      k + 2 ≤ (handler parseURL req outcomes).fetches ∧
      1000 * (k + 1) ∈ (handler parseURL req outcomes).waits) ∧
    (k = 2 →
      (handler parseURL req outcomes).response =
        some (failureResponse url 3
          ("HTTP ".toList ++ natToDecimal status ++ ": ".toList ++ statusText))) := by
  rw [handler_eq_retryLoop parseURL req outcomes url urlPath hmethod hurl hne hparse]
  have hkf : (outcomes k).isOk = false := by rw [hk]; rfl
  rcases retryLoop_zero_cases url urlPath outcomes with
    ⟨k0, ct, b, hk0, e0, hprev0, hresp, hfetch, hwaits⟩ | ⟨hall, hresp, hfetch, hwaits⟩
  · have hok0 : (outcomes k0).isOk = true := by rw [e0]; rfl
    have hlt : k < k0 := by
      rcases lt_trichotomy k k0 with h | h | h
      · exact h
      · rw [h, hok0] at hkf
        exact absurd hkf (by decide)
      · have := hprev k0 h
        rw [hok0] at this
        exact absurd this (by decide)
    refine ⟨fun _ => ⟨by omega, ?_⟩, fun h2 => by omega⟩
    rw [hwaits]
    exact List.mem_map.2 ⟨k, List.mem_range.2 hlt, rfl⟩
  · refine ⟨fun h2 => ⟨by omega, ?_⟩, fun h2 => ?_⟩
    · rw [hwaits]
      have : k = 0 ∨ k = 1 := by omega
      rcases this with rfl | rfl <;> simp
    · subst h2
      rw [hresp, hk]
      rfl

/-- C22, witness: the status 503 on each of the three attempts. -/
theorem handler_retries_http_failure_witness :
    2 ≤ (handler sampleParseURL sampleRequest sampleOutcomes503).fetches ∧
    1000 ∈ (handler sampleParseURL sampleRequest sampleOutcomes503).waits :=
  (handler_retries_http_failure sampleParseURL sampleRequest sampleOutcomes503
    "https://example.com/banner.png".toList "/banner.png".toList 0 503
    "Service Unavailable".toList (by decide) rfl (by decide) rfl rfl
    (fun j hj => absurd hj (Nat.not_lt_zero j))).1 (by decide)

/-- C22, counterexample. The first attempt receives the status 404; the handler
does not report it: it logs the failure, waits 1 s and fetches again, and as the
second attempt succeeds the caller receives the status 200, with the header
`X-Download-Attempts: 2`. -/
theorem handler_http_failure_counterexample :
    sampleOutcomes404 0 = AttemptOutcome.notOk 404 "Not Found".toList ∧
    handler sampleParseURL sampleRequest sampleOutcomes404 =
      { response := some (successResponse "/banner.png".toList 2 (some "image/png".toList)
          [137, 80, 78, 71]),
        events := [HandlerEvent.fetch "https://example.com/banner.png".toList,
          HandlerEvent.consoleError 1 "HTTP 404: Not Found".toList,
          HandlerEvent.wait 1000,
          HandlerEvent.fetch "https://example.com/banner.png".toList] } ∧
    (successResponse "/banner.png".toList 2 (some "image/png".toList) [137, 80, 78, 71]).status
      = 200 ∧
    ("X-Download-Attempts".toList, "2".toList) ∈
      (successResponse "/banner.png".toList 2 (some "image/png".toList)
        [137, 80, 78, 71]).headers ∧
    (handler sampleParseURL sampleRequest sampleOutcomes404).fetches = 2 := by
  have hrun : handler sampleParseURL sampleRequest sampleOutcomes404 =
      { response := some (successResponse "/banner.png".toList 2 (some "image/png".toList)
          [137, 80, 78, 71]),
        events := [HandlerEvent.fetch "https://example.com/banner.png".toList,
          HandlerEvent.consoleError 1 "HTTP 404: Not Found".toList,
          HandlerEvent.wait 1000,
          HandlerEvent.fetch "https://example.com/banner.png".toList] } := by
    rw [handler_eq_retryLoop sampleParseURL sampleRequest sampleOutcomes404
      "https://example.com/banner.png".toList "/banner.png".toList (by decide) rfl (by decide) rfl,
      retryLoop_fail_retry _ _ sampleOutcomes404 0 [] (by decide) rfl,
      retryLoop_ok _ _ sampleOutcomes404 1 _ (some "image/png".toList) [137, 80, 78, 71]
        (by decide) rfl]
    decide
  refine ⟨rfl, hrun, by decide, by decide, ?_⟩
  rw [hrun]
  decide

/-! ## The filter and the classifier -/

theorem isVisible_eq (env : Env) (r : ImageData) (hinv : startOf env r ≠ invalidDate) :
    isVisible env false r =
      !numGt (floorDays (numSub (getTime (newDate (todayOf env.now)))
        (getTime (setUTCHoursZero (rawEndDate env
          (convertDateStringToDate env.dateParse r.startDate) r.endDate))))) 30 := by
  have hinv2 : ¬ (convertDateStringToDate env.dateParse r.startDate = some 0) := hinv
  unfold isVisible
  simp only [Bool.false_eq_true, if_false, getTime, hinv2]
  split_ifs <;> simp_all

/-- C23, amended. For a record with a valid start date `s`, whatever its end date
and the clock: a record with status `none` is hidden by the filter; a hidden record
has the status `none` or `upcoming`; a record with status `active` or `ending` is
never hidden.  When the effective end date is not earlier than the start date, the
filter hides the record iff its status is `none`, and an `upcoming` record is not
hidden. -/
theorem filter_agrees_with_status (env : Env) (r : ImageData) (s : Int)
    (hstart : startOf env r = some s) (hvalid : s ≠ 0) :
    (statusOf env r = BannerStatus.none → isVisible env false r = false) ∧
    (isVisible env false r = false →
      statusOf env r = BannerStatus.none ∨ statusOf env r = BannerStatus.upcoming) ∧
    (statusOf env r = BannerStatus.active ∨ statusOf env r = BannerStatus.ending →
      isVisible env false r = true) ∧
    ((∀ e : Int, (getBannerStatus env r.startDate r.endDate).endDate = some (some e) → s ≤ e) →
      (isVisible env false r = false ↔ statusOf env r = BannerStatus.none) ∧
      (statusOf env r = BannerStatus.upcoming → isVisible env false r = true)) := by
  have hstart1 : convertDateStringToDate env.dateParse r.startDate = some s := hstart
  have htr : truthy r.startDate = true := truthy_of_valid hstart1 hvalid
  have hinv : startOf env r ≠ invalidDate := by
    rw [hstart]
    unfold invalidDate
    simpa using hvalid
  have hs := convertDateStringToDate_midnight hstart1
  unfold statusOf
  rw [isVisible_eq env r hinv, getBannerStatus_status env _ _ htr,
    getBannerStatus_endDate env _ _ htr, hstart1, setUTCHoursZero_midnight hs]
  generalize setUTCHoursZero (rawEndDate env (some s) r.endDate) = E
  generalize newDate (todayOf env.now) = T
  cases T with
  | none =>
    cases E <;> simp [numLt, getTime, numSub, floorDays, numGe, numGt]
  | some td =>
    cases E with
    | none =>
      simp [numLt, getTime, numSub, floorDays, numGe, numGt]
      split_ifs <;> simp
    | some e =>
      simp only [numLt, getTime, numSub, floorDays, Option.map_some', numGe, numGt,
        decide_eq_true_eq, Option.some.injEq, forall_eq']
      unfold msPerDay
      refine ⟨?_, ?_, ?_, ?_⟩
      · split_ifs <;> simp_all
      · split_ifs <;> simp_all
        omega
      · split_ifs <;> simp_all
        omega
      · intro hse
        refine ⟨?_, ?_⟩
        · split_ifs <;> simp_all <;> omega
        · split_ifs <;> simp_all
          omega

/-- C23, witness: the banner from 25 March to 5 April 2024 on 10 April 2024 is
`ending` and is shown. -/
theorem filter_agrees_with_status_witness :
    isVisible (sampleEnv april10) false bannerEnded = true :=
  (filter_agrees_with_status (sampleEnv april10) bannerEnded 1711324800000
    (by decide) (by decide)).2.2.1 (Or.inr (by decide))

/-- C23, counterexample. On 10 April 2024 the banner with the start text 1 June
2024 and the end text 1 January 2024 has a valid start date and the status
`upcoming`, and the filter hides it: its day count is 100. -/
theorem filter_agrees_with_status_counterexample :
    startOf (sampleEnv april10) bannerBackwards = some 1717200000000 ∧
    statusOf (sampleEnv april10) bannerBackwards = BannerStatus.upcoming ∧
    isVisible (sampleEnv april10) false bannerBackwards = false ∧
    displayDaysSinceEnd (sampleEnv april10) bannerBackwards.endDate = some 100 := by
  decide

/-! ## The comparator is a strict weak order -/

theorem compareImages_classRank_lt_strict (env : Env) (a b : ImageData)
    (h : classRank env a < classRank env b) : sortCompare (compareImages env) a b < 0 := by
  rw [sortCompare_compareImages]
  unfold classRank at h
  unfold compareStarts
  rcases endingRank_le_one env a with ha | ha <;> rcases endingRank_le_one env b with hb | hb <;>
    by_cases hx : startOf env a = invalidDate <;> by_cases hy : startOf env b = invalidDate <;>
    simp [ha, hb, hx, hy, invalidDate] at h ⊢
  all_goals simp_all [invalidDate]

theorem sortCompare_sortKey (env : Env) (a b : ImageData)
    (ha : startOf env a ≠ none) (hb : startOf env b ≠ none) :
    (sortCompare (compareImages env) a b < 0 ↔ sortKey env a < sortKey env b) ∧
    (sortCompare (compareImages env) a b = 0 ↔ sortKey env a = sortKey env b) ∧
    (0 < sortCompare (compareImages env) a b ↔ sortKey env b < sortKey env a) := by
  have key : (sortKey env a < sortKey env b → sortCompare (compareImages env) a b < 0) ∧
      (sortKey env a = sortKey env b → sortCompare (compareImages env) a b = 0) ∧
      (sortKey env b < sortKey env a → 0 < sortCompare (compareImages env) a b) := by
    have ba := startOf_bound env a
    have bb := startOf_bound env b
    have ca := classRank_le_three env a
    have cb := classRank_le_three env b
    obtain ⟨sa, hsa⟩ := Option.ne_none_iff_exists'.1 ha
    obtain ⟨sb, hsb⟩ := Option.ne_none_iff_exists'.1 hb
    refine ⟨?_, ?_, compareImages_sortKey_gt env a b ha hb⟩
    · intro h
      rcases lt_trichotomy (classRank env a) (classRank env b) with hlt | heq | hgt
      · exact compareImages_classRank_lt_strict env a b hlt
      · rw [compareImages_same_class env a b sa sb hsa hsb heq]
        unfold sortKey at h
        rw [hsa, hsb, heq] at h
        simp only [Option.getD_some] at h
        omega
      · unfold sortKey at h
        omega
    · intro h
      have heq : classRank env a = classRank env b := by
        unfold sortKey at h
        omega
      rw [compareImages_same_class env a b sa sb hsa hsb heq]
      unfold sortKey at h
      rw [hsa, hsb, heq] at h
      simp only [Option.getD_some] at h
      omega
  obtain ⟨k1, k2, k3⟩ := key
  refine ⟨⟨fun h => ?_, k1⟩, ⟨fun h => ?_, k2⟩, ⟨fun h => ?_, k3⟩⟩
  · rcases lt_trichotomy (sortKey env a) (sortKey env b) with h1 | h1 | h1
    · exact h1
    · have := k2 h1
      omega
    · have := k3 h1
      omega
  · rcases lt_trichotomy (sortKey env a) (sortKey env b) with h1 | h1 | h1
    · have := k1 h1
      omega
    · exact h1
    · have := k3 h1
      omega
  · rcases lt_trichotomy (sortKey env a) (sortKey env b) with h1 | h1 | h1
    · have := k1 h1
      omega
    · have := k2 h1
      omega
    · exact h1

theorem sortKey_lt_iff (env : Env) (a b : ImageData)
    (ha : startOf env a ≠ none) (hb : startOf env b ≠ none) :
    sortKey env a < sortKey env b ↔ LexBefore env a b := by
  have ba := startOf_bound env a
  have bb := startOf_bound env b
  obtain ⟨sa, hsa⟩ := Option.ne_none_iff_exists'.1 ha
  obtain ⟨sb, hsb⟩ := Option.ne_none_iff_exists'.1 hb
  unfold LexBefore sortKey classRank invalidRank invalidDate
  simp only [hsa, hsb, Option.getD_some, Option.some.injEq, exists_and_left,
    exists_eq_left'] at ba bb ⊢
  rcases endingRank_le_one env a with h1 | h1 <;> rcases endingRank_le_one env b with h2 | h2 <;>
    by_cases hx : sa = 0 <;> by_cases hy : sb = 0 <;>
    simp [h1, h2, hx, hy] <;> omega

theorem compareImages_ne_none (env : Env) (a b : ImageData)
    (ha : startOf env a ≠ none) (hb : startOf env b ≠ none) :
    compareImages env a b = some (sortCompare (compareImages env) a b) := by
  obtain ⟨sa, hsa⟩ := Option.ne_none_iff_exists'.1 ha
  obtain ⟨sb, hsb⟩ := Option.ne_none_iff_exists'.1 hb
  unfold startOf at hsa hsb
  unfold sortCompare compareImages
  simp only [hsa, hsb, getTime, numSub]
  split_ifs <;> rfl

/-- C24. For one reading of the clock and records whose start dates have time
values (not `NaN`), the comparator of `displayImages` returns a number, and it is a
strict weak order: the sign of `cmp(a, b)` is the opposite of the sign of
`cmp(b, a)`; `cmp(a, b) < 0` and `cmp(b, c) < 0` give `cmp(a, c) < 0`;
`cmp(a, b) = 0` is reflexive, symmetric and transitive; and `cmp(a, b) < 0` holds
exactly when `a` stands before `b` in the lexicographic order on (is `ending`, has
the Invalid start date, start date descending), `cmp(a, b) = 0` exactly when
neither stands before the other. -/
theorem compareImages_strict_weak_order (env : Env) (a b c : ImageData)
    (ha : startOf env a ≠ none) (hb : startOf env b ≠ none) (hc : startOf env c ≠ none) :
    compareImages env a b = some (sortCompare (compareImages env) a b) ∧
    Int.sign (sortCompare (compareImages env) a b) =
      - Int.sign (sortCompare (compareImages env) b a) ∧
    (sortCompare (compareImages env) a b < 0 → sortCompare (compareImages env) b c < 0 →
      sortCompare (compareImages env) a c < 0) ∧
    sortCompare (compareImages env) a a = 0 ∧
    (sortCompare (compareImages env) a b = 0 → sortCompare (compareImages env) b a = 0) ∧
    (sortCompare (compareImages env) a b = 0 → sortCompare (compareImages env) b c = 0 →
      sortCompare (compareImages env) a c = 0) ∧
    (sortCompare (compareImages env) a b < 0 ↔ LexBefore env a b) ∧
    (sortCompare (compareImages env) a b = 0 ↔ ¬ LexBefore env a b ∧ ¬ LexBefore env b a) := by
  obtain ⟨ab1, ab2, ab3⟩ := sortCompare_sortKey env a b ha hb
  obtain ⟨ba1, ba2, ba3⟩ := sortCompare_sortKey env b a hb ha
  obtain ⟨bc1, bc2, _⟩ := sortCompare_sortKey env b c hb hc
  obtain ⟨ac1, ac2, _⟩ := sortCompare_sortKey env a c ha hc
  obtain ⟨_, aa2, _⟩ := sortCompare_sortKey env a a ha ha
  refine ⟨compareImages_ne_none env a b ha hb, ?_, ?_, aa2.2 rfl, ?_, ?_, ?_, ?_⟩
  · rcases lt_trichotomy (sortKey env a) (sortKey env b) with h | h | h
    · rw [Int.sign_eq_neg_one_of_neg (ab1.2 h), Int.sign_eq_one_of_pos (ba3.2 h)]
    · rw [ab2.2 h, ba2.2 h.symm]
      rfl
    · rw [Int.sign_eq_one_of_pos (ab3.2 h), Int.sign_eq_neg_one_of_neg (ba1.2 h)]
      rfl
  · intro h1 h2
    exact ac1.2 (lt_trans (ab1.1 h1) (bc1.1 h2))
  · intro h
    exact ba2.2 (ab2.1 h).symm
  · intro h1 h2
    exact ac2.2 ((ab2.1 h1).trans (bc2.1 h2))
  · rw [ab1, sortKey_lt_iff env a b ha hb]
  · rw [ab2, ← sortKey_lt_iff env a b ha hb, ← sortKey_lt_iff env b a hb ha]
    constructor
    · intro h
      omega
    · intro h
      omega

/-- C24, witness: on 10 April 2024 the February banner stands before the January
banner (both `active`), which stands before the banner that ended on 5 April. -/
theorem compareImages_strict_weak_order_witness :
    sortCompare (compareImages (sampleEnv april10)) bannerFeb bannerJan < 0 ∧
    sortCompare (compareImages (sampleEnv april10)) bannerJan bannerEnded < 0 ∧
    sortCompare (compareImages (sampleEnv april10)) bannerFeb bannerEnded < 0 :=
  ⟨by decide, by decide,
   (compareImages_strict_weak_order (sampleEnv april10) bannerFeb bannerJan bannerEnded
     (by decide) (by decide) (by decide)).2.2.1 (by decide) (by decide)⟩

/-! ## The lifecycle of a banner -/

/-- C25. For a start text that parses to a valid date `s`, any end text, and two
clock readings whose days are `td1 ≤ td2`, the rank of the status on `td1` is at
most the rank of the status on `td2`, under `upcoming < active < ending < none`.
With no end date (absent, empty or blank), in day numbers: the status is `upcoming`
before the day of `s`, `active` on the 10 days `s .. s + 9`, `ending` on the days
`s + 10 .. s + 40`, and `none` from day `s + 41` on. -/
theorem getBannerStatus_lifecycle (env1 env2 : Env) (startDateStr endDateStr : Option JSString)
    (s td1 td2 : Int)
    (hparse : env1.dateParse = env2.dateParse)
    (hstart : convertDateStringToDate env1.dateParse startDateStr = some s) (hvalid : s ≠ 0)
    (htoday1 : todayOf env1.now = some td1) (htoday2 : todayOf env2.now = some td2)
    (hle : td1 ≤ td2) :
    lifecycleRank (getBannerStatus env1 startDateStr endDateStr).status ≤
      lifecycleRank (getBannerStatus env2 startDateStr endDateStr).status ∧
    (isBlank endDateStr →
      ((getBannerStatus env1 startDateStr endDateStr).status = BannerStatus.upcoming ↔
        Day td1 < Day s) ∧
      ((getBannerStatus env1 startDateStr endDateStr).status = BannerStatus.active ↔
        Day s ≤ Day td1 ∧ Day td1 ≤ Day s + 9) ∧
      ((getBannerStatus env1 startDateStr endDateStr).status = BannerStatus.ending ↔
        Day s + 10 ≤ Day td1 ∧ Day td1 ≤ Day s + 40) ∧
      ((getBannerStatus env1 startDateStr endDateStr).status = BannerStatus.none ↔
        Day s + 41 ≤ Day td1)) := by
  have htr : truthy startDateStr = true := truthy_of_valid hstart hvalid
  have hs := convertDateStringToDate_midnight hstart
  have htd1 : IsMidnight td1 := DateUTC_midnight htoday1
  have htd2 : IsMidnight td2 := DateUTC_midnight htoday2
  have hstart2 : convertDateStringToDate env2.dateParse startDateStr = some s := by
    rw [← hparse]
    exact hstart
  obtain ⟨hs1, hs2⟩ := hs
  obtain ⟨ha1, ha2⟩ := htd1
  obtain ⟨hb1, hb2⟩ := htd2
  constructor
  · rw [getBannerStatus_status env1 _ _ htr, getBannerStatus_status env2 _ _ htr,
      newDate_todayOf, newDate_todayOf, htoday1, htoday2, hstart, hstart2,
      setUTCHoursZero_midnight ⟨hs1, hs2⟩, rawEndDate_congr env1 env2 hparse]
    generalize setUTCHoursZero (rawEndDate env2 (some s) endDateStr) = E
    cases E with
    | none =>
      simp only [numLt, getTime, numSub, floorDays, Option.map_none', numGe, numGt,
        decide_eq_true_eq]
      split_ifs <;> first | contradiction | (simp [lifecycleRank] <;> omega)
    | some e =>
      simp only [numLt, getTime, numSub, floorDays, Option.map_some', numGe, numGt,
        decide_eq_true_eq]
      unfold msPerDay
      split_ifs <;> simp [lifecycleRank] <;> omega
  · intro hblank
    rw [getBannerStatus_status env1 _ _ htr, newDate_todayOf, htoday1, hstart,
      setUTCHoursZero_midnight ⟨hs1, hs2⟩, rawEndDate_of_blank env1 s endDateStr ⟨hs1, hs2⟩ hblank]
    unfold Day
    by_cases hr : (s + 10 * msPerDay).natAbs ≤ 8640000000000000
    · have hm : IsMidnight (s + 10 * msPerDay) := by
        refine ⟨?_, hr⟩
        unfold msPerDay at hs1 ⊢
        omega
      rw [TimeClip_of_le hr, setUTCHoursZero_midnight hm]
      simp only [numLt, getTime, numSub, floorDays, Option.map_some', numGe, numGt,
        decide_eq_true_eq]
      unfold msPerDay at *
      refine ⟨?_, ?_, ?_, ?_⟩ <;> split_ifs <;> simp <;> omega
    · have hnone : TimeClip (s + 10 * msPerDay) = none := by
        unfold TimeClip
        rw [if_pos (by omega)]
      rw [hnone]
      simp only [setUTCHoursZero, numLt, getTime, numSub, floorDays, Option.map_none', numGe,
        numGt, decide_eq_true_eq]
      unfold msPerDay at *
      refine ⟨?_, ?_, ?_, ?_⟩ <;> split_ifs <;> first | contradiction | (simp; omega)

/-- C25, witness: start 1 March 2024 with no end date, on 10 March and on 11 March
2024: `active` on the tenth day, `ending` on the eleventh. -/
theorem getBannerStatus_lifecycle_witness :
    lifecycleRank (getBannerStatus (sampleEnv 1710028800000) (some "2024-03-01".toList)
        none).status ≤
      lifecycleRank (getBannerStatus (sampleEnv 1710115200000) (some "2024-03-01".toList)
        none).status ∧
    (getBannerStatus (sampleEnv 1710028800000) (some "2024-03-01".toList) none).status =
      BannerStatus.active ∧
    (getBannerStatus (sampleEnv 1710115200000) (some "2024-03-01".toList) none).status =
      BannerStatus.ending :=
  ⟨(getBannerStatus_lifecycle (sampleEnv 1710028800000) (sampleEnv 1710115200000)
      (some "2024-03-01".toList) none 1709251200000 1710028800000 1710115200000
      rfl (by decide) (by decide) (by decide) (by decide) (by decide)).1,
   by decide, by decide⟩

/-! ## The order of the news -/

theorem orderedInsert_congr {α : Type} (cmp1 cmp2 : α → α → Option Int) (x : α) (l : List α)
    (h : ∀ b ∈ l, cmp1 x b = cmp2 x b) : orderedInsert cmp1 x l = orderedInsert cmp2 x l := by
  induction l with
  | nil => rfl
  | cons y ys ih =>
    have hy : cmp1 x y = cmp2 x y := h y (List.mem_cons_self _ _)
    have ih1 := ih (fun b hb => h b (List.mem_cons_of_mem _ hb))
    unfold orderedInsert sortCompare
    rw [hy, ih1]

theorem arraySort_congr {α : Type} (cmp1 cmp2 : α → α → Option Int) (l : List α)
    (h : ∀ a ∈ l, ∀ b ∈ l, cmp1 a b = cmp2 a b) : arraySort cmp1 l = arraySort cmp2 l := by
  induction l with
  | nil => rfl
  | cons x xs ih =>
    have ih1 := ih (fun a ha b hb =>
      h a (List.mem_cons_of_mem _ ha) b (List.mem_cons_of_mem _ hb))
    unfold arraySort
    rw [ih1]
    apply orderedInsert_congr
    intro b hb
    exact h x (List.mem_cons_self _ _) b (List.mem_cons_of_mem _ ((mem_arraySort cmp2).1 hb))

/-- In news mode, on a list in which no record has the status `ending` and no start
date is the Invalid sentinel, `displayImages` renders the order that
`updateLatestNewsPreview` computes. -/
theorem displayOrder_news_of_no_ending (env : Env) (images : List ImageData)
    (hst : ∀ r ∈ images, statusOf env r ≠ BannerStatus.ending)
    (hvalid : ∀ r ∈ images, startOf env r ≠ invalidDate) :
    displayOrder env true images = sortedNews env images := by
  unfold displayOrder sortStep sortedNews filterStep
  have hf : images.filter (isVisible env true) = images := by
    apply List.filter_eq_self.2
    intro r _
    rfl
  rw [hf]
  apply arraySort_congr
  intro a ha b hb
  have h1 := hst a ha
  have h2 := hst b hb
  have h3 := hvalid a ha
  have h4 := hvalid b hb
  unfold statusOf at h1 h2
  unfold startOf invalidDate at h3 h4
  unfold compareImages compareNews
  simp [h1, h2, getTime, h3, h4]

/-- C26, at the failing input. On 10 April 2024, four news items with valid,
distinct start dates and no end dates: the item of 20 March is `ending` (its
implicit end was 30 March), so the comparator of `displayImages` puts it after
the older items of January 2024 and December 2023.  The rendered order is April,
January, December, March; the order by start date descending, which the preview
uses, is April, March, January, December, and the first three differ. -/
theorem displayOrder_news_fails :
    statusOf (sampleEnv april10) newsMarch = BannerStatus.ending ∧
    statusOf (sampleEnv april10) newsJanuary = BannerStatus.none ∧
    displayOrder (sampleEnv april10) true [newsDecember, newsMarch, newsApril, newsJanuary] =
      [newsApril, newsJanuary, newsDecember, newsMarch] ∧
    sortedNews (sampleEnv april10) [newsDecember, newsMarch, newsApril, newsJanuary] =
      [newsApril, newsMarch, newsJanuary, newsDecember] ∧
    latestThree (sampleEnv april10) [newsDecember, newsMarch, newsApril, newsJanuary] =
      [newsApril, newsMarch, newsJanuary] ∧
    (displayOrder (sampleEnv april10) true
      [newsDecember, newsMarch, newsApril, newsJanuary]).take 3 ≠
      latestThree (sampleEnv april10) [newsDecember, newsMarch, newsApril, newsJanuary] := by
  decide

/-! ## The sentinel and the first day of 1970 -/

theorem YieldsCalendarDate_ne_invalid {tv : TimeValue} {y m d : Nat}
    (h : YieldsCalendarDate tv y m d) (hne : ¬ (y = 1970 ∧ m = 1 ∧ d = 1)) :
    tv ≠ invalidDate := by
  intro h0
  obtain ⟨t, ht, hy, hm, hd, _⟩ := h
  rw [h0] at ht
  unfold invalidDate at ht
  have ht0 : t = 0 := by
    have := Option.some.inj ht
    exact this.symm
  subst ht0
  have e1 : YearFromTime 0 = 1970 := by decide
  have e2 : MonthFromTime 0 = 0 := by decide
  have e3 : DateFromTime 0 = 1 := by decide
  rw [e1] at hy
  rw [e2] at hm
  rw [e3] at hd
  apply hne
  refine ⟨?_, ?_, ?_⟩ <;> omega

/-- C27, amended. Every text that writes, in decimal digits, a calendar date other
than 1 January 1970, with a year of at least 100 (year-month-day with a first
segment of exactly 4 digits, or day-month-year with a first segment that is not 4
characters long and a date within the range of `Date`), yields a date that is not
the sentinel: the test `getTime() === 0` does not take it for Invalid. -/
theorem convertDateStringToDate_not_sentinel (p : JSString → Option Int) (y m d : Nat)
    (ys ms ds : JSString) (s1 s2 : Char)
    (hcal : IsCalendarDate y m d) (hy : 100 ≤ y) (hne : ¬ (y = 1970 ∧ m = 1 ∧ d = 1))
    (hys : IsDecimal ys y) (hms : IsDecimal ms m) (hds : IsDecimal ds d)
    (hs1 : isDateSeparator s1 = true) (hs2 : isDateSeparator s2 = true) :
    (ys.length = 4 →
      getTime (convertDateStringToDate p (some (ys ++ s1 :: (ms ++ s2 :: ds)))) ≠ some 0) ∧
    (ds.length ≠ 4 → InDateRange y m d →
      getTime (convertDateStringToDate p (some (ds ++ s1 :: (ms ++ s2 :: ys)))) ≠ some 0) := by
  constructor
  · intro hlen
    rw [convert_digits_text p ys ms ds s1 s2 y m d hys hms hds hs1 hs2, if_pos hlen]
    have h9 : y ≤ 9999 := by
      have := digitsValue_four ys hys.2.1 hlen
      rw [hys.2.2] at this
      exact this
    exact YieldsCalendarDate_ne_invalid (DateUTC_calendar y m d hcal hy (Or.inl (by omega))) hne
  · intro hlen hr
    rw [convert_digits_text p ds ms ys s1 s2 d m y hds hms hys hs1 hs2, if_neg hlen]
    exact YieldsCalendarDate_ne_invalid (DateUTC_calendar y m d hcal hy hr) hne

/-- C27, witness: the texts `"1970-01-02"` and `"02/01/1970"`. -/
theorem convertDateStringToDate_not_sentinel_witness :
    getTime (convertDateStringToDate (fun _ => none) (some "1970-01-02".toList)) ≠ some 0 ∧
    getTime (convertDateStringToDate (fun _ => none) (some "02/01/1970".toList)) ≠ some 0 :=
  ⟨(convertDateStringToDate_not_sentinel (fun _ => none) 1970 1 2 "1970".toList "01".toList
      "02".toList '-' '-' (by unfold IsCalendarDate; decide) (by decide) (by decide)
      (by unfold IsDecimal; decide) (by unfold IsDecimal; decide) (by unfold IsDecimal; decide)
      (by decide) (by decide)).1 (by decide),
   (convertDateStringToDate_not_sentinel (fun _ => none) 1970 1 2 "1970".toList "01".toList
      "02".toList '/' '/' (by unfold IsCalendarDate; decide) (by decide) (by decide)
      (by unfold IsDecimal; decide) (by unfold IsDecimal; decide) (by unfold IsDecimal; decide)
      (by decide) (by decide)).2 (by decide) (by unfold InDateRange; decide)⟩

/-- C27, counterexample. The texts `"01/01/1970"` and `"1970-01-01"` write a real
calendar date and yield the time value 0, the sentinel.  On 10 April 2024 the
filter takes the banner that ran from 1 to 31 January 1970 for one with an Invalid
start date and keeps it, and the comparator ranks it with the undated banner. -/
theorem convertDateStringToDate_sentinel_counterexample :
    IsCalendarDate 1970 1 1 ∧
    getTime (convertDateStringToDate (fun _ => none) (some "01/01/1970".toList)) = some 0 ∧
    getTime (convertDateStringToDate (fun _ => none) (some "1970-01-01".toList)) = some 0 ∧
    isVisible (sampleEnv april10) false bannerEpoch = true ∧
    numGt (displayDaysSinceEnd (sampleEnv april10) bannerEpoch.endDate) 30 = true ∧
    compareImages (sampleEnv april10) bannerEpoch bannerUndated = some 0 := by
  refine ⟨by unfold IsCalendarDate; decide, by decide, by decide, by decide, by decide, by decide⟩

/-! ## Days and months outside the calendar range -/

theorem firstOfMonth_calendar (y m : Nat) (hm : 1 ≤ m ∧ m ≤ 12) :
    YieldsCalendarDate
      (some ((DayFromYear (y : Int) + monthStart ((m : Int) - 1) (leapFlag y)) * msPerDay))
      y m 1 := by
  have hcal : IsCalendarDate y m 1 := by
    refine ⟨hm.1, hm.2, le_refl 1, ?_⟩
    unfold daysInMonth
    split_ifs <;> omega
  obtain ⟨w0, w1, w2⟩ := calendar_day_within_year y m 1 hcal
  have hWeq : monthStart ((m : Int) - 1) (leapFlag (y : Int)) + ((1 : Nat) : Int) - 1 =
      monthStart ((m : Int) - 1) (leapFlag (y : Int)) := by
    push_cast
    omega
  rw [hWeq] at w0 w1 w2
  generalize hW : monthStart ((m : Int) - 1) (leapFlag (y : Int)) = W at *
  have hsucc := DayFromYear_succ (y : Int)
  have hD : Day ((DayFromYear (y : Int) + W) * msPerDay) = DayFromYear (y : Int) + W := by
    unfold Day msPerDay
    omega
  have hY : YearFromTime ((DayFromYear (y : Int) + W) * msPerDay) = y := by
    unfold YearFromTime
    rw [hD]
    exact yearFromDay_unique (by omega) (by omega)
  have hDW : DayWithinYear ((DayFromYear (y : Int) + W) * msPerDay) = W := by
    unfold DayWithinYear
    rw [hD, hY]
    omega
  have hL : InLeapYear ((DayFromYear (y : Int) + W) * msPerDay) = leapFlag y := by
    unfold InLeapYear
    rw [hY]
  have hM : MonthFromTime ((DayFromYear (y : Int) + W) * msPerDay) = (m : Int) - 1 := by
    unfold MonthFromTime
    rw [hDW, hL]
    exact w2
  refine ⟨(DayFromYear (y : Int) + W) * msPerDay, rfl, hY, hM, ?_, ?_⟩
  · unfold DateFromTime
    rw [hM, hDW, hL]
    have := monthStart_add_dateOfDay ((m : Int) - 1) W (leapFlag y)
    push_cast
    omega
  · unfold TimeWithinDay msPerDay
    omega

theorem DateUTC_carries (y m d : Nat) (hy : 100 ≤ y) :
    ∃ t0 : Int, YearFromTime t0 = (y : Int) + ((m : Int) - 1) / 12 ∧
      MonthFromTime t0 = ((m : Int) - 1) % 12 ∧ DateFromTime t0 = 1 ∧ TimeWithinDay t0 = 0 ∧
      DateUTC (some (y : Int)) (some ((m : Int) - 1)) (some (d : Int)) =
        TimeClip (t0 + ((d : Int) - 1) * msPerDay) := by
  have hYnn : 0 ≤ (y : Int) + ((m : Int) - 1) / 12 := by omega
  have hMnn : 0 ≤ ((m : Int) - 1) % 12 := by omega
  have hM11 : ((m : Int) - 1) % 12 ≤ 11 := by omega
  obtain ⟨yn, hyn⟩ := Int.eq_ofNat_of_zero_le hYnn
  obtain ⟨mi, hmi⟩ := Int.eq_ofNat_of_zero_le hMnn
  have hmi11 : mi ≤ 11 := by omega
  obtain ⟨t, ht, hY, hM, hD, hT⟩ := firstOfMonth_calendar yn (mi + 1) ⟨by omega, by omega⟩
  have hcast : ((mi + 1 : Nat) : Int) - 1 = (mi : Int) := by
    push_cast
    omega
  rw [hcast] at ht hM
  refine ⟨t, ?_, ?_, ?_, hT, ?_⟩
  · rw [hY, hyn]
  · rw [hM, hmi]
  · rw [hD]
    rfl
  · have ht' := (Option.some.inj ht).symm
    have hyr : ¬ (0 ≤ (y : Int) ∧ (y : Int) ≤ 99) := by omega
    unfold DateUTC
    simp only [if_neg hyr, MakeDay, daysBeforeMonth, MakeDate, MakeTime]
    rw [hyn, hmi, ht']
    congr 1
    ring

/-- C28, amended. For natural numbers `d`, `m`, `y` with `y ≥ 100`, written in
decimal digits with any two separators: let `t0` be the first day of the month that
is `m - 1` months after January of year `y` (year `y + floor((m - 1) / 12)`, month
`(m - 1) mod 12`).  The text day-month-year with a first segment that is not 4
characters long, and the text year-month-day with a first segment of exactly 4
digits, yield the date `d - 1` days after `t0` when that date is within the range
of `Date`, and an Invalid Date (`TimeClip`) beyond it. -/
theorem convertDateStringToDate_carries (p : JSString → Option Int) (y m d : Nat)
    (ys ms ds : JSString) (s1 s2 : Char) (hy : 100 ≤ y)
    (hys : IsDecimal ys y) (hms : IsDecimal ms m) (hds : IsDecimal ds d)
    (hs1 : isDateSeparator s1 = true) (hs2 : isDateSeparator s2 = true) :
    ∃ t0 : Int, YearFromTime t0 = (y : Int) + ((m : Int) - 1) / 12 ∧
      MonthFromTime t0 = ((m : Int) - 1) % 12 ∧ DateFromTime t0 = 1 ∧ TimeWithinDay t0 = 0 ∧
      (ds.length ≠ 4 →
        convertDateStringToDate p (some (ds ++ s1 :: (ms ++ s2 :: ys))) =
          TimeClip (t0 + ((d : Int) - 1) * msPerDay)) ∧
      (ys.length = 4 →
        convertDateStringToDate p (some (ys ++ s1 :: (ms ++ s2 :: ds))) =
          TimeClip (t0 + ((d : Int) - 1) * msPerDay)) := by
  obtain ⟨t0, hY, hM, hD, hT, hU⟩ := DateUTC_carries y m d hy
  refine ⟨t0, hY, hM, hD, hT, ?_, ?_⟩
  · intro hlen
    rw [convert_digits_text p ds ms ys s1 s2 d m y hds hms hys hs1 hs2, if_neg hlen]
    exact hU
  · intro hlen
    rw [convert_digits_text p ys ms ds s1 s2 y m d hys hms hds hs1 hs2, if_pos hlen]
    exact hU

/-- C28, witness: `"31/02/2024"`, and the same dates read off with the `getUTC`
methods: 31 February 2024 is 2 March 2024 and 15 of month 13 of 2024 is
15 January 2025. -/
theorem convertDateStringToDate_carries_witness :
    (∃ t0 : Int, YearFromTime t0 = ((2024 : Nat) : Int) + (((2 : Nat) : Int) - 1) / 12 ∧
      MonthFromTime t0 = (((2 : Nat) : Int) - 1) % 12 ∧ DateFromTime t0 = 1 ∧
      TimeWithinDay t0 = 0 ∧
      ("31".toList.length ≠ 4 →
        convertDateStringToDate (fun _ => none) (some "31/02/2024".toList) =
          TimeClip (t0 + (((31 : Nat) : Int) - 1) * msPerDay)) ∧
      ("2024".toList.length = 4 →
        convertDateStringToDate (fun _ => none) (some "2024/02/31".toList) =
          TimeClip (t0 + (((31 : Nat) : Int) - 1) * msPerDay))) ∧
    convertDateStringToDate (fun _ => none) (some "31/02/2024".toList) =
      convertDateStringToDate (fun _ => none) (some "02/03/2024".toList) ∧
    convertDateStringToDate (fun _ => none) (some "15/13/2024".toList) =
      convertDateStringToDate (fun _ => none) (some "15/01/2025".toList) :=
  ⟨convertDateStringToDate_carries (fun _ => none) 2024 2 31 "2024".toList "02".toList
      "31".toList '/' '/' (by decide) (by unfold IsDecimal; decide)
      (by unfold IsDecimal; decide) (by unfold IsDecimal; decide) (by decide) (by decide),
   by decide, by decide⟩

/-- C28, counterexample. The text `"01/13/275760"` is three-part numeric; its month
13 is carried over into January 275761, beyond the last day a `Date` can hold, and
the result is an Invalid Date.  The text `"1000/01/2024"`, day 1000 of January
2024, has a first segment of 4 digits and is read as year 1000, month 1, day
2024: it yields a date in the year 1005. -/
theorem convertDateStringToDate_carries_counterexample :
    IsThreePartNumeric "01/13/275760".toList ∧
    convertDateStringToDate (fun _ => none) (some "01/13/275760".toList) = none ∧
    getUTCFullYear (convertDateStringToDate (fun _ => none) (some "1000/01/2024".toList)) =
      some 1005 := by
  refine ⟨⟨"01".toList, "13".toList, "275760".toList, by decide, by decide, by decide,
    by decide⟩, by decide, by decide⟩

/-! ## Property keys -/

theorem digit_toNat_bounds {c : Char} (h : isDecimalDigit c = true) :
    48 ≤ c.toNat ∧ c.toNat ≤ 57 := by
  unfold isDecimalDigit at h
  simpa using h

theorem char_eq_of_toNat {c e : Char} (h : c.toNat = e.toNat) : c = e := by
  rw [← Char.ofNat_toNat c, ← Char.ofNat_toNat e, h]

theorem digitsValue_lt_pow (l : List Char) (h : ∀ c ∈ l, isDecimalDigit c = true) :
    digitsValue l < 10 ^ l.length := by
  induction l using List.reverseRecOn with
  | nil => decide
  | append_singleton a c ih =>
    have ha := ih (fun x hx => h x (List.mem_append_left _ hx))
    have hc := digit_toNat_bounds (h c (by simp))
    rw [digitsValue_append_singleton, List.length_append, List.length_singleton, pow_succ]
    omega

theorem pow_le_digitsValue (c : Char) (r : List Char)
    (h : ∀ x ∈ c :: r, isDecimalDigit x = true) (hc : c ≠ '0') :
    10 ^ r.length ≤ digitsValue (c :: r) := by
  induction r using List.reverseRecOn with
  | nil =>
    have hb := digit_toNat_bounds (h c (List.mem_cons_self _ _))
    have hne : c.toNat ≠ 48 := by
      intro h48
      exact hc (char_eq_of_toNat h48)
    show 1 ≤ 10 * 0 + (c.toNat - 48)
    omega
  | append_singleton a e ih =>
    have ha := ih (fun x hx => by
      apply h
      rcases List.mem_cons.1 hx with rfl | hx
      · exact List.mem_cons_self _ _
      · exact List.mem_cons_of_mem _ (List.mem_append_left _ hx))
    have hstep : digitsValue (c :: (a ++ [e])) = 10 * digitsValue (c :: a) + (e.toNat - 48) := by
      rw [← List.cons_append, digitsValue_append_singleton]
    rw [hstep, List.length_append, List.length_singleton, pow_succ]
    omega

theorem digitsValue_inj_of_length (l1 l2 : List Char)
    (h1 : ∀ c ∈ l1, isDecimalDigit c = true) (h2 : ∀ c ∈ l2, isDecimalDigit c = true)
    (hlen : l1.length = l2.length) (hv : digitsValue l1 = digitsValue l2) : l1 = l2 := by
  induction l1 using List.reverseRecOn generalizing l2 with
  | nil =>
    cases l2 with
    | nil => rfl
    | cons c r => simp at hlen
  | append_singleton a c ih =>
    rcases List.eq_nil_or_concat l2 with rfl | ⟨b, e, rfl⟩
    · simp at hlen
    · rw [List.concat_eq_append] at h2 hlen hv ⊢
      have hc := digit_toNat_bounds (h1 c (by simp))
      have he := digit_toNat_bounds (h2 e (by simp))
      rw [digitsValue_append_singleton, digitsValue_append_singleton] at hv
      have hab : a = b := by
        apply ih b (fun x hx => h1 x (List.mem_append_left _ hx))
          (fun x hx => h2 x (List.mem_append_left _ hx))
        · simpa using hlen
        · omega
      have hce : c = e := char_eq_of_toNat (by omega)
      rw [hab, hce]

theorem arrayIndex_facts {k : JSString} {n : Nat} (h : arrayIndex k = some n) :
    k ≠ [] ∧ (∀ c ∈ k, isDecimalDigit c = true) ∧
      (1 < k.length → k.head? ≠ some '0') ∧ digitsValue k = n := by
  unfold arrayIndex at h
  split_ifs at h with h1 h2 h3 h4
  refine ⟨?_, ?_, ?_, ?_⟩
  · intro he
    rw [he] at h1
    simp at h1
  · intro c hc
    have : k.all isDecimalDigit = true := by simpa using h2
    exact List.all_eq_true.1 this c hc
  · intro hl hh
    exact h3 ⟨hl, hh⟩
  · exact Option.some.inj h

theorem canonical_length_le (k k' : JSString) (n : Nat)
    (h : arrayIndex k = some n) (h' : arrayIndex k' = some n) : k'.length ≤ k.length := by
  obtain ⟨hne, hd, _, hv⟩ := arrayIndex_facts h
  obtain ⟨hne', hd', hz', hv'⟩ := arrayIndex_facts h'
  by_contra hlt
  have hlt' : k.length < k'.length := by omega
  have hpos : 0 < k.length := List.length_pos.2 hne
  cases k' with
  | nil => exact hne' rfl
  | cons c r =>
    have hc : c ≠ '0' := by
      intro hc
      apply hz' (by omega)
      rw [hc]
      rfl
    have hlow := pow_le_digitsValue c r hd' hc
    have hup := digitsValue_lt_pow k hd
    have hpow : 10 ^ k.length ≤ 10 ^ r.length := by
      apply Nat.pow_le_pow_right (by decide)
      simp at hlt'
      omega
    omega

theorem arrayIndex_inj (k k' : JSString) (n : Nat)
    (h : arrayIndex k = some n) (h' : arrayIndex k' = some n) : k = k' := by
  have l1 := canonical_length_le k k' n h h'
  have l2 := canonical_length_le k' k n h' h
  obtain ⟨_, hd, _, hv⟩ := arrayIndex_facts h
  obtain ⟨_, hd', _, hv'⟩ := arrayIndex_facts h'
  exact digitsValue_inj_of_length k k' hd hd' (by omega) (by rw [hv, hv'])

theorem classifyKey_inj (k k' : JSString) (h : classifyKey k = classifyKey k') : k = k' := by
  unfold classifyKey at h
  cases h1 : arrayIndex k with
  | none =>
    cases h2 : arrayIndex k' with
    | none =>
      rw [h1, h2] at h
      simpa using h
    | some m =>
      rw [h1, h2] at h
      simp at h
  | some n =>
    cases h2 : arrayIndex k' with
    | none =>
      rw [h1, h2] at h
      simp at h
    | some m =>
      rw [h1, h2] at h
      have hnm : n = m := by simpa using h
      rw [← hnm] at h2
      exact arrayIndex_inj k k' n h1 h2

/-! ## What a fetch stores -/

theorem fold_get_none {κ : Type} [DecidableEq κ]
    (put : List (κ × Images) → κ → Images → List (κ × Images))
    (hput : ∀ l k v k', assocGet (put l k v) k' = if k = k' then some v else assocGet l k')
    (es l : List (κ × Images)) (k : κ) (h : assocGet es k = none) :
    assocGet (es.foldl (fun acc e => put acc e.1 e.2) l) k = assocGet l k := by
  induction es generalizing l with
  | nil => rfl
  | cons e es ih =>
    obtain ⟨a, v⟩ := e
    unfold assocGet at h
    by_cases hak : a = k
    · simp [hak] at h
    · simp only [if_neg hak] at h
      rw [List.foldl_cons, ih _ h, hput, if_neg hak]

theorem fold_get_some {κ : Type} [DecidableEq κ]
    (put : List (κ × Images) → κ → Images → List (κ × Images))
    (hput : ∀ l k v k', assocGet (put l k v) k' = if k = k' then some v else assocGet l k')
    (es l : List (κ × Images)) (k : κ) (v : Images)
    (hn : (es.map (fun e => e.1)).Nodup) (h : assocGet es k = some v) :
    assocGet (es.foldl (fun acc e => put acc e.1 e.2) l) k = some v := by
  induction es generalizing l with
  | nil => simp [assocGet] at h
  | cons e es ih =>
    obtain ⟨a, w⟩ := e
    simp only [List.map_cons, List.nodup_cons] at hn
    unfold assocGet at h
    by_cases hak : a = k
    · simp only [if_pos hak, Option.some.injEq] at h
      subst hak
      subst h
      rw [List.foldl_cons, fold_get_none put hput es _ a (assocGet_eq_none es a hn.1), hput,
        if_pos rfl]
    · simp only [if_neg hak] at h
      rw [List.foldl_cons]
      exact ih _ hn.2 h

theorem sorted_keys_nodup (l : List (Nat × Images)) (h : l.Pairwise (fun a b => a.1 < b.1)) :
    (l.map (fun e => e.1)).Nodup := by
  unfold List.Nodup
  rw [List.pairwise_map]
  exact h.imp (fun hab => Nat.ne_of_lt hab)

theorem assignAll_getC_some (d n : NationData) (c : Nat ⊕ JSString) (v : Images)
    (hn : n.Canon) (h : n.getC c = some v) : (assignAll d n).getC c = some v := by
  cases c with
  | inl m => exact fold_get_some idxPut (fun l k v k' => assocGet_idxPut l k k' v) _ _ m v (sorted_keys_nodup _ hn.1) h
  | inr k => exact fold_get_some strPut (fun l k v k' => assocGet_strPut l k k' v) _ _ k v hn.2 h

theorem assignAll_getC_none (d n : NationData) (c : Nat ⊕ JSString)
    (h : n.getC c = none) : (assignAll d n).getC c = d.getC c := by
  cases c with
  | inl m => exact fold_get_none idxPut (fun l k v k' => assocGet_idxPut l k k' v) _ _ m h
  | inr k => exact fold_get_none strPut (fun l k v k' => assocGet_strPut l k k' v) _ _ k h

theorem snapshot_getC (d : NationData) (rawData : List BannerRow) (hd : d.Canon)
    (c : Nat ⊕ JSString) :
    (assignAll d (pushAll (resetCopy d) rawData)).getC c =
      if (d.getC c).isSome = true ∨ imagesFor c rawData ≠ [] then some (imagesFor c rawData)
      else none := by
  have hN : (pushAll (resetCopy d) rawData).Canon := pushAll_canon _ _ (resetCopy_canon _ hd)
  cases hdc : d.getC c with
  | some v =>
    have hr : (resetCopy d).getC c = some [] := by rw [getC_resetCopy, hdc]; rfl
    have h1 := getC_pushAll_some _ rawData c _ hr
    rw [assignAll_getC_some d _ c _ hN h1]
    simp
  | none =>
    have hr : (resetCopy d).getC c = none := by rw [getC_resetCopy, hdc]; rfl
    have h1 := getC_pushAll_none _ rawData c hr
    by_cases hi : imagesFor c rawData = []
    · rw [if_pos hi] at h1
      rw [assignAll_getC_none d _ c h1, hdc]
      simp [hi]
    · rw [if_neg hi] at h1
      rw [assignAll_getC_some d _ c _ hN h1]
      simp [hi]

theorem imagesFor_classifyKey (k : JSString) (rawData : List BannerRow) :
    imagesFor (classifyKey k) rawData = recordsFor k rawData := by
  unfold imagesFor recordsFor rowsFor
  show List.map toImageData _ = List.map toImageData _
  congr 1
  apply List.filter_congr
  intro r _
  by_cases h : propertyKey r.nation_key = k
  · simp [h]
  · have : classifyKey (propertyKey r.nation_key) ≠ classifyKey k :=
      fun hc => h (classifyKey_inj _ _ hc)
    simp [h, this]

theorem fetchCycle_changed (page : Page) (silent : Bool) (currentPath : JSString)
    (rawData : List BannerRow) (s : FetchState) (hidle : s.isFetching = false)
    (hfl : s.inFlight = []) (h : WellFormedRecords rawData)
    (hchange : s.lastDataHash ≠ jsonStringify page (pushAll (resetCopy s.nationData) rawData)) :
    (fetchCycle page silent currentPath (Outcome.ok rawData) s).nationData =
      assignAll s.nationData (pushAll (resetCopy s.nationData) rawData) ∧
    (fetchCycle page silent currentPath (Outcome.ok rawData) s).lastDataHash =
      jsonStringify page (pushAll (resetCopy s.nationData) rawData) := by
  have hb : ∀ n, pushRecords n rawData = some (pushAll n rawData) :=
    fun n => pushRecords_eq n rawData h
  unfold fetchCycle settleStep callStep
  simp only [hidle, hfl, tryBlock, buildNewNationData, hb, Bool.false_eq_true, if_false,
    List.nil_append]
  by_cases h1 : s.lastDataHash = []
  · rcases page.settings with _ | _ | _ <;> simp [h1, catchBlock]
  · rcases page.settings with _ | _ | _ <;> simp [h1, hchange, catchBlock]

theorem recordsFor_fields (k : JSString) (rawData : List BannerRow) :
    List.Forall₂ FieldsMapped (recordsFor k rawData) (rowsFor k rawData) := by
  unfold recordsFor
  rw [List.forall₂_map_left_iff]
  exact List.forall₂_same.2 (fun r _ => ⟨rfl, rfl, rfl, rfl, rfl, rfl⟩)

/-- C29. A fetch cycle that receives the records `rawData` (none of which makes
building `newNationData` throw), begun in any state the page can reach with no fetch
in flight, when it is the first load (`lastDataHash` is empty) or detects a change:
afterwards, for every key `k` that `nationData` has, `nationData[k].images` is
exactly the list of the records of `rawData` whose nation key is `k`, in the order
of `rawData`, each image taking `url`, `startDate`, `bannerLink`, `title`, `endDate`
and `id` from the fields `url`, `start_date`, `banner_link`, `title`, `end_date` and
`id` of its record.  Every key that `nationData` had before is
still there, every key of a record is there, and no other key is; so a key with no
record in `rawData`, also one known only from an earlier snapshot, has the empty
list. -/
theorem fetch_stores_snapshot (page : Page) (events : List FetchEvent) (silent : Bool)
    (currentPath : JSString) (rawData : List BannerRow)
    (hidle : (fetchRun page events).isFetching = false)
    (hrec : WellFormedRecords rawData)
    (hchange : (fetchRun page events).lastDataHash = [] ∨
      ∃ n, buildNewNationData (fetchRun page events).nationData rawData = some n ∧
        (fetchRun page events).lastDataHash ≠ jsonStringify page n) :
    (∀ (k : JSString) (imgs : Images),
      (fetchCycle page silent currentPath (Outcome.ok rawData)
        (fetchRun page events)).nationData.get k = some imgs →
      imgs = recordsFor k rawData ∧ List.Forall₂ FieldsMapped imgs (rowsFor k rawData)) ∧
    (∀ k : JSString, ((fetchRun page events).nationData.get k).isSome = true →
      (fetchCycle page silent currentPath (Outcome.ok rawData)
        (fetchRun page events)).nationData.get k = some (recordsFor k rawData)) ∧
    (∀ k : JSString, recordsFor k rawData ≠ [] →
      (fetchCycle page silent currentPath (Outcome.ok rawData)
        (fetchRun page events)).nationData.get k = some (recordsFor k rawData)) ∧
    (∀ k : JSString, (fetchRun page events).nationData.get k = none →
      recordsFor k rawData = [] →
      (fetchCycle page silent currentPath (Outcome.ok rawData)
        (fetchRun page events)).nationData.get k = none) := by
  have hfl : (fetchRun page events).inFlight = [] := by
    have := fetchRun_invariant page events
    rw [hidle] at this
    exact List.length_eq_zero.1 (by simpa using this)
  have hcanon := fetchRun_canon page events
  have hne : (fetchRun page events).lastDataHash ≠
      jsonStringify page (pushAll (resetCopy (fetchRun page events).nationData) rawData) := by
    rcases hchange with h | ⟨n, hn, hneq⟩
    · rw [h]
      exact (List.cons_ne_nil _ _).symm
    · unfold buildNewNationData at hn
      rw [pushRecords_eq _ rawData hrec] at hn
      rw [Option.some.inj hn]
      exact hneq
  obtain ⟨hdata, _⟩ :=
    fetchCycle_changed page silent currentPath rawData (fetchRun page events) hidle hfl hrec hne
  have hget : ∀ k : JSString,
      (fetchCycle page silent currentPath (Outcome.ok rawData)
        (fetchRun page events)).nationData.get k =
      if ((fetchRun page events).nationData.get k).isSome = true ∨ recordsFor k rawData ≠ []
      then some (recordsFor k rawData) else none := by
    intro k
    rw [hdata]
    unfold NationData.get
    rw [snapshot_getC _ rawData hcanon, imagesFor_classifyKey]
  refine ⟨?_, ?_, ?_, ?_⟩
  · intro k imgs h
    rw [hget k] at h
    split_ifs at h
    have himgs : imgs = recordsFor k rawData := (Option.some.inj h).symm
    refine ⟨himgs, ?_⟩
    rw [himgs]
    exact recordsFor_fields k rawData
  · intro k hk
    rw [hget k, if_pos (Or.inl hk)]
  · intro k hk
    rw [hget k, if_pos (Or.inr hk)]
  · intro k h1 h2
    rw [hget k, if_neg]
    rw [h1, h2]
    simp

/-- C29, witness: the first load, with two rows of Vietnam and one of Japan. -/
theorem fetch_stores_snapshot_witness :
    (fetchCycle samplePage false "/".toList (Outcome.ok sampleRows)
      (fetchRun samplePage [])).nationData.get "vietnam".toList =
      some (recordsFor "vietnam".toList sampleRows) :=
  (fetch_stores_snapshot samplePage [] false "/".toList sampleRows rfl
    (by unfold WellFormedRecords; decide) (Or.inl rfl)).2.1 "vietnam".toList (by decide)

/-- C29, on the sample: after a first load with rows of Vietnam and Japan, a poll
that receives one row of Vietnam only leaves Japan with the empty list and Vietnam
with that row; a key never seen has no entry. -/
theorem fetch_stores_snapshot_sample :
    (fetchCycle samplePage true "/".toList (Outcome.ok sampleRowsLater)
      (fetchCycle samplePage false "/".toList (Outcome.ok sampleRows)
        initialFetchState)).nationData.get "japan".toList = some [] ∧
    (fetchCycle samplePage true "/".toList (Outcome.ok sampleRowsLater)
      (fetchCycle samplePage false "/".toList (Outcome.ok sampleRows)
        initialFetchState)).nationData.get "vietnam".toList =
      some [toImageData (sampleRow 4 (some "vietnam".toList) (some "01/04/2024".toList) none)] ∧
    (fetchCycle samplePage true "/".toList (Outcome.ok sampleRowsLater)
      (fetchCycle samplePage false "/".toList (Outcome.ok sampleRows)
        initialFetchState)).nationData.get "korea".toList = none := by
  decide

/-! ## The end of a successful fetch -/

/-- C30, at the failing input. The identifier `settings` read at line 310 has no
binding in `script.js`, so reading it throws: whenever the records are processed
without error, the `try` block is left by an exception and the `catch` block runs.
On the first load (not silent) of three well-formed rows, on a page with an image
grid, the effects are the request, the log of the initial load, the log of the
error and the error placeholder written to the grid; `nationData` and
`lastDataHash` have been updated before.  Were `settings` bound, the same fetch
would not enter `catch`. -/
theorem fetch_success_enters_catch :
    samplePage.settings = none ∧
    (∀ (page : Page) (silent : Bool) (currentPath : JSString) (rawData : List BannerRow)
        (s : FetchState), page.settings = none →
        (tryBlock page silent currentPath s (Outcome.ok rawData)).2 = true) ∧
    (∀ (page : Page) (silent : Bool) (currentPath : JSString) (rawData : List BannerRow)
        (s : FetchState) (b : Bool), page.settings = some b → WellFormedRecords rawData →
        (tryBlock page silent currentPath s (Outcome.ok rawData)).2 = false) ∧
    WellFormedRecords sampleRows ∧
    (fetchCycle samplePage false "/".toList (Outcome.ok sampleRows) initialFetchState).effects =
      [Effect.request, Effect.consoleLog, Effect.consoleError, Effect.errorPlaceholder] ∧
    (fetchCycle samplePage false "/".toList (Outcome.ok sampleRows)
      initialFetchState).nationData.get "vietnam".toList =
      some (recordsFor "vietnam".toList sampleRows) ∧
    (fetchCycle samplePage false "/".toList (Outcome.ok sampleRows)
      initialFetchState).lastDataHash ≠ [] := by
  refine ⟨rfl, ?_, ?_, by unfold WellFormedRecords; decide, by decide, by decide, by decide⟩
  · intro page silent currentPath rawData s hs
    unfold tryBlock
    simp only [hs]
    cases buildNewNationData s.nationData rawData <;> rfl
  · intro page silent currentPath rawData s b hs hwf
    unfold tryBlock buildNewNationData
    simp only [hs, pushRecords_eq _ rawData hwf]
    cases b <;> rfl

/-! ## The filter step, with the sentinel read as the code reads it -/

theorem convert_of_unparseable (p : JSString → Option Int) (str : JSString)
    (hparts : ¬ IsThreePartNumeric str) (hparse : p str = none) :
    convertDateStringToDate p (some str) = invalidDate := by
  have h0 : newDate (some 0) = invalidDate := by decide
  cases str with
  | nil => exact h0
  | cons c cs =>
    show (match dateFromParts (c :: cs) with
      | some d => d
      | none => dateFromParse p (c :: cs)) = invalidDate
    rw [dateFromParts_eq_none _ hparts]
    unfold dateFromParse
    simp only [hparse, Option.none_bind, getTime]
    exact h0

/-- C2, amended. In news mode the filter step keeps every record.  Otherwise, for
the day `td` computed from the clock, it keeps a record iff the date parsed from its
start text has the time value 0 or its day count `daysSinceEnd` is at most 30, the
day count being taken from the effective end date that `getBannerStatus` returns (a
record whose effective end has no time value has no day count and is kept); the
records it drops are exactly those whose start date has not the time value 0 and
whose `daysSinceEnd` is above 30.  The time value 0 is what an absent, empty or
unparseable start text yields, so every such record is kept. -/
theorem filterStep_visible (env : Env) (images : List ImageData) (td : Int)
    (htoday : todayOf env.now = some td) :
    filterStep env true images = images ∧
    (∀ r : ImageData, r ∈ filterStep env false images ↔
      r ∈ images ∧
        (startOf env r = invalidDate ∨
          ∀ e : Int, (getBannerStatus env r.startDate r.endDate).endDate = some (some e) →
            daysSinceEnd td e ≤ 30)) ∧
    (∀ r : ImageData, r ∈ images →
      (r ∉ filterStep env false images ↔
        startOf env r ≠ invalidDate ∧
          ∃ e : Int, (getBannerStatus env r.startDate r.endDate).endDate = some (some e) ∧
            30 < daysSinceEnd td e)) ∧
    (∀ r : ImageData, r ∈ images →
      (truthy r.startDate = false ∨
        ∃ str : JSString, r.startDate = some str ∧ ¬ IsThreePartNumeric str ∧
          env.dateParse str = none) →
      getTime (startOf env r) = some 0 ∧ r ∈ filterStep env false images) := by
  have hkeep : ∀ r : ImageData, r ∈ images → startOf env r = invalidDate →
      r ∈ filterStep env false images := by
    intro r hr hinv
    unfold filterStep
    rw [List.mem_filter, isVisible_iff env r td htoday]
    exact ⟨hr, Or.inl hinv⟩
  refine ⟨?_, ?_, ?_, ?_⟩
  rotate_left 3
  · intro r hr h
    have hinv : startOf env r = invalidDate := by
      rcases h with h | ⟨str, hs, hparts, hparse⟩
      · exact convert_of_not_truthy h
      · unfold startOf
        rw [hs]
        exact convert_of_unparseable env.dateParse str hparts hparse
    exact ⟨hinv, hkeep r hr hinv⟩
  · unfold filterStep
    exact List.filter_eq_self.2 (fun a _ => by simp [isVisible])
  · intro r
    unfold filterStep
    rw [List.mem_filter, isVisible_iff env r td htoday]
  · intro r hr
    unfold filterStep
    rw [List.mem_filter, isVisible_iff env r td htoday]
    constructor
    · intro h
      by_contra hcon
      apply h
      refine ⟨hr, ?_⟩
      by_cases hinv : startOf env r = invalidDate
      · exact Or.inl hinv
      · right
        intro e he
        by_contra hgt
        exact hcon ⟨hinv, e, he, by omega⟩
    · rintro ⟨hinv, e, he, hgt⟩ ⟨_, h⟩
      rcases h with h | h
      · exact hinv h
      · have := h e he
        omega

/-- C2, witness: on 10 April 2024 the filter applied to three sample banners. -/
theorem filterStep_visible_witness :
    filterStep (sampleEnv april10) true [bannerJan, bannerEnded, bannerUndated] =
      [bannerJan, bannerEnded, bannerUndated] ∧
    (∀ r : ImageData,
      r ∈ filterStep (sampleEnv april10) false [bannerJan, bannerEnded, bannerUndated] ↔
      r ∈ [bannerJan, bannerEnded, bannerUndated] ∧
        (startOf (sampleEnv april10) r = invalidDate ∨
          ∀ e : Int, (getBannerStatus (sampleEnv april10) r.startDate r.endDate).endDate =
            some (some e) → daysSinceEnd 1712707200000 e ≤ 30)) :=
  ⟨(filterStep_visible (sampleEnv april10) [bannerJan, bannerEnded, bannerUndated]
      1712707200000 (by decide)).1,
    (filterStep_visible (sampleEnv april10) [bannerJan, bannerEnded, bannerUndated]
      1712707200000 (by decide)).2.1⟩

/-- C2, counterexample. On 10 April 2024: the banner with the start text
`"01/01/1970"` and the end text `"31/01/1970"` has a start text that writes a
calendar date and a day count of 19793, yet its start date has the time value 0 and
the filter keeps it; the banner with the start text `"01/01/999999"`, which yields
no date, and the end text `"01/01/2024"`, 100 days past, is dropped. -/
theorem filterStep_visible_counterexample :
    IsCalendarDate 1970 1 1 ∧
    startOf (sampleEnv april10) bannerEpoch = invalidDate ∧
    displayDaysSinceEnd (sampleEnv april10) bannerEpoch.endDate = some 19793 ∧
    filterStep (sampleEnv april10) false [bannerEpoch] = [bannerEpoch] ∧
    startOf (sampleEnv april10) bannerFarPast = none ∧
    displayDaysSinceEnd (sampleEnv april10) bannerFarPast.endDate = some 100 ∧
    filterStep (sampleEnv april10) false [bannerFarPast] = [] := by
  refine ⟨by unfold IsCalendarDate; decide, by decide, by decide, by decide, by decide,
    by decide, by decide⟩


/-! ## Stability of the order -/

theorem pair_sublist_trans {α : Type} (l : List α) (hn : l.Nodup) {a b c : α}
    (h1 : [a, b].Sublist l) (h2 : [b, c].Sublist l) : [a, c].Sublist l := by
  induction l with
  | nil => cases h1
  | cons x xs ih =>
    obtain ⟨hx, hxs⟩ := List.nodup_cons.1 hn
    cases h1 with
    | cons _ h1' =>
      have hb : b ∈ xs := h1'.subset (by simp)
      cases h2 with
      | cons _ h2' => exact (ih hxs h1' h2').cons x
      | cons₂ _ h2' => exact absurd hb hx
    | cons₂ _ h1' =>
      have hb : b ∈ xs := h1'.subset (by simp)
      cases h2 with
      | cons _ h2' =>
        have hc : c ∈ xs := h2'.subset (by simp)
        exact (List.singleton_sublist.2 hc).cons₂ _
      | cons₂ _ h2' => exact absurd hb hx

/-- The order of `displayImages` on lists without `NaN`. When every start date in
the list has a time value, the comparator is consistent on the list and the result
of the sort is fixed by ECMA-262: the sorted list follows the comparator, two
records that the comparator ranks as equal keep the order they had in the input,
and sorting the sorted list again returns it unchanged. -/
theorem sortStep_stable_idempotent (env : Env) (images : List ImageData)
    (hfin : ∀ r ∈ images, startOf env r ≠ none) :
    (sortStep env images).Pairwise (fun a b => sortCompare (compareImages env) a b ≤ 0) ∧
    (∀ a b : ImageData, sortCompare (compareImages env) a b = 0 →
      [a, b].Sublist images → [a, b].Sublist (sortStep env images)) ∧
    sortStep env (sortStep env images) = sortStep env images := by
  refine ⟨?_, ?_, ?_⟩
  · have hkey : (sortStep env images).Pairwise (fun a b => sortKey env a ≤ sortKey env b) :=
      arraySort_pairwise_rank (compareImages env) (sortKey env) images
        (fun a ha b hb h => compareImages_sortKey_lt env a b (hfin a ha) (hfin b hb) h)
        (fun a ha b hb h => compareImages_sortKey_gt env a b (hfin a ha) (hfin b hb) h)
    have hmem : ∀ r ∈ sortStep env images, startOf env r ≠ none :=
      fun r hr => hfin r ((mem_arraySort (compareImages env)).1 hr)
    refine (List.Pairwise.and_mem.1 hkey).imp ?_
    rintro a b ⟨ha, hb, hab⟩
    have h3 := (sortCompare_sortKey env a b (hmem a ha) (hmem b hb)).2.2
    by_contra hpos
    have := h3.1 (by omega)
    omega
  · intro a b hab h
    exact pair_sublist_arraySort (compareImages env) (by omega) h
  · exact arraySort_of_chain (compareImages env) _
      (arraySort_chain (compareImages env) (compareImages_antisymm env) images)

/-- C6, at the failing input. On 10 April 2024, the list of the banners of January,
February, the year 999999 and March, all `active`: the comparator returns `NaN` for
the banner of the year 999999 against each of the others, so it ranks February
equal to it and it equal to March, while it puts March strictly before February.
No arrangement of the four records both keeps the records ranked equal in their
input order and follows the comparator: a sort that places March by the comparator
moves it in front of the banner of the year 999999, which stood before it.  So does
the arrangement March, February, January, 999999, which follows the comparator and
does not keep the ties. -/
theorem sortStep_stability_fails :
    compareImages (sampleEnv april10) bannerFeb bannerFarYear = none ∧
    compareImages (sampleEnv april10) bannerFarYear bannerMar = none ∧
    compareImages (sampleEnv april10) bannerMar bannerFarYear = none ∧
    sortCompare (compareImages (sampleEnv april10)) bannerMar bannerFeb < 0 ∧
    sortCompare (compareImages (sampleEnv april10)) bannerMar bannerJan < 0 ∧
    (∀ l : List ImageData, l.Perm [bannerJan, bannerFeb, bannerFarYear, bannerMar] →
      ¬ (KeepsTies (sampleEnv april10) [bannerJan, bannerFeb, bannerFarYear, bannerMar] l ∧
        InComparatorOrder (sampleEnv april10) l)) ∧
    (∀ l : List ImageData,
      [bannerMar, bannerFarYear].Sublist l →
      ¬ KeepsTies (sampleEnv april10) [bannerJan, bannerFeb, bannerFarYear, bannerMar] l ∨
        ¬ l.Nodup) ∧
    InComparatorOrder (sampleEnv april10) [bannerMar, bannerFeb, bannerJan, bannerFarYear] ∧
    ¬ KeepsTies (sampleEnv april10) [bannerJan, bannerFeb, bannerFarYear, bannerMar]
      [bannerMar, bannerFeb, bannerJan, bannerFarYear] := by
  have hFM : sortCompare (compareImages (sampleEnv april10)) bannerFarYear bannerMar = 0 := by
    decide
  have hFF : sortCompare (compareImages (sampleEnv april10)) bannerFeb bannerFarYear = 0 := by
    decide
  have hMF : sortCompare (compareImages (sampleEnv april10)) bannerMar bannerFeb < 0 := by
    decide
  refine ⟨by decide, by decide, by decide, hMF, by decide, ?_, ?_, ?_, ?_⟩
  rotate_left 2
  · unfold InComparatorOrder
    decide
  · intro hk
    have h2 := hk bannerFarYear (by decide) bannerMar (by decide) hFM (by decide)
    exact absurd h2 (by decide)
  · rintro l hp ⟨hk, ho⟩
    have hn : l.Nodup := hp.nodup_iff.2 (by decide)
    have h1 := hk bannerFeb (by decide) bannerFarYear (by decide) hFF (by decide)
    have h2 := hk bannerFarYear (by decide) bannerMar (by decide) hFM (by decide)
    have h3 := pair_sublist_trans l hn h1 h2
    have h4 := ho.sublist h3
    simp only [List.pairwise_cons, List.mem_singleton, forall_eq] at h4
    exact h4.1 hMF
  · intro l hsub
    by_cases hn : l.Nodup
    · left
      intro hk
      have h2 := hk bannerFarYear (by decide) bannerMar (by decide) hFM (by decide)
      have h3 := pair_sublist_trans l hn hsub h2
      have h4 : [bannerMar, bannerMar].Sublist l := h3
      have h5 := hn.sublist h4
      simp at h5
    · exact Or.inr hn

end BannerEngine
